import Mathlib

/-! # ConnexThings BC95: modem framer, datagram adapter, CoAP helpers, dispatch

A shallow embedding of the parts of `src/bc95/quectel_bc95.cpp`,
`src/bc95/network.cpp` and `src/bc95/things.cpp` that the properties below
talk about.

Conventions.
* A byte is a `Nat` in `0..255`; `Stream::read()` returning `-1` is `none`.
* Time is a `Nat` number of milliseconds since boot; `millis()` is that
  number reduced modulo `2^32` (`unsigned long` is 32 bits wide on every
  supported board).
* A C buffer is a `List Nat`; the length parameter that accompanies it in the
  source is the length of the list.
-/

namespace BC95

/-! ## Clock -/

/-- The value `millis()` returns at time `t`: a 32-bit `unsigned long`. -/
def millis (t : Nat) : Nat := t % 2 ^ 32

/-- The expression `labs(a - b)` for two `unsigned long` values: the
difference wraps modulo `2^32`, is reinterpreted as a (32-bit) `long`, and
its absolute value is taken (for the single difference `2^31`, where `labs`
has no representable result, the value is `2^31`). -/
def labsDiff (a b : Nat) : Nat :=
  let d := (a + 2 ^ 32 - b % 2 ^ 32) % 2 ^ 32
  if d < 2 ^ 31 then d else 2 ^ 32 - d

/-! ## Character codes -/

/-- Carriage return. -/
def CR : Nat := 13
/-- Line feed. -/
def LF : Nat := 10

/-- The C string held by a buffer: the bytes before the first NUL. -/
def cstr (buf : List Nat) : List Nat := buf.takeWhile (fun c => c != 0)

/-- The literal `"OK"`. -/
def strOK : List Nat := [79, 75]
/-- The literal `"ERROR"`. -/
def strERROR : List Nat := [69, 82, 82, 79, 82]
/-- The literal `"+CME ERROR: "` (12 characters). -/
def strCME : List Nat := [43, 67, 77, 69, 32, 69, 82, 82, 79, 82, 58, 32]

/-! ## `QuectelBC95::Modem::readResponse` -/

def BC95_RESPONSE_TYPE_DATA : Nat := 0
def BC95_RESPONSE_TYPE_OK : Nat := 1
def BC95_RESPONSE_TYPE_ERROR : Nat := 2
def BC95_RESPONSE_TYPE_TIMEOUT : Nat := 3

def BC95_DEFAULT_READ_RESPONSE_TIMEOUT : Nat := 100
def BC95_MIN_RSP_BUF_LEN : Nat := 16

inductive ParserState where
  | StartCR
  | StartLF
  | Payload
  | StopLF
  deriving DecidableEq, Repr

/-- One iteration of the read loop as the environment presents it: the time
at which the iteration runs and what `_stream->read()` returns in it. -/
structure Tick where
  t : Nat
  b : Option Nat
  deriving DecidableEq, Repr

/-- The parser variables of `readResponse` that live across iterations
(`lastReceivedByteMillis` is carried by the loop itself). -/
structure Frame where
  parserState : ParserState
  parsedLen : Nat
  rspBuf : List Nat
  deriving DecidableEq, Repr

/-- What a call of `readResponse` leaves behind: the returned type, the
caller's buffer, `*rspLen`, and the part of the schedule not yet consumed. -/
structure Response where
  type : Nat
  rspBuf : List Nat
  rspLen : Nat
  rest : List Tick
  deriving DecidableEq, Repr

/-- `strcmp(a, lit) == 0` for a buffer `a` and a NUL-free literal. -/
def strcmpEq (a lit : List Nat) : Bool := cstr a == lit

/-- `strncmp(a, lit, n) == 0` for a buffer `a` and a NUL-free literal of at
least `n` characters: the first `n` characters agree (a NUL in `a` differs
from every character of the literal). -/
def strncmpEq (a lit : List Nat) (n : Nat) : Bool := (cstr a).take n == lit.take n

/-- `memmove(buf, buf + off, n)`. -/
def memmove (buf : List Nat) (off n : Nat) : List Nat :=
  (buf.drop off).take n ++ buf.drop n

/-- The `StopLF` branch on `\n`: terminate the buffer, classify the payload.
Returns the type, the buffer and `*rspLen`. -/
def finalize (rspBuf : List Nat) (parsedLen : Nat) : Nat × List Nat × Nat :=
  let buf := rspBuf.set parsedLen 0
  if parsedLen = 2 ∧ buf.getD 0 0 = 79 ∧ buf.getD 1 0 = 75 then
    (BC95_RESPONSE_TYPE_OK, buf, parsedLen)
  else if strcmpEq buf strERROR then
    (BC95_RESPONSE_TYPE_ERROR, buf, parsedLen)
  else if strncmpEq buf strCME 12 then
    (BC95_RESPONSE_TYPE_ERROR, memmove buf 12 (parsedLen - 12 + 1), parsedLen - 12)
  else
    (BC95_RESPONSE_TYPE_DATA, buf, parsedLen)

/-- Outcome of the `switch` on one received byte: either the loop goes on
with new parser variables, `touched` telling whether the branch executed
`lastReceivedByteMillis = millis()`, or the function returns. -/
inductive Step where
  | cont (f : Frame) (touched : Bool)
  | done (type : Nat) (rspBuf : List Nat) (rspLen : Nat)
  deriving DecidableEq, Repr

/-- The body of the `switch (parserState)` for a received byte `b`. The
capacity test is `parsedLen >= rspBufLen-1` with `rspBufLen` the length of
the buffer (at least 1 in every call the source makes). -/
def feed (f : Frame) (b : Nat) : Step :=
  match f.parserState with
  | .StartCR =>
    if b = CR then
      .cont { f with parserState := .StartLF } true
    else
      .cont f false
  | .StartLF =>
    if b = LF then
      .cont { f with parserState := .Payload } true
    else if b = CR then
      .cont f false
    else
      .cont { f with parserState := .StartCR, parsedLen := 0 } false
  | .Payload =>
    if b = CR then
      .cont { f with parserState := .StopLF } true
    else if f.rspBuf.length - 1 ≤ f.parsedLen then
      .cont { f with parserState := .StartCR, parsedLen := 0 } false
    else
      .cont { f with rspBuf := f.rspBuf.set f.parsedLen b,
                     parsedLen := f.parsedLen + 1 } true
  | .StopLF =>
    if b = LF then
      let r := finalize f.rspBuf f.parsedLen
      .done r.1 r.2.1 r.2.2
    else
      .cont { f with parserState := .StartCR, parsedLen := 0 } false

/-- The `do { ... } while (labs(millis() - lastReceivedByteMillis) < timeout)`
loop; `last` is `lastReceivedByteMillis`. A read of `-1` skips the switch
and goes to the loop condition. `none` means the schedule ended before the
call returned. -/
def readLoop (timeout : Nat) : Frame → Nat → List Tick → Option Response
  | _, _, [] => none
  | f, last, tk :: rest =>
    match tk.b with
    | none =>
      if labsDiff (millis tk.t) last < timeout then
        readLoop timeout f last rest
      else
        some ⟨BC95_RESPONSE_TYPE_TIMEOUT, f.rspBuf, 0, rest⟩
    | some b =>
      match feed f b with
      | .done ty buf len => some ⟨ty, buf, len, rest⟩
      | .cont f' touched =>
        let last' := if touched then millis tk.t else last
        if labsDiff (millis tk.t) last' < timeout then
          readLoop timeout f' last' rest
        else
          some ⟨BC95_RESPONSE_TYPE_TIMEOUT, f'.rspBuf, 0, rest⟩

/-- `Modem::readResponse(rspBuf, rspBufLen, rspLen, timeout)` run against a
schedule of loop iterations. The clock is read once per iteration; the
reading taken before the loop is that of the first iteration. -/
def readResponse (rspBuf : List Nat) (timeout : Nat) (ticks : List Tick) : Option Response :=
  match ticks with
  | [] => none
  | tk :: _ => readLoop timeout ⟨.StartCR, 0, rspBuf⟩ (millis tk.t) ticks

/-- `Modem::waitForOK(timeout)`: a 16-byte scratch buffer, result `OK`. -/
def waitForOK (timeout : Nat) (ticks : List Tick) : Option (Bool × List Tick) :=
  (readResponse (List.replicate BC95_MIN_RSP_BUF_LEN 0) timeout ticks).map
    (fun r => (r.type == BC95_RESPONSE_TYPE_OK, r.rest))

/-- The bytes a schedule delivers, in order. -/
def bytesOf (ticks : List Tick) : List Nat := ticks.filterMap (fun tk => tk.b)

/-- A schedule on which the inactivity timeout cannot fire: any two clock
readings taken during it are less than `timeout` apart. -/
def Calm (timeout : Nat) (ticks : List Tick) : Prop :=
  ∀ a ∈ ticks, ∀ c ∈ ticks, labsDiff (millis a.t) (millis c.t) < timeout

/-- The schedule that delivers `bs` back to back at time `t`. -/
def burst (t : Nat) (bs : List Nat) : List Tick := bs.map (fun b => ⟨t, some b⟩)

/-- A frame as the modem sends it: CR LF payload CR LF. -/
def frame (p : List Nat) : List Nat := [CR, LF] ++ p ++ [CR, LF]

/-- The parser of `readResponse` run on the received bytes alone, the clock
left out: the type, buffer and length returned and the bytes left over, or
`none` when the bytes end before a frame is complete. This is what the loop
computes on a schedule on which the timeout does not fire. -/
def parseBytes : Frame → List Nat → Option (Nat × List Nat × Nat × List Nat)
  | _, [] => none
  | f, b :: bs =>
    match feed f b with
    | .done ty buf len => some (ty, buf, len, bs)
    | .cont f' _ => parseBytes f' bs

/-- The buffer after the `Payload` branch has stored the bytes `p` one by
one from index `n` on. -/
def storeAll : List Nat → Nat → List Nat → List Nat
  | buf, _, [] => buf
  | buf, n, b :: p => storeAll (buf.set n b) (n + 1) p

/-- Whether some CR is immediately followed by LF. -/
def hasCRLF : List Nat → Bool
  | a :: b :: r => (a == CR && b == LF) || hasCRLF (b :: r)
  | _ => false

/-! ## `QuectelBC95::Modem::receiveUDPDatagram` -/

def BC95_NSORF_CHUNK_LEN : Nat := 32
def BC95_NSORF_CHUNK_BUF_LEN : Nat := 32 + BC95_NSORF_CHUNK_LEN * 2

/-- `hexCharToInt`. -/
def hexCharToInt (c : Nat) : Nat :=
  if 48 ≤ c ∧ c ≤ 57 then c - 48
  else if 65 ≤ c ∧ c ≤ 70 then 10 + c - 65
  else if 97 ≤ c ∧ c ≤ 102 then 10 + c - 97
  else 0

/-- The C library's `isspace` in the "C" locale. -/
def isspace (c : Nat) : Bool := c == 32 || (9 ≤ c && c ≤ 13)

/-- The C library's `isdigit`. -/
def isdigit (c : Nat) : Bool := 48 ≤ c && c ≤ 57

/-- Reads the longest run of decimal digits: the value accumulated onto
`acc` and the text after the run. -/
def scanDigits : List Nat → Nat → Nat × List Nat
  | [], acc => (acc, [])
  | c :: cs, acc => if isdigit c then scanDigits cs (acc * 10 + (c - 48)) else (acc, c :: cs)

/-- The conversion `%u` of `sscanf`: white space is skipped, an optional
sign and at least one digit are read, and the value is stored in a 32-bit
`unsigned int`. `none` is a matching failure. -/
def scanU (s : List Nat) : Option (Nat × List Nat) :=
  let s1 := s.dropWhile isspace
  let neg := s1.head? == some 45
  let s2 := if s1.head? == some 45 ∨ s1.head? == some 43 then s1.tail else s1
  if (s2.head?.map isdigit) == some true then
    let r := scanDigits s2 0
    some ((if neg then 2 ^ 32 - r.1 % 2 ^ 32 else r.1) % 2 ^ 32, r.2)
  else
    none

/-- A literal character of the format: it must be the next character. -/
def scanLit (c : Nat) (s : List Nat) : Option (List Nat) :=
  match s with
  | x :: r => if x = c then some r else none
  | [] => none

/-- What `sscanf(chunkBuf, "%u,%[^,],%u,%u,%n", ...)` stores when it returns 4
and has executed `%n`. -/
structure ChunkHeader where
  socket : Nat
  remoteAddr : List Nat
  remotePort : Nat
  payloadLen : Nat
  payloadPos : Nat
  deriving DecidableEq, Repr

/-- `sscanf(chunkBuf, "%u,%[^,],%u,%u,%n", ...)` on the C string `s`,
together with the test `!= 4 || payloadPos == 0` that follows it: `none`
when the call fails that test. `%[^,]` takes a non-empty run of characters
other than the comma; `%n` stores the number of characters consumed. -/
def scanChunkHeader (s : List Nat) : Option ChunkHeader :=
  match scanU s with
  | none => none
  | some (socket, r1) =>
  match scanLit 44 r1 with
  | none => none
  | some r2 =>
  let addr := r2.takeWhile (fun c => c != 44)
  if addr = [] then none else
  match scanLit 44 (r2.dropWhile (fun c => c != 44)) with
  | none => none
  | some r3 =>
  match scanU r3 with
  | none => none
  | some (port, r4) =>
  match scanLit 44 r4 with
  | none => none
  | some r5 =>
  match scanU r5 with
  | none => none
  | some (len, r6) =>
  match scanLit 44 r6 with
  | none => none
  | some r7 =>
    if s.length - r7.length = 0 then none
    else some ⟨socket, addr, port, len, s.length - r7.length⟩

/-- The C library's `atoi`: white space, an optional sign, then digits. -/
def atoi (s : List Nat) : Int :=
  let s1 := s.dropWhile isspace
  if s1.head? == some 45 then - ((scanDigits s1.tail 0).1 : Int)
  else if s1.head? == some 43 then ((scanDigits s1.tail 0).1 : Int)
  else ((scanDigits s1 0).1 : Int)

/-- The response structure `udp_rx_data_t` (`dataBuf` is kept beside it).
`socket` and `remotePort` are narrower than the `unsigned int` that `%u`
stores through their address: they keep the low 8 and 16 bits of the value
read; the bytes such a store writes past the field are not modelled. -/
structure udp_rx_data_t where
  socket : Nat
  dataLen : Nat
  remoteAddrIntVal : Nat
  remoteAddrStrVal : List Nat
  remotePort : Nat
  deriving DecidableEq, Repr

/-- The inner `for (i = 0; i < payloadLen; i++)` loop with `n` iterations
left: stop when the output buffer is full, otherwise decode one hex pair of
`payload` into `dataBuf[rsp->dataLen]`. -/
def decodeChunk (payload : List Nat) : Nat → Nat → List Nat → Nat → List Nat × Nat
  | 0, _, dataBuf, dataLen => (dataBuf, dataLen)
  | n + 1, i, dataBuf, dataLen =>
    if dataLen ≥ dataBuf.length then
      (dataBuf, dataLen)
    else
      decodeChunk payload n (i + 1)
        (dataBuf.set dataLen
          ((hexCharToInt (payload.getD (i * 2) 0) * 16
            + hexCharToInt (payload.getD (i * 2 + 1) 0)) % 256))
        (dataLen + 1)

/-- What `receiveUDPDatagram` leaves behind: the returned length, the output
buffer, the response structure and the unconsumed schedule. -/
structure Received where
  ret : Nat
  dataBuf : List Nat
  rsp : udp_rx_data_t
  rest : List Tick
  deriving DecidableEq, Repr

/-- The `while (remaining > 0)` loop of `receiveUDPDatagram`, one chunk
transaction per iteration; `fuel` bounds the number of iterations. On a
failed transaction the function returns 0 (the fields a failed `sscanf` may
have assigned are not tracked). -/
def receiveLoop : Nat → List Nat → List Nat → udp_rx_data_t → List Tick → Option Received
  | 0, _, _, _, _ => none
  | fuel + 1, chunkBuf, dataBuf, rsp, ticks =>
    match readResponse chunkBuf BC95_DEFAULT_READ_RESPONSE_TIMEOUT ticks with
    | none => none
    | some r =>
      if r.type ≠ BC95_RESPONSE_TYPE_DATA then
        some ⟨0, dataBuf, rsp, r.rest⟩
      else
        match scanChunkHeader (cstr r.rspBuf) with
        | none => some ⟨0, dataBuf, rsp, r.rest⟩
        | some h =>
          let rsp1 : udp_rx_data_t :=
            { rsp with socket := h.socket % 256, remoteAddrStrVal := h.remoteAddr,
                       remotePort := h.remotePort % 65536 }
          match waitForOK BC95_DEFAULT_READ_RESPONSE_TIMEOUT r.rest with
          | none => none
          | some (ok, rest) =>
            if ok = false then
              some ⟨0, dataBuf, rsp1, rest⟩
            else
              let d := decodeChunk (r.rspBuf.drop h.payloadPos) h.payloadLen 0 dataBuf rsp1.dataLen
              let rsp2 : udp_rx_data_t := { rsp1 with dataLen := d.2 }
              let remaining :=
                (atoi (cstr (r.rspBuf.drop (h.payloadPos + 2 * h.payloadLen + 1))) % 2 ^ 32).toNat
              if remaining > 0 then
                receiveLoop fuel r.rspBuf d.1 rsp2 rest
              else
                some ⟨d.2, d.1, rsp2, rest⟩

/-- `Modem::receiveUDPDatagram(socket, dataBuf, dataBufLen, rsp)`: the output
buffer and the response are zeroed, then the chunk loop runs. `chunkBuf` is
the initial content of the 96-byte scratch buffer. Every iteration of the
loop consumes at least one iteration of the schedule, so the length of the
schedule bounds the number of transactions. -/
def receiveUDPDatagram (dataBufLen : Nat) (chunkBuf : List Nat) (ticks : List Tick) :
    Option Received :=
  receiveLoop (ticks.length + 1) chunkBuf (List.replicate dataBufLen 0) ⟨0, 0, 0, [], 0⟩ ticks

/-- The bytes a string of hex digit pairs stands for. -/
def hexDecode : List Nat → List Nat
  | h :: l :: r => (hexCharToInt h * 16 + hexCharToInt l) :: hexDecode r
  | _ => []

/-- The value of a string of decimal digits. -/
def digitsVal (ds : List Nat) : Nat := ds.foldl (fun a d => a * 10 + (d - 48)) 0

/-- One chunk record as the modem sends it, field by field (each field is
the text between the commas). -/
structure Chunk where
  socket : List Nat
  addr : List Nat
  port : List Nat
  len : List Nat
  body : List Nat
  remaining : List Nat
  deriving DecidableEq, Repr

/-- The text `<socket>,<addr>,<port>,<len>,<body>,<remaining>`. -/
def Chunk.record (c : Chunk) : List Nat :=
  c.socket ++ 44 :: (c.addr ++ 44 :: (c.port ++ 44 :: (c.len ++ 44 :: (c.body ++ 44 :: c.remaining))))

/-- A successful chunk transaction on the wire: the record as a frame, then
the frame `OK`. -/
def Chunk.wire (c : Chunk) : List Nat := frame c.record ++ frame strOK

/-- Whether a character is a hex digit. -/
def isxdigit (c : Nat) : Bool :=
  (48 ≤ c && c ≤ 57) || (65 ≤ c && c ≤ 70) || (97 ≤ c && c ≤ 102)

/-- A well-formed chunk record: decimal numbers in the numeric fields (the
remaining count within `int`), an address without comma, CR and NUL, a body
of `2 * len` hex digits, and a record that fits the 96-byte chunk buffer. -/
def Chunk.WellFormed (c : Chunk) : Prop :=
  (c.socket ≠ [] ∧ ∀ x ∈ c.socket, isdigit x = true) ∧
  (c.addr ≠ [] ∧ ∀ x ∈ c.addr, x ≠ 44 ∧ x ≠ 0 ∧ x ≠ CR) ∧
  (c.port ≠ [] ∧ ∀ x ∈ c.port, isdigit x = true) ∧
  (c.len ≠ [] ∧ ∀ x ∈ c.len, isdigit x = true) ∧
  (c.remaining ≠ [] ∧ ∀ x ∈ c.remaining, isdigit x = true) ∧
  (∀ x ∈ c.body, isxdigit x = true) ∧
  c.body.length = 2 * digitsVal c.len ∧
  digitsVal c.remaining < 2 ^ 31 ∧
  c.record.length < BC95_NSORF_CHUNK_BUF_LEN

/-- A 32-byte chunk from 1.2.3.4:5683 on socket 0 whose body repeats the hex
digit `fill`, with the given remaining count. -/
def demoChunk (fill : Nat) (remaining : List Nat) : Chunk :=
  ⟨[48], [49, 46, 50, 46, 51, 46, 52], [53, 54, 56, 51], [51, 50],
    List.replicate 64 fill, remaining⟩

/-- Four 32-byte chunks reporting remaining 96, 64, 32, 0. -/
def demoChunks : List Chunk :=
  [demoChunk 49 [57, 54], demoChunk 50 [54, 52], demoChunk 51 [51, 50], demoChunk 65 [48]]

instance (c : Chunk) : Decidable c.WellFormed := by
  unfold Chunk.WellFormed
  infer_instance

/-- The part of a chunk record before the body: the four fields that
`sscanf` reads, each with its comma. -/
def Chunk.header (c : Chunk) : List Nat :=
  c.socket ++ 44 :: (c.addr ++ 44 :: (c.port ++ 44 :: (c.len ++ [44])))

/-- The bytes on the wire for a sequence of chunk transactions. -/
def wireOf : List Chunk → List Nat
  | [] => []
  | c :: cs => c.wire ++ wireOf cs

/-- The chunk bodies (hex text) of a sequence of chunks, concatenated. -/
def bodiesOf : List Chunk → List Nat
  | [] => []
  | c :: cs => c.body ++ bodiesOf cs

/-- The sum of the lengths the chunks declare. -/
def totalLen : List Chunk → Nat
  | [] => 0
  | c :: cs => digitsVal c.len + totalLen cs

/-- Exactly the last chunk of the sequence reports remaining 0. -/
def ExactlyLastZero : List Chunk → Prop
  | [] => False
  | [c] => digitsVal c.remaining = 0
  | c :: c' :: cs => digitsVal c.remaining ≠ 0 ∧ ExactlyLastZero (c' :: cs)

instance instDecidableExactlyLastZero : (cs : List Chunk) → Decidable (ExactlyLastZero cs)
  | [] => isFalse (fun h => h)
  | [c] => inferInstanceAs (Decidable (digitsVal c.remaining = 0))
  | _ :: c' :: cs =>
    @instDecidableAnd _ _ _ (instDecidableExactlyLastZero (c' :: cs))

/-- The bytes the decode loop produces from `n` hex pairs of `payload`
starting at pair `i`. -/
def pairsFrom (payload : List Nat) : Nat → Nat → List Nat
  | _, 0 => []
  | i, n + 1 =>
    ((hexCharToInt (payload.getD (i * 2) 0) * 16
      + hexCharToInt (payload.getD (i * 2 + 1) 0)) % 256) :: pairsFrom payload (i + 1) n

/-! ## `QuectelBC95::Modem`: simple transactions, socket creation, send -/

/-- The bytes of an ASCII string literal. -/
def ascii (s : String) : List Nat := s.toList.map Char.toNat

/-- `Modem::readSimpleDataResponse(rspBuf, rspBufLen, rspLen, timeout)`: a DATA
record, then (only if the first read gave DATA) `waitForOK()` with its
default timeout. Returns the result, the buffer and the unconsumed schedule. -/
def readSimpleDataResponse (rspBuf : List Nat) (timeout : Nat) (ticks : List Tick) :
    Option (Bool × List Nat × List Tick) :=
  match readResponse rspBuf timeout ticks with
  | none => none
  | some r =>
    if r.type = BC95_RESPONSE_TYPE_DATA then
      match waitForOK BC95_DEFAULT_READ_RESPONSE_TIMEOUT r.rest with
      | none => none
      | some (ok, rest) => some (ok, r.rspBuf, rest)
    else
      some (false, r.rspBuf, r.rest)

/-- The conversion of an `int` to the `int8_t` a function returns. -/
def toInt8 (x : Int) : Int := (x + 128) % 256 - 128

/-- `Modem::createSocket(port, recvMsg)`: the handle `atoi(rspBuf)` converted
to `int8_t` when the simple data response succeeds, `-1` otherwise. The
command written depends on `port` and `recvMsg`; the result does not. -/
def createSocket (ticks : List Tick) : Option (Int × List Tick) :=
  match readSimpleDataResponse (List.replicate BC95_MIN_RSP_BUF_LEN 0)
      BC95_DEFAULT_READ_RESPONSE_TIMEOUT ticks with
  | none => none
  | some (ok, rspBuf, rest) =>
    if ok = true then some (toInt8 (atoi (cstr rspBuf)), rest) else some (-1, rest)

/-- The table `HEXMAP[] = "0123456789ABCDEF"`. -/
def HEXMAP : List Nat := [48, 49, 50, 51, 52, 53, 54, 55, 56, 57, 65, 66, 67, 68, 69, 70]

/-- The two characters the send loop writes for one data byte:
`cH = HEXMAP[(b & 0xF0) >> 4]`, `cL = HEXMAP[b & 0x0F]`. -/
def hexPair (b : Nat) : List Nat :=
  [HEXMAP.getD ((b &&& 0xF0) >>> 4) 0, HEXMAP.getD (b &&& 0x0F) 0]

/-- The `for (i = 0; i < dataLen; i++)` loop of `_sendUDPDatagram`: the text
written for the data. -/
def hexEncode : List Nat → List Nat
  | [] => []
  | b :: r => hexPair b ++ hexEncode r

/-- The text `sprintf` produces for `%u`. -/
def utoa (n : Nat) : List Nat := (Nat.toDigits 10 n).map Char.toNat

/-- The text `sprintf` produces for `0x%03X`. -/
def hex3 (n : Nat) : List Nat :=
  let ds := (Nat.toDigits 16 n).map (fun c => c.toUpper.toNat)
  [48, 120] ++ List.replicate (3 - ds.length) 48 ++ ds

/-- `sscanf(rspBuf, "%*u,%u", &bytesSent) == 1` on the C string `s`: the
count stored, `none` when the call does not return 1. -/
def scanSendCount (s : List Nat) : Option Nat :=
  match scanU s with
  | none => none
  | some (_, r1) =>
    match scanLit 44 r1 with
    | none => none
    | some r2 =>
      match scanU r2 with
      | none => none
      | some (n, _) => some n

/-- What `_sendUDPDatagram` leaves behind: the bytes written to the stream,
the value returned and the unconsumed schedule. -/
structure Sent where
  written : List Nat
  ret : Nat
  rest : List Tick
  deriving DecidableEq, Repr

/-- `Modem::_sendUDPDatagram(socket, remoteHost, remotePort, flag, dataBuf,
dataLen)`: the command with the hex text is written, then the reported byte
count is returned when the simple data response succeeds and parses, 0
otherwise. -/
def _sendUDPDatagram (socket : Nat) (remoteHost : List Nat) (remotePort flag : Nat)
    (dataBuf : List Nat) (ticks : List Tick) : Option Sent :=
  let head :=
    if flag = 0 then
      ascii "AT+NSOST=" ++ utoa socket ++ [44] ++ remoteHost ++ [44] ++ utoa remotePort ++ [44]
        ++ utoa dataBuf.length ++ [44]
    else
      ascii "AT+NSOSTF=" ++ utoa socket ++ [44] ++ remoteHost ++ [44] ++ utoa remotePort ++ [44]
        ++ hex3 flag ++ [44] ++ utoa dataBuf.length ++ [44]
  let written := head ++ hexEncode dataBuf ++ [13]
  match readSimpleDataResponse (List.replicate BC95_MIN_RSP_BUF_LEN 0)
      BC95_DEFAULT_READ_RESPONSE_TIMEOUT ticks with
  | none => none
  | some (ok, rspBuf, rest) =>
    if ok = true then
      match scanSendCount (cstr rspBuf) with
      | some bytesSent => some ⟨written, bytesSent, rest⟩
      | none => some ⟨written, 0, rest⟩
    else
      some ⟨written, 0, rest⟩

/-- `netSendUDPPacket(dstAddrStr, dstPort, srcPort, payload, payloadLen)`:
`sendUDPDatagram` on the default socket (an `int8_t` passed as `uint8_t`)
with no flag, and the comparison of its result with `payloadLen`. Returns the
result, the bytes written and the unconsumed schedule. -/
def netSendUDPPacket (defaultSocket : Int) (dstAddrStr : List Nat) (dstPort : Nat)
    (payload : List Nat) (ticks : List Tick) : Option (Bool × List Nat × List Tick) :=
  match _sendUDPDatagram (defaultSocket % 256).toNat dstAddrStr dstPort 0 payload ticks with
  | none => none
  | some r => some (r.ret == payload.length, r.written, r.rest)

/-- Whether a character is one of `0-9 A-F`. -/
def isUpperHex (c : Nat) : Bool := (48 ≤ c && c ≤ 57) || (65 ≤ c && c ≤ 70)

/-! ## `network.cpp`: message IDs and the received-message-ID table -/

/-- `netGetNextCoAPMessageId()` on the `uint16_t` counter `coapMessageId`:
returns the value handed out and the counter it leaves. -/
def netGetNextCoAPMessageId (coapMessageId : Nat) : Nat × Nat :=
  let c := (coapMessageId + 1) % 65536
  let c := if c = 0 then 1 else c
  (c, c)

/-- The values returned by `n` successive calls of `netGetNextCoAPMessageId`
starting from counter `c`. -/
def messageIdCalls : Nat → Nat → List Nat
  | 0, _ => []
  | n + 1, c => (netGetNextCoAPMessageId c).1 :: messageIdCalls n (netGetNextCoAPMessageId c).2

def NET_COAP_RECEIVED_MSG_ID_ENTRY_TIMEOUT : Nat := 30000

structure recv_msg_id_t where
  address : Nat
  port : Nat
  messageId : Nat
  tsMillis : Nat
  deriving DecidableEq, Repr

/-- The table `coapMsgTrackingList` (its length is
`NET_COAP_RECEIVED_MSG_ID_LIST_LEN`) and the cursor `msgTrackingNewEntryPos`. -/
structure MsgTracking where
  coapMsgTrackingList : List recv_msg_id_t
  msgTrackingNewEntryPos : Nat
  deriving DecidableEq, Repr

/-- The search loop of `netIsCoAPMessageIdDuplicate` over the entries from
the current index on: `true` as soon as a matching entry is inside the
window; a matching entry outside it is zeroed and the search goes on. -/
def scanTracking (now srcAddress srcPort messageId : Nat) :
    List recv_msg_id_t → Bool × List recv_msg_id_t
  | [] => (false, [])
  | e :: es =>
    if srcAddress = e.address ∧ srcPort = e.port ∧ messageId = e.messageId then
      if labsDiff now e.tsMillis < NET_COAP_RECEIVED_MSG_ID_ENTRY_TIMEOUT then
        (true, e :: es)
      else
        ((scanTracking now srcAddress srcPort messageId es).1,
          ⟨0, 0, 0, 0⟩ :: (scanTracking now srcAddress srcPort messageId es).2)
    else
      ((scanTracking now srcAddress srcPort messageId es).1,
        e :: (scanTracking now srcAddress srcPort messageId es).2)

/-- `netIsCoAPMessageIdDuplicate(srcAddress, srcPort, messageId)` called at
time `t` (the clock is read once per call). -/
def netIsCoAPMessageIdDuplicate (t : Nat) (st : MsgTracking)
    (srcAddress srcPort messageId : Nat) : Bool × MsgTracking :=
  let r := scanTracking (millis t) srcAddress srcPort messageId st.coapMsgTrackingList
  if r.1 then
    (true, { st with coapMsgTrackingList := r.2 })
  else
    (false,
      { coapMsgTrackingList :=
          r.2.set st.msgTrackingNewEntryPos ⟨srcAddress, srcPort, messageId, millis t⟩,
        msgTrackingNewEntryPos :=
          ((st.msgTrackingNewEntryPos + 1) % 256) % st.coapMsgTrackingList.length })

/-! ## `things.cpp`: inbound dispatch -/

def TP_COAP_TOKEN_LEN : Nat := 4

def TP_EVENT_UNDEFINED : Nat := 0
def TP_EVENT_TELEMETRY_SEND_RESPONSE : Nat := 1
def TP_EVENT_CLIENT_ATTR_READ_RESPONSE : Nat := 2
def TP_EVENT_CLIENT_ATTR_WRITE_RESPONSE : Nat := 3
def TP_EVENT_SHARED_ATTR_READ_RESPONSE : Nat := 4
def TP_EVENT_SHARED_ATTR_NOTIFY : Nat := 5
def TP_EVENT_OUTGOING_RPC_RESPONSE : Nat := 6
def TP_EVENT_INCOMING_RPC_REQUEST : Nat := 7

structure thing_info_t where
  id : String
  name : String
  thingToken : String
  telemetrySendToken : List Nat
  clientAttrReadToken : List Nat
  clientAttrWriteToken : List Nat
  sharedAttrReadToken : List Nat
  sharedAttrObserveToken : List Nat
  outgoingRpcRequestToken : List Nat
  incomingRpcRequestObserveToken : List Nat
  incomingRpcResponseToken : List Nat
  sharedAttrObserveRenewInterval : Nat
  incomingRpcRequestObserveRenewInterval : Nat
  lastSharedAttrObserveMillis : Nat
  lastIncomingRpcRequestObserveMillis : Nat
  deriving DecidableEq, Repr

/-- The fields of a `CoapPDU` the handler reads: `getTokenLength()` is the
length of `token`, `getPayloadLength()` the length of `payload`. -/
structure CoapMessage where
  token : List Nat
  payload : List Nat
  deriving DecidableEq, Repr

/-- One call `hPlatformEvent(type, &thingList[thing], jsonObj)`. -/
structure PlatformEvent (J : Type) where
  type : Nat
  thing : Nat
  jsonObj : J
  deriving DecidableEq, Repr

/-- `memcmp(a, b, n) == 0`. -/
def memcmpEq (a b : List Nat) (n : Nat) : Bool := a.take n == b.take n

/-- The `if / else if` chain that picks `tpEventType` for one thing. -/
def eventTypeFor (tokenBuf : List Nat) (thing : thing_info_t) : Nat :=
  if memcmpEq tokenBuf thing.telemetrySendToken TP_COAP_TOKEN_LEN then
    TP_EVENT_TELEMETRY_SEND_RESPONSE
  else if memcmpEq tokenBuf thing.clientAttrReadToken TP_COAP_TOKEN_LEN then
    TP_EVENT_CLIENT_ATTR_READ_RESPONSE
  else if memcmpEq tokenBuf thing.clientAttrWriteToken TP_COAP_TOKEN_LEN then
    TP_EVENT_CLIENT_ATTR_WRITE_RESPONSE
  else if memcmpEq tokenBuf thing.sharedAttrReadToken TP_COAP_TOKEN_LEN then
    TP_EVENT_SHARED_ATTR_READ_RESPONSE
  else if memcmpEq tokenBuf thing.sharedAttrObserveToken TP_COAP_TOKEN_LEN then
    TP_EVENT_SHARED_ATTR_NOTIFY
  else if memcmpEq tokenBuf thing.incomingRpcRequestObserveToken TP_COAP_TOKEN_LEN then
    TP_EVENT_INCOMING_RPC_REQUEST
  else if memcmpEq tokenBuf thing.outgoingRpcRequestToken TP_COAP_TOKEN_LEN then
    TP_EVENT_OUTGOING_RPC_RESPONSE
  else
    TP_EVENT_UNDEFINED

/-- The `for (i = 0; i < thingCount; i++)` loop from index `i` on, over the
things not yet visited; `registered` is `hPlatformEvent != NULL`. The result
is the sequence of handler calls. -/
def dispatchLoop {J : Type} (registered : Bool) (tokenBuf : List Nat) (jsonObj : J) :
    Nat → List thing_info_t → List (PlatformEvent J)
  | _, [] => []
  | i, thing :: rest =>
    if eventTypeFor tokenBuf thing ≠ TP_EVENT_UNDEFINED ∧ registered = true then
      ⟨eventTypeFor tokenBuf thing, i, jsonObj⟩ :: dispatchLoop registered tokenBuf jsonObj (i + 1) rest
    else
      dispatchLoop registered tokenBuf jsonObj (i + 1) rest

/-- The text handed to the JSON parser: `jsonStr` is zero-filled, receives
`"{}"` for an empty payload and the payload otherwise, and is read as a C
string. -/
def jsonStrOf (payload : List Nat) : List Nat :=
  cstr (if payload.length = 0 then [123, 125] else payload)

/-- The parse stage of `hIncomingCoAPMessage`: a payload longer than
`TP_JSON_STRING_MAX_LEN` (`maxLen`, board dependent) is rejected before
parsing; `parseObject` is ArduinoJson's parser, `none` when
`!jsonObj->success()`. -/
def parseBody {J : Type} (maxLen : Nat) (parseObject : List Nat → Option J)
    (payload : List Nat) : Option J :=
  if payload.length > maxLen then none else parseObject (jsonStrOf payload)

/-- `hIncomingCoAPMessage`: returns the thing list as the call leaves it and
the handler calls it made, in order. -/
def hIncomingCoAPMessage {J : Type} (maxLen : Nat) (parseObject : List Nat → Option J)
    (registered : Bool) (thingList : List thing_info_t) (message : CoapMessage) :
    List thing_info_t × List (PlatformEvent J) :=
  if message.token.length = TP_COAP_TOKEN_LEN then
    match parseBody maxLen parseObject message.payload with
    | none => (thingList, [])
    | some jsonObj => (thingList, dispatchLoop registered message.token jsonObj 0 thingList)
  else
    (thingList, [])

/-- Whether the message token equals one of the seven token slots the
dispatcher compares. -/
def matchesSlot (tokenBuf : List Nat) (thing : thing_info_t) : Bool :=
  memcmpEq tokenBuf thing.telemetrySendToken TP_COAP_TOKEN_LEN
  || memcmpEq tokenBuf thing.clientAttrReadToken TP_COAP_TOKEN_LEN
  || memcmpEq tokenBuf thing.clientAttrWriteToken TP_COAP_TOKEN_LEN
  || memcmpEq tokenBuf thing.sharedAttrReadToken TP_COAP_TOKEN_LEN
  || memcmpEq tokenBuf thing.sharedAttrObserveToken TP_COAP_TOKEN_LEN
  || memcmpEq tokenBuf thing.incomingRpcRequestObserveToken TP_COAP_TOKEN_LEN
  || memcmpEq tokenBuf thing.outgoingRpcRequestToken TP_COAP_TOKEN_LEN

/-- The 27-character line `REBOOT_CAUSE_APPLICATION_AT` the modem prints
after a reboot. -/
def rebootCause : List Nat :=
  [82, 69, 66, 79, 79, 84, 95, 67, 65, 85, 83, 69, 95, 65, 80, 80, 76, 73, 67, 65, 84, 73, 79,
    78, 95, 65, 84]

/-- The payload `+CME ERROR: 5`. -/
def cme5 : List Nat := strCME ++ [53]

/-- A freshly initialised three-slot table (static storage is zeroed). -/
def freshTable3 : MsgTracking := ⟨List.replicate 3 ⟨0, 0, 0, 0⟩, 0⟩

/-- What the search loop does to an entry it finds expired: a matching entry
is zeroed, any other is kept. -/
def clearIfMatch (a p m : Nat) (e : recv_msg_id_t) : recv_msg_id_t :=
  if a = e.address ∧ p = e.port ∧ m = e.messageId then ⟨0, 0, 0, 0⟩ else e

/-- A thing whose eight token slots are `0B 5E 2F 01` .. `0B 5E 2F 08`, as in
the demo configuration, except that the shared-attribute observe token is
`obs` and the telemetry token is `tel`. -/
def demoThing (tel obs : List Nat) : thing_info_t :=
  { id := "8d252e29", name := "Demo Thing", thingToken := "",
    telemetrySendToken := tel,
    clientAttrReadToken := [0x0B, 0x5E, 0x2F, 0x02],
    clientAttrWriteToken := [0x0B, 0x5E, 0x2F, 0x03],
    sharedAttrReadToken := [0x0B, 0x5E, 0x2F, 0x04],
    sharedAttrObserveToken := obs,
    outgoingRpcRequestToken := [0x0B, 0x5E, 0x2F, 0x06],
    incomingRpcRequestObserveToken := [0x0B, 0x5E, 0x2F, 0x07],
    incomingRpcResponseToken := [0x0B, 0x5E, 0x2F, 0x08],
    sharedAttrObserveRenewInterval := 15000,
    incomingRpcRequestObserveRenewInterval := 15000,
    lastSharedAttrObserveMillis := 0,
    lastIncomingRpcRequestObserveMillis := 0 }

/-- A stand-in for the JSON parser in concrete runs: it accepts every text
and returns its length. -/
def acceptAll (text : List Nat) : Option Nat := some text.length

/-- A call of `netIsCoAPMessageIdDuplicate`: the time, and the address, port
and message ID passed. -/
structure DupCall where
  t : Nat
  address : Nat
  port : Nat
  messageId : Nat
  deriving DecidableEq, Repr

/-- The table after a sequence of calls of `netIsCoAPMessageIdDuplicate`. -/
def runCalls (st : MsgTracking) : List DupCall → MsgTracking
  | [] => st
  | c :: cs => runCalls (netIsCoAPMessageIdDuplicate c.t st c.address c.port c.messageId).2 cs

/-- What stays true of the table while calls for other tuples are made: the
cursor is inside the table and every entry holding the tuple `(a, p, m)`
carries the stamp `ts`. -/
def OnlyStamp (a p m ts : Nat) (st : MsgTracking) : Prop :=
  st.msgTrackingNewEntryPos < st.coapMsgTrackingList.length ∧
  ∀ e ∈ st.coapMsgTrackingList,
    (a = e.address ∧ p = e.port ∧ m = e.messageId) → e.tsMillis = ts

/-! ## `things.cpp`: outgoing requests -/

/-- Modelled from the spec: the type `CoapPDU::Type` of the CoAP library
(`coap/cantcoap.h`, not under src/), the four message types
`Confirmable|NonConfirmable|Acknowledgement|Reset`. -/
inductive CoapType where
  | COAP_CONFIRMABLE
  | COAP_NON_CONFIRMABLE
  | COAP_ACKNOWLEDGEMENT
  | COAP_RESET
  deriving DecidableEq, Repr

/-- Modelled from the spec: the constant `CoapPDU::COAP_EMPTY` of the CoAP
library (not under src/), the value of the code field that signals an empty
message. -/
def COAP_EMPTY : Nat := 0

/-- Modelled from the spec: the constant `CoapPDU::COAP_GET` of the CoAP
library (not under src/), the method code of a read. -/
def COAP_GET : Nat := 1

/-- Modelled from the spec: the constant `CoapPDU::COAP_POST` of the CoAP
library (not under src/), the method code of a write. -/
def COAP_POST : Nat := 2

/-- A `CoapPDU` as the send functions build it, field by field: the setters
called on `message` after `reset()`. `observe` records
`addOption(COAP_OPTION_OBSERVE, 1, {0})`, `payload` is `none` when
`setPayload` is not called. -/
structure CoapRequest where
  type : CoapType
  code : Nat
  messageId : Nat
  token : List Nat
  uri : String
  observe : Bool
  payload : Option String
  deriving DecidableEq, Repr

/-- The process-wide state the send functions touch: the counter
`coapMessageId` and, in order, the messages handed to
`netSendCoAPMessage(platformIPAddrStr, platformPort, localPort, &message)`. -/
structure Engine where
  coapMessageId : Nat
  sent : List CoapRequest
  deriving DecidableEq, Repr

def apiPrefix : String := "/api/v1"

/-- The call `netSendCoAPMessage(...)` as the things layer sees it: the
message leaves and the outcome comes back; `net k` is the outcome of the
send made after `k` earlier ones. -/
def netSendCoAPMessage (net : Nat → Bool) (message : CoapRequest) (e : Engine) :
    Bool × Engine :=
  (net e.sent.length, { e with sent := e.sent ++ [message] })

/-- The common body of the send functions: `netGetNextCoAPMessageId()`, then
the message built from the given fields, then `netSendCoAPMessage`. -/
def sendWith (net : Nat → Bool) (code : Nat) (token : List Nat) (uri : String)
    (observe : Bool) (payload : Option String) (e : Engine) : Bool × Engine :=
  let messageId := (netGetNextCoAPMessageId e.coapMessageId).1
  netSendCoAPMessage net
    ⟨.COAP_CONFIRMABLE, code, messageId, token.take TP_COAP_TOKEN_LEN, uri, observe, payload⟩
    { e with coapMessageId := (netGetNextCoAPMessageId e.coapMessageId).2 }

/-- `tpSendTelemetry(thing, telemetryJsonStr)`. Returns the result, the
thing as the call leaves it, and the state. -/
def tpSendTelemetry (net : Nat → Bool) (thing : thing_info_t) (telemetryJsonStr : String)
    (e : Engine) : Bool × thing_info_t × Engine :=
  let r := sendWith net COAP_POST thing.telemetrySendToken
    (apiPrefix ++ "/" ++ thing.thingToken ++ "/telemetry") false (some telemetryJsonStr) e
  (r.1, thing, r.2)

/-- `tpSendClientAttributesReadRequest(thing, attributesList)`;
`attributesList` is `none` for `NULL`. -/
def tpSendClientAttributesReadRequest (net : Nat → Bool) (thing : thing_info_t)
    (attributesList : Option String) (e : Engine) : Bool × thing_info_t × Engine :=
  let uri := match attributesList with
    | some l => apiPrefix ++ "/" ++ thing.thingToken ++ "/attributes?clientKeys=" ++ l
    | none => apiPrefix ++ "/" ++ thing.thingToken ++ "/attributes"
  let r := sendWith net COAP_GET thing.clientAttrReadToken uri false none e
  (r.1, thing, r.2)

/-- `tpSendClientAttributesWriteRequest(thing, attrJsonStr)`. -/
def tpSendClientAttributesWriteRequest (net : Nat → Bool) (thing : thing_info_t)
    (attrJsonStr : String) (e : Engine) : Bool × thing_info_t × Engine :=
  let r := sendWith net COAP_POST thing.clientAttrWriteToken
    (apiPrefix ++ "/" ++ thing.thingToken ++ "/attributes") false (some attrJsonStr) e
  (r.1, thing, r.2)

/-- `tpSendSharedAttributesReadRequest(thing, attributesList)`. -/
def tpSendSharedAttributesReadRequest (net : Nat → Bool) (thing : thing_info_t)
    (attributesList : Option String) (e : Engine) : Bool × thing_info_t × Engine :=
  let uri := match attributesList with
    | some l => apiPrefix ++ "/" ++ thing.thingToken ++ "/attributes?sharedKeys=" ++ l
    | none => apiPrefix ++ "/" ++ thing.thingToken ++ "/attributes"
  let r := sendWith net COAP_GET thing.sharedAttrReadToken uri false none e
  (r.1, thing, r.2)

/-- `tpSendOutgoingRpcRequest(thing, method, paramsJsonStr)`; `paramsJsonStr`
is `none` for `NULL`. -/
def tpSendOutgoingRpcRequest (net : Nat → Bool) (thing : thing_info_t) (method : String)
    (paramsJsonStr : Option String) (e : Engine) : Bool × thing_info_t × Engine :=
  let jsonStr := "\x7b\"method\":" ++ method ++ ",\"params\":"
    ++ (match paramsJsonStr with | some p => p | none => "\x7b\x7d") ++ "\x7d"
  let r := sendWith net COAP_POST thing.outgoingRpcRequestToken
    (apiPrefix ++ "/" ++ thing.thingToken ++ "/rpc") false (some jsonStr) e
  (r.1, thing, r.2)

/-- `tpSendIncomingRpcResponse(thing, rpcId, method, rspJsonStr)`. -/
def tpSendIncomingRpcResponse (net : Nat → Bool) (thing : thing_info_t) (rpcId : Nat)
    (method rspJsonStr : String) (e : Engine) : Bool × thing_info_t × Engine :=
  let jsonStr := "\x7b\"method\":" ++ method ++ ",\"response\":" ++ rspJsonStr ++ "\x7d"
  let r := sendWith net COAP_POST thing.incomingRpcResponseToken
    (apiPrefix ++ "/" ++ thing.thingToken ++ "/rpc/" ++ toString rpcId) false (some jsonStr) e
  (r.1, thing, r.2)

/-- Arduino's `random(howsmall, howbig)` on the value `raw` that the C
library's `random()` returns: `howsmall` when the range is empty, otherwise
`raw % (howbig - howsmall) + howsmall`. -/
def random (raw howsmall howbig : Nat) : Nat :=
  if howsmall ≥ howbig then howsmall else raw % (howbig - howsmall) + howsmall

/-- `tpSendSharedAttributesObserveRequest(thing)` called at time `t`, with
`raw` the value drawn for the jitter: the timestamp is stored (in an
`unsigned long`) before the message is sent. -/
def tpSendSharedAttributesObserveRequest (net : Nat → Bool) (t raw : Nat)
    (thing : thing_info_t) (e : Engine) : Bool × thing_info_t × Engine :=
  let r := sendWith net COAP_GET thing.sharedAttrObserveToken
    (apiPrefix ++ "/" ++ thing.thingToken ++ "/attributes") true none e
  (r.1,
    { thing with lastSharedAttrObserveMillis := (millis t + random raw 500 5000) % 2 ^ 32 },
    r.2)

/-- `tpSendIncomingRpcObserveRequest(thing)` called at time `t`. -/
def tpSendIncomingRpcObserveRequest (net : Nat → Bool) (t raw : Nat)
    (thing : thing_info_t) (e : Engine) : Bool × thing_info_t × Engine :=
  let r := sendWith net COAP_GET thing.incomingRpcRequestObserveToken
    (apiPrefix ++ "/" ++ thing.thingToken ++ "/rpc") true none e
  (r.1,
    { thing with
      lastIncomingRpcRequestObserveMillis := (millis t + random raw 500 5000) % 2 ^ 32 },
    r.2)

/-! ## `things.cpp`: the periodic tasks -/

/-- The state of the subscription task: `thingList` (its length is
`thingCount`), the cursor `static int i` of `_tpObservationTaskTick`, and
the send state. -/
structure TpState where
  thingList : List thing_info_t
  i : Nat
  engine : Engine
  deriving DecidableEq, Repr

/-- The test `interval > 0 && (labs(millis() - last) >= interval || last == 0)`
of `_tpObservationTaskTick`. -/
def renewDue (now interval last : Nat) : Bool :=
  decide (interval > 0) && (decide (labsDiff now last ≥ interval) || last == 0)

/-- `_tpObservationTaskTick()` run at time `t` (`raw` is the value drawn for
the jitter if a request is sent). `none` stands for the undefined behaviour
of a cursor outside the thing list. -/
def _tpObservationTaskTick (net : Nat → Bool) (t raw : Nat) (s : TpState) : Option TpState :=
  match s.thingList.get? s.i with
  | none => none
  | some thing =>
    if renewDue (millis t) thing.sharedAttrObserveRenewInterval
        thing.lastSharedAttrObserveMillis then
      let r := tpSendSharedAttributesObserveRequest net t raw thing s.engine
      some { s with thingList := s.thingList.set s.i r.2.1, engine := r.2.2 }
    else if renewDue (millis t) thing.incomingRpcRequestObserveRenewInterval
        thing.lastIncomingRpcRequestObserveMillis then
      let r := tpSendIncomingRpcObserveRequest net t raw thing s.engine
      some { s with thingList := s.thingList.set s.i r.2.1, engine := r.2.2 }
    else
      some { s with i := (s.i + 1) % s.thingList.length }

def TP_NETWORK_INIT_MAX_RETRY : Nat := 5

/-- The table `NETCONN_TASK_INTERVALS[]`
(`TP_NETWORK_CONNECTIVITY_CHECK_INTERVALS`). -/
def NETCONN_TASK_INTERVALS : List Nat := [300000, 60000, 60000, 60000]

/-- `NETCONN_TASK_MAX_FAILURE`: the number of entries of the table. -/
def NETCONN_TASK_MAX_FAILURE : Nat := NETCONN_TASK_INTERVALS.length

/-- How a run of the network initialisation loop ends: the value of
`networkInitRetryCount`, the number of calls of `netInitNetwork()` made,
whether `ESP.restart()` was reached, and the outcomes not consumed. -/
structure InitRun where
  networkInitRetryCount : Nat
  attempts : Nat
  restarted : Bool
  rest : List Bool
  deriving DecidableEq, Repr

/-- The loop `while (netInitNetwork() != true) { if (++networkInitRetryCount
>= TP_NETWORK_INIT_MAX_RETRY) { ... } delay(100); }` run against the
outcomes of the successive calls of `netInitNetwork()`. `restart` tells
whether the body of the `if` calls `ESP.restart()`, which does not return
(in `_tpNetworkConnectivityTaskTick` under `#ifdef ESP32`; in `tpInit` the
body only prints). `none`: the outcomes ended with the loop still running. -/
def initLoop (restart : Bool) : List Bool → Nat → Nat → Option InitRun
  | [], _, _ => none
  | true :: rest, retry, n => some ⟨retry, n + 1, false, rest⟩
  | false :: rest, retry, n =>
    if (retry + 1) % 65536 ≥ TP_NETWORK_INIT_MAX_RETRY ∧ restart = true then
      some ⟨(retry + 1) % 65536, n + 1, true, rest⟩
    else
      initLoop restart rest ((retry + 1) % 65536) (n + 1)

/-- The network initialisation of `tpInit`: `networkInitRetryCount = 0` and
the loop, whose limit branch only prints. -/
def tpInit (inits : List Bool) : Option InitRun := initLoop false inits 0 0

/-- The statics of the connectivity task. -/
structure Watchdog where
  netConnTaskIntervalIdx : Nat
  lastNetConnCheckingTaskMillis : Nat
  networkInitRetryCount : Nat
  deriving DecidableEq, Repr

/-- What one connectivity tick does: the statics it leaves, whether it sent
a ping, the number of calls of `netInitNetwork()` it made, and whether it
ended in `ESP.restart()`. -/
structure WatchdogTick where
  state : Watchdog
  pinged : Bool
  initAttempts : Nat
  restarted : Bool
  deriving DecidableEq, Repr

/-- The inputs of one connectivity tick: the time `t` of the first clock
reading, the time `tEnd` of the last one, the outcome of the ping if one is
sent, the outcomes of the calls of `netInitNetwork()` if the loop runs, and
the value drawn for the jitter. -/
structure WatchdogInput where
  t : Nat
  tEnd : Nat
  pingOK : Bool
  inits : List Bool
  raw : Nat
  deriving DecidableEq, Repr

/-- `_tpNetworkConnectivityTaskTick()`; `esp32` tells whether `ESP32` is
defined, `intervals` is the interval table. `none`: the re-initialisation
loop did not end on the outcomes given. -/
def _tpNetworkConnectivityTaskTick (esp32 : Bool) (intervals : List Nat) (x : WatchdogInput)
    (w : Watchdog) : Option WatchdogTick :=
  if labsDiff (millis x.t) w.lastNetConnCheckingTaskMillis
      < intervals.getD w.netConnTaskIntervalIdx 0 then
    some ⟨w, false, 0, false⟩
  else
    let stamp := (millis x.tEnd + random x.raw 500 5000) % 2 ^ 32
    if x.pingOK = false then
      let idx := (w.netConnTaskIntervalIdx + 1) % 256
      if idx ≥ intervals.length % 256 then
        match initLoop esp32 x.inits 0 0 with
        | none => none
        | some r =>
          if r.restarted = true then
            some ⟨⟨0, w.lastNetConnCheckingTaskMillis, r.networkInitRetryCount⟩, true,
              r.attempts, true⟩
          else
            some ⟨⟨0, stamp, r.networkInitRetryCount⟩, true, r.attempts, false⟩
      else
        some ⟨⟨idx, stamp, w.networkInitRetryCount⟩, true, 0, false⟩
    else
      some ⟨⟨0, stamp, w.networkInitRetryCount⟩, true, 0, false⟩

/-- The connectivity task over successive ticks, each with its inputs: the
ticks made, in order. The run ends with a tick that restarts the board. -/
def watchdogRun (esp32 : Bool) (intervals : List Nat) :
    List WatchdogInput → Watchdog → Option (List WatchdogTick)
  | [], _ => some []
  | x :: xs, w =>
    match _tpNetworkConnectivityTaskTick esp32 intervals x w with
    | none => none
    | some o =>
      if o.restarted = true then some [o]
      else (watchdogRun esp32 intervals xs o.state).map (fun l => o :: l)

/-! ## `ConnexThings_BC95.cpp`: incoming RPC and the response sink -/

def TP_THING_ID : String := "8d252e29-efce-40c6-809e-5d3b6666c1b6"

/-- `tpGetThingInfoById(id)`: the first thing of the list with that id,
`none` for `NULL`. -/
def tpGetThingInfoById (thingList : List thing_info_t) (id : String) : Option thing_info_t :=
  thingList.find? (fun thing => thing.id == id)

/-- The private members of `CommandResponse`. -/
structure CommandResponse where
  _called : Bool
  _statusCode : Nat
  _cmdId : Nat
  _cmdName : String
  deriving DecidableEq, Repr

/-- `CommandResponse::CommandResponse(commandId, commandName)`. -/
def CommandResponse.new (commandId : Nat) (commandName : String) : CommandResponse :=
  ⟨false, 200, commandId, commandName⟩

/-- `CommandResponse::wasCalled()`. -/
def CommandResponse.wasCalled (res : CommandResponse) : Bool := res._called

/-- `CommandResponse::status(code)`, `code` a `uint16_t`. -/
def CommandResponse.status (res : CommandResponse) (code : Nat) : CommandResponse :=
  { res with _statusCode := code % 65536 }

/-- `CommandResponse::_sendResponse(body)` (reached through `send`):
`_called` is set, the object with the keys `status` and `body` is built and
printed (`printTo`, ArduinoJson), and `tpSendIncomingRpcResponse` is called
for the thing `TP_THING_ID`, its result dropped. `none`: the thing is not in
the list and `NULL` is dereferenced. -/
def CommandResponse._sendResponse (net : Nat → Bool) (printTo : Nat → String → String)
    (thingList : List thing_info_t) (res : CommandResponse) (body : String) (e : Engine) :
    Option (CommandResponse × Engine) :=
  match tpGetThingInfoById thingList TP_THING_ID with
  | none => none
  | some thing =>
    some ({ res with _called := true },
      (tpSendIncomingRpcResponse net thing res._cmdId res._cmdName
        (printTo res._statusCode body) e).2.2)

/-- What an application callback does with the response sink it is handed. -/
inductive ResOp where
  | status (code : Nat)
  | send (body : String)
  deriving DecidableEq, Repr

/-- The calls an application makes on the sink, in order. -/
def runOps (net : Nat → Bool) (printTo : Nat → String → String)
    (thingList : List thing_info_t) :
    List ResOp → CommandResponse → Engine → Option (CommandResponse × Engine)
  | [], res, e => some (res, e)
  | .status code :: ops, res, e => runOps net printTo thingList ops (res.status code) e
  | .send body :: ops, res, e =>
    match res._sendResponse net printTo thingList body e with
    | none => none
    | some (res1, e1) => runOps net printTo thingList ops res1 e1

/-- The fields `processIncomingRpc` reads from the RPC object: `id` (0 when
absent), `method` (`none` for `NULL`) and `params`. -/
structure RpcRequest (P : Type) where
  id : Nat
  method : Option String
  params : P

/-- `processIncomingRpc(thing, rpc)`. `thingCommandReceived` is the weak
application hook (`none` when the application does not define it), given by
the operations it performs on the sink for a method and its parameters. -/
def processIncomingRpc {P : Type} (net : Nat → Bool) (printTo : Nat → String → String)
    (thingCommandReceived : Option (String → P → List ResOp))
    (thingList : List thing_info_t) (rpc : RpcRequest P) (e : Engine) : Option Engine :=
  match rpc.method with
  | none => some e
  | some rpcMethod =>
    let res := CommandResponse.new rpc.id rpcMethod
    if rpcMethod = "ping" then
      ((res.status 200)._sendResponse net printTo thingList "pong" e).map Prod.snd
    else
      let afterHook :=
        match thingCommandReceived with
        | some hook => runOps net printTo thingList (hook rpcMethod rpc.params) res e
        | none => some (res, e)
      match afterHook with
      | none => none
      | some (res1, e1) =>
        if res1.wasCalled ≠ true then
          ((res1.status 400)._sendResponse net printTo thingList "unsupported command" e1).map
            Prod.snd
        else
          some e1

/-- The message `tpSendIncomingRpcResponse` builds for a response with the
given status and body to the request `rpcId` of method `method`, sent for
`thing` with message ID `messageId`. -/
def rpcResponseMessage (printTo : Nat → String → String) (thing : thing_info_t)
    (messageId rpcId : Nat) (method : String) (status : Nat) (body : String) : CoapRequest :=
  ⟨.COAP_CONFIRMABLE, COAP_POST, messageId, thing.incomingRpcResponseToken.take TP_COAP_TOKEN_LEN,
    apiPrefix ++ "/" ++ thing.thingToken ++ "/rpc/" ++ toString rpcId, false,
    some ("\x7b\"method\":" ++ method ++ ",\"response\":" ++ printTo status body ++ "\x7d")⟩

/-! ## `network.cpp`: the receive path -/

/-- `ipv4AddressStringToInt(addrStr)`: four `%u` conversions separated by
dots; each octet variable is a `uint8_t` written through an `unsigned int *`
and keeps the low 8 bits of the value read (the bytes such a store writes
past the variable are not modelled); 0 when `sscanf` does not return 4. -/
def ipv4AddressStringToInt (addrStr : List Nat) : Nat :=
  match scanU addrStr with
  | none => 0
  | some (oct1, r1) =>
  match scanLit 46 r1 with
  | none => 0
  | some r2 =>
  match scanU r2 with
  | none => 0
  | some (oct2, r3) =>
  match scanLit 46 r3 with
  | none => 0
  | some r4 =>
  match scanU r4 with
  | none => 0
  | some (oct3, r5) =>
  match scanLit 46 r5 with
  | none => 0
  | some r6 =>
  match scanU r6 with
  | none => 0
  | some (oct4, _) =>
    ((oct1 % 256) * 2 ^ 24 + (oct2 % 256) * 2 ^ 16 + (oct3 % 256) * 2 ^ 8 + oct4 % 256) % 2 ^ 32

/-- The header fields `_dispatchCoAPMessage` reads from a `CoapPDU` that
validates: `getType()`, `getCode()`, `getMessageID()`. -/
structure CoapHeader where
  type : CoapType
  code : Nat
  messageId : Nat
  deriving DecidableEq, Repr

/-- What the network layer does that the outside can see: a message handed
to `netSendUDPPacket` for a destination, a call of the UDP packet handler,
and a call of the CoAP message handler `hIncomingCoAPMessage`. -/
inductive NetAction where
  | send (dstAddrStr : List Nat) (dstPort : Nat) (message : CoapRequest)
  | udpHandler (srcAddrStr : List Nat) (srcPort dstPort : Nat) (payload : List Nat)
  | coapHandler (srcAddrStr : List Nat) (srcPort dstPort : Nat) (pdu : List Nat)
  deriving DecidableEq, Repr

/-- The state of the receive path: the received-message-ID table and the
actions taken so far, in order. -/
structure NetState where
  tracking : MsgTracking
  log : List NetAction
  deriving DecidableEq, Repr

/-- The message `netSendCoAPEmptyAckMessage` builds: type ACK, the empty
code, the message ID, nothing else. -/
def emptyAck (messageId : Nat) : CoapRequest :=
  ⟨.COAP_ACKNOWLEDGEMENT, COAP_EMPTY, messageId, [], "", false, none⟩

/-- `netSendCoAPEmptyAckMessage(dstAddrStr, dstPort, 0, messageId)`; the
result of the send is not used by the caller. -/
def netSendCoAPEmptyAckMessage (dstAddrStr : List Nat) (dstPort messageId : Nat)
    (s : NetState) : NetState :=
  { s with log := s.log ++ [.send dstAddrStr dstPort (emptyAck messageId)] }

/-- `_dispatchCoAPMessage(srcAddrStr, srcAddrInt, srcPort, dstPort,
udpPayload, udpPayloadLen)` run at time `t`, with the three switches of
`network.h` defined as they are. `decode` is the CoAP library on the
received bytes: `none` when `validate() != 1`, the header otherwise;
`registered` is `hIncomingCoAPMessage != NULL`. -/
def _dispatchCoAPMessage (decode : List Nat → Option CoapHeader) (registered : Bool) (t : Nat)
    (srcAddrStr : List Nat) (srcAddrInt srcPort dstPort : Nat) (udpPayload : List Nat)
    (s : NetState) : NetState :=
  match decode udpPayload with
  | none => s
  | some coap =>
    let s1 :=
      if coap.type = .COAP_CONFIRMABLE then
        netSendCoAPEmptyAckMessage srcAddrStr srcPort coap.messageId s
      else s
    let d := netIsCoAPMessageIdDuplicate t s1.tracking srcAddrInt srcPort coap.messageId
    if d.1 = true then
      { s1 with tracking := d.2 }
    else
      let ignoreMessage :=
        decide (coap.type = .COAP_ACKNOWLEDGEMENT) && decide (coap.code = COAP_EMPTY)
      if ignoreMessage = false ∧ registered = true then
        { tracking := d.2,
          log := s1.log ++ [.coapHandler srcAddrStr srcPort dstPort udpPayload] }
      else
        { s1 with tracking := d.2 }

def NET_DEFAULT_SOCKET_LOCAL_PORT : Nat := 56830

/-- `_dispatchUDPPacket`: the UDP packet handler is called when one is set. -/
def _dispatchUDPPacket (udpRegistered : Bool) (srcAddrStr : List Nat) (srcPort dstPort : Nat)
    (payload : List Nat) (s : NetState) : NetState :=
  if udpRegistered = true then
    { s with log := s.log ++ [.udpHandler srcAddrStr srcPort dstPort payload] }
  else s

/-- `_handleModemIncomingUDPData(data)` with `NET_PROCESS_COAP_INCOMING_MESSAGE`
defined. `udpPayload` is the first `data->dataLen` bytes of `data->dataBuf`;
`t1` and `t2` are the times of the first and of the second dispatch. -/
def _handleModemIncomingUDPData (decode : List Nat → Option CoapHeader)
    (udpRegistered registered : Bool) (t1 t2 : Nat) (data : udp_rx_data_t)
    (udpPayload : List Nat) (s : NetState) : NetState :=
  let srcAddrStr := data.remoteAddrStrVal
  let srcAddrInt := data.remoteAddrIntVal
  let srcPort := data.remotePort
  let dstPort := NET_DEFAULT_SOCKET_LOCAL_PORT
  let s0 := _dispatchUDPPacket udpRegistered srcAddrStr srcPort dstPort udpPayload s
  if udpPayload.length > 4 ∧ udpPayload.getD 1 0 = COAP_EMPTY then
    _dispatchCoAPMessage decode registered t2 srcAddrStr srcAddrInt srcPort dstPort
      (udpPayload.drop 4)
      (_dispatchCoAPMessage decode registered t1 srcAddrStr srcAddrInt srcPort dstPort
        (udpPayload.take 4) s0)
  else
    _dispatchCoAPMessage decode registered t1 srcAddrStr srcAddrInt srcPort dstPort udpPayload s0

/-- The messages the receive path is to process for one datagram, in the
words of the workaround: a datagram longer than 4 bytes whose second byte is
the empty code gives its first 4 bytes and then the rest; any other datagram
gives itself. -/
def splitDatagram (udpPayload : List Nat) : List (List Nat) :=
  if udpPayload.length > 4 ∧ udpPayload.getD 1 0 = COAP_EMPTY then
    [udpPayload.take 4, udpPayload.drop 4]
  else
    [udpPayload]

/-! ## The inactivity timer of `readResponse` -/

/-- The value of `lastReceivedByteMillis` after the loop has gone through
`ticks` from parser variables `f` and timer value `last`: the reading of the
latest iteration whose byte took a branch that assigns it, `last` when there
is none. (A byte that completes a record ends the call.) -/
def timerAfter : Frame → Nat → List Tick → Nat
  | _, last, [] => last
  | f, last, tk :: rest =>
    match tk.b with
    | none => timerAfter f last rest
    | some b =>
      match feed f b with
      | .done _ _ _ => last
      | .cont f' touched => timerAfter f' (if touched then millis tk.t else last) rest

/-- The clock reading of the latest iteration of `ticks` in which a byte
was received, `start` when there is none: the start of the idle time in the
words of an inactivity timeout. -/
def lastByteReading : Nat → List Tick → Nat
  | start, [] => start
  | start, tk :: rest => lastByteReading (if tk.b.isSome then millis tk.t else start) rest

/-- Whether every byte of `ticks` is taken into the frame under
construction: none is discarded and none completes a record. -/
def allFrameBytes : Frame → List Tick → Bool
  | _, [] => true
  | f, tk :: rest =>
    match tk.b with
    | none => allFrameBytes f rest
    | some b =>
      match feed f b with
      | .done _ _ _ => false
      | .cont f' touched => touched && allFrameBytes f' rest

/-- A stream of the byte `x`, one every 10 ms from time 0 to time 100. -/
def drip : List Tick :=
  (List.range 11).map (fun k => ⟨10 * k, some 120⟩)

/-- The clock reading `readResponse` takes before its loop: that of the
first iteration of the schedule. -/
def startReading : List Tick → Nat
  | [] => 0
  | tk :: _ => millis tk.t

/-- A schedule on which a frame starts at time 0 and then nothing more
arrives: CR LF `A`, then empty reads at 50 ms and 100 ms. -/
def stalled : List Tick :=
  [⟨0, some 13⟩, ⟨0, some 10⟩, ⟨0, some 65⟩, ⟨50, none⟩, ⟨100, none⟩]

/-- The timestamp a connectivity tick stores when it ends:
`millis() + random(500, 5000)` in an `unsigned long`. -/
def stampOf (x : WatchdogInput) : Nat := (millis x.tEnd + random x.raw 500 5000) % 2 ^ 32

/-- Whether a connectivity tick with input `x` is due in state `w`: the
negation of the test that makes the function return at once. -/
def dueTick (intervals : List Nat) (x : WatchdogInput) (w : Watchdog) : Bool :=
  !decide (labsDiff (millis x.t) w.lastNetConnCheckingTaskMillis
    < intervals.getD w.netConnTaskIntervalIdx 0)

/-- What the watchdog claim says of one tick that starts in state `w` and
ends as `o`: a tick that is not due sends no ping and leaves the index; a due
tick pings, a success leaves the index at 0, a failure increases it by one
and, when it reaches the number of intervals, leaves it at 0 after running
the re-initialisation. -/
def TickSpec (intervals : List Nat) (x : WatchdogInput) (w : Watchdog) (o : WatchdogTick) :
    Prop :=
  if dueTick intervals x w = false then
    o.pinged = false ∧ o.initAttempts = 0 ∧
      o.state.netConnTaskIntervalIdx = w.netConnTaskIntervalIdx
  else if x.pingOK = true then
    o.pinged = true ∧ o.initAttempts = 0 ∧ o.state.netConnTaskIntervalIdx = 0
  else if w.netConnTaskIntervalIdx + 1 < intervals.length then
    o.pinged = true ∧ o.initAttempts = 0 ∧
      o.state.netConnTaskIntervalIdx = w.netConnTaskIntervalIdx + 1
  else
    o.pinged = true ∧ 1 ≤ o.initAttempts ∧ o.state.netConnTaskIntervalIdx = 0

/-- The watchdog claim along a run: every tick starts with the index inside
the interval table and behaves as `TickSpec` says. -/
def RunSpec (intervals : List Nat) : Watchdog → List WatchdogInput → List WatchdogTick → Prop
  | _, _, [] => True
  | _, [], _ :: _ => False
  | w, x :: xs, o :: os =>
    w.netConnTaskIntervalIdx < intervals.length ∧ TickSpec intervals x w o ∧
      RunSpec intervals o.state xs os

/-- Three due ticks with a failed ping each, starting from the zeroed
statics: at 300 s, 400 s and 500 s, the ping taking 5 s. -/
def threeFailures : List WatchdogInput :=
  [⟨300000, 305000, false, [true], 0⟩, ⟨400000, 405000, false, [true], 0⟩,
    ⟨500000, 505000, false, [true], 0⟩]

/-- A fourth due tick with a failed ping, at 600 s; the network comes back
at the second initialisation attempt. -/
def fourthFailure : WatchdogInput := ⟨600000, 605000, false, [false, true], 0⟩

/-- The thing of the demo configuration: the id `TP_THING_ID`, the eight
token slots `0B 5E 2F 01` .. `0B 5E 2F 08`, both renewal intervals 15000 ms,
both timestamps 0. -/
def theThing : thing_info_t :=
  { demoThing [0x0B, 0x5E, 0x2F, 0x01] [0x0B, 0x5E, 0x2F, 0x05] with
    id := TP_THING_ID, thingToken := "T1" }

/-- Two things agree on all eight token slots and on both renewal
intervals. -/
def SameSlots (a b : thing_info_t) : Prop :=
  a.telemetrySendToken = b.telemetrySendToken ∧
  a.clientAttrReadToken = b.clientAttrReadToken ∧
  a.clientAttrWriteToken = b.clientAttrWriteToken ∧
  a.sharedAttrReadToken = b.sharedAttrReadToken ∧
  a.sharedAttrObserveToken = b.sharedAttrObserveToken ∧
  a.outgoingRpcRequestToken = b.outgoingRpcRequestToken ∧
  a.incomingRpcRequestObserveToken = b.incomingRpcRequestObserveToken ∧
  a.incomingRpcResponseToken = b.incomingRpcResponseToken ∧
  a.sharedAttrObserveRenewInterval = b.sharedAttrObserveRenewInterval ∧
  a.incomingRpcRequestObserveRenewInterval = b.incomingRpcRequestObserveRenewInterval

/-- Whether a sequence of sink operations contains a `send`. -/
def issuesResponse : List ResOp → Bool
  | [] => false
  | .status _ :: ops => issuesResponse ops
  | .send _ :: _ => true

/-- The send state after one more RPC response for `thing` has gone out. -/
def afterResponse (printTo : Nat → String → String) (thing : thing_info_t) (rpcId : Nat)
    (method : String) (status : Nat) (body : String) (e : Engine) : Engine :=
  { coapMessageId := (netGetNextCoAPMessageId e.coapMessageId).2,
    sent := e.sent ++ [rpcResponseMessage printTo thing
      (netGetNextCoAPMessageId e.coapMessageId).1 rpcId method status body] }

/-- A stand-in for the JSON printer in concrete runs. -/
def printPlain (status : Nat) (body : String) : String :=
  "\x7b\"status\":" ++ toString status ++ ",\"body\":\"" ++ body ++ "\"\x7d"

/-- The messages of one datagram dispatched in order, each at its time. -/
def dispatchAll (decode : List Nat → Option CoapHeader) (registered : Bool)
    (srcAddrStr : List Nat) (srcAddrInt srcPort dstPort : Nat) :
    List (Nat × List Nat) → NetState → NetState
  | [], s => s
  | (t, pdu) :: rest, s =>
    dispatchAll decode registered srcAddrStr srcAddrInt srcPort dstPort rest
      (_dispatchCoAPMessage decode registered t srcAddrStr srcAddrInt srcPort dstPort pdu s)

/-- A stand-in for the CoAP library in concrete runs: a message is at least
the fixed four-byte header with version 1; the type is in bits 5..4 of the
first byte, the code is the second byte, the message ID the next two. -/
def headerOf (pdu : List Nat) : Option CoapHeader :=
  if pdu.length < 4 ∨ pdu.getD 0 0 / 64 ≠ 1 then none
  else
    some ⟨(match (pdu.getD 0 0 / 16) % 4 with
        | 0 => .COAP_CONFIRMABLE
        | 1 => .COAP_NON_CONFIRMABLE
        | 2 => .COAP_ACKNOWLEDGEMENT
        | _ => .COAP_RESET),
      pdu.getD 1 0, pdu.getD 2 0 * 256 + pdu.getD 3 0⟩

/-- The platform's address as text, `52.220.84.189`. -/
def platformAddr : List Nat := ascii "52.220.84.189"

/-- A confirmable message with message ID `0x1234`, code 2.05, token
`0B 5E 2F 05` and a one-byte payload. -/
def conMessage : List Nat := [0x44, 0x45, 0x12, 0x34, 0x0B, 0x5E, 0x2F, 0x05, 0xFF, 0x31]

/-- An empty acknowledgement with message ID 7 followed, in the same
datagram, by a confirmable message. -/
def doubleDatagram : List Nat := [0x60, 0x00, 0x00, 0x07] ++ conMessage

/-- The request `tpSendSharedAttributesObserveRequest` sends for `thing`
with message ID `messageId`. -/
def sharedObserveMessage (thing : thing_info_t) (messageId : Nat) : CoapRequest :=
  ⟨.COAP_CONFIRMABLE, COAP_GET, messageId, thing.sharedAttrObserveToken.take TP_COAP_TOKEN_LEN,
    apiPrefix ++ "/" ++ thing.thingToken ++ "/attributes", true, none⟩

/-- The request `tpSendIncomingRpcObserveRequest` sends for `thing` with
message ID `messageId`. -/
def rpcObserveMessage (thing : thing_info_t) (messageId : Nat) : CoapRequest :=
  ⟨.COAP_CONFIRMABLE, COAP_GET, messageId,
    thing.incomingRpcRequestObserveToken.take TP_COAP_TOKEN_LEN,
    apiPrefix ++ "/" ++ thing.thingToken ++ "/rpc", true, none⟩

/-- A renewal is due, in the words of the subscription task: the interval is
positive and the timestamp is 0 or at least the interval away from the clock
(by `labs` of the 32-bit difference). -/
def Due (now interval last : Nat) : Prop :=
  interval > 0 ∧ (last = 0 ∨ interval ≤ labsDiff now last)

instance (now interval last : Nat) : Decidable (Due now interval last) := by
  unfold Due
  infer_instance

/-- The demo thing after a shared-attribute observe request made at 20 s
whose send failed (jitter 500 ms). -/
def afterFailedObserve : thing_info_t :=
  (tpSendSharedAttributesObserveRequest (fun _ => false) 20000 0 theThing ⟨0, []⟩).2.1

/-- Whether each call of a sequence is a miss (the tuple is recorded) when
the calls are made in order from the table `st`. -/
def allMiss : MsgTracking → List DupCall → Prop
  | _, [] => True
  | st, c :: cs =>
    (netIsCoAPMessageIdDuplicate c.t st c.address c.port c.messageId).1 = false ∧
      allMiss (netIsCoAPMessageIdDuplicate c.t st c.address c.port c.messageId).2 cs

instance instDecidableAllMiss : (st : MsgTracking) → (cs : List DupCall) →
    Decidable (allMiss st cs)
  | _, [] => isTrue trivial
  | st, c :: cs =>
    @instDecidableAnd _ _ _
      (instDecidableAllMiss
        (netIsCoAPMessageIdDuplicate c.t st c.address c.port c.messageId).2 cs)

/-- The tuple a call carries. -/
def DupCall.tuple (c : DupCall) : Nat × Nat × Nat := (c.address, c.port, c.messageId)

/-- The tuple a table entry holds. -/
def recv_msg_id_t.tuple (e : recv_msg_id_t) : Nat × Nat × Nat := (e.address, e.port, e.messageId)

/-- The state of the ring `k` recordings into a round: the cursor is inside
the table, and every slot is either one of the slots the cursor has yet to
pass in this round or holds a tuple recorded in it (`U`). -/
def RingInv (U : List (Nat × Nat × Nat)) (k : Nat) (st : MsgTracking) : Prop :=
  st.msgTrackingNewEntryPos < st.coapMsgTrackingList.length ∧
  ∀ i, i < st.coapMsgTrackingList.length →
    (∃ d, d + k < st.coapMsgTrackingList.length ∧
      i = (st.msgTrackingNewEntryPos + d) % st.coapMsgTrackingList.length) ∨
    (∃ e, st.coapMsgTrackingList.get? i = some e ∧ e.tuple ∈ U)

/-- Three further tuples for a three-slot table, recorded at 1100, 1200 and
1300 ms. -/
def threeOthers : List DupCall :=
  [⟨1100, 0, 5683, 2⟩, ⟨1200, 0, 5683, 3⟩, ⟨1300, 0, 5683, 4⟩]

/-- One chunk transaction carrying a 4-byte datagram from the platform,
`52.220.84.189:5683`, with nothing remaining. -/
def platformChunk : Chunk :=
  ⟨ascii "0", platformAddr, ascii "5683", ascii "4", ascii "60000007", ascii "0"⟩

/-! ## Theorems -/

/-! ### Message-ID allocator -/

theorem netGetNextCoAPMessageId_fst_ne_zero (c : Nat) : (netGetNextCoAPMessageId c).1 ≠ 0 := by
  unfold netGetNextCoAPMessageId
  by_cases h : (c + 1) % 65536 = 0 <;> simp [h]

theorem zero_not_mem_messageIdCalls (n : Nat) : ∀ c, 0 ∉ messageIdCalls n c := by
  induction n with
  | zero => intro c; simp [messageIdCalls]
  | succ n ih =>
    intro c
    simp only [messageIdCalls, List.mem_cons, not_or]
    exact ⟨fun h => netGetNextCoAPMessageId_fst_ne_zero c h.symm, ih _⟩

/-- C4: for every 16-bit counter value `c`, `netGetNextCoAPMessageId` returns
`c + 1` below `0xFFFF` and `1` at `0xFFFF`, stores what it returns, and no
sequence of calls from `c` ever returns 0. -/
theorem netGetNextCoAPMessageId_spec (c : Nat) (hc : c < 65536) :
    (c < 0xFFFF → netGetNextCoAPMessageId c = (c + 1, c + 1)) ∧
    (c = 0xFFFF → netGetNextCoAPMessageId c = (1, 1)) ∧
    (netGetNextCoAPMessageId c).2 = (netGetNextCoAPMessageId c).1 ∧
    (∀ n, 0 ∉ messageIdCalls n c) := by
  refine ⟨?_, ?_, rfl, fun n => zero_not_mem_messageIdCalls n c⟩
  · intro h
    have h1 : (c + 1) % 65536 = c + 1 := Nat.mod_eq_of_lt (by omega)
    simp [netGetNextCoAPMessageId, h1]
  · intro h
    subst h
    decide

theorem netGetNextCoAPMessageId_spec_witness :
    netGetNextCoAPMessageId 65535 = (1, 1) ∧ netGetNextCoAPMessageId 0 = (1, 1) ∧
      0 ∉ messageIdCalls 4 65534 :=
  ⟨(netGetNextCoAPMessageId_spec 65535 (by decide)).2.1 rfl,
   (netGetNextCoAPMessageId_spec 0 (by decide)).1 (by decide),
   (netGetNextCoAPMessageId_spec 65534 (by decide)).2.2.2 4⟩

/-! ### Received-message-ID table -/

theorem labsDiff_millis (t t' : Nat) (h : t ≤ t') :
    labsDiff (millis t') (millis t) =
      if (t' - t) % 2 ^ 32 < 2 ^ 31 then (t' - t) % 2 ^ 32 else 2 ^ 32 - (t' - t) % 2 ^ 32 := by
  unfold labsDiff millis
  have e : (t' % 2 ^ 32 + 2 ^ 32 - t % 2 ^ 32 % 2 ^ 32) % 2 ^ 32 = (t' - t) % 2 ^ 32 := by
    norm_num
    omega
  simp only [e]

theorem scanTracking_length (now a p m : Nat) (l : List recv_msg_id_t) :
    (scanTracking now a p m l).2.length = l.length := by
  induction l with
  | nil => rfl
  | cons e es ih =>
    unfold scanTracking
    split
    · split <;> simp [ih]
    · simp [ih]

theorem scanTracking_true_of_mem (now a p m : Nat) (l : List recv_msg_id_t)
    (h : ∃ e ∈ l, (a = e.address ∧ p = e.port ∧ m = e.messageId) ∧
      labsDiff now e.tsMillis < NET_COAP_RECEIVED_MSG_ID_ENTRY_TIMEOUT) :
    (scanTracking now a p m l).1 = true := by
  induction l with
  | nil => simp at h
  | cons e es ih =>
    unfold scanTracking
    obtain ⟨x, hx, hm, hf⟩ := h
    rcases List.mem_cons.mp hx with rfl | hx
    · simp [hm, hf]
    · have := ih ⟨x, hx, hm, hf⟩
      split
      · split <;> simp [this]
      · simp [this]

theorem netIsCoAPMessageIdDuplicate_fst (t : Nat) (st : MsgTracking) (a p m : Nat) :
    (netIsCoAPMessageIdDuplicate t st a p m).1 =
      (scanTracking (millis t) a p m st.coapMsgTrackingList).1 := by
  unfold netIsCoAPMessageIdDuplicate
  cases h : (scanTracking (millis t) a p m st.coapMsgTrackingList).1 <;> simp [h]

theorem netIsCoAPMessageIdDuplicate_miss (t : Nat) (st : MsgTracking) (a p m : Nat)
    (h : (netIsCoAPMessageIdDuplicate t st a p m).1 = false) :
    (netIsCoAPMessageIdDuplicate t st a p m).2 =
      { coapMsgTrackingList :=
          (scanTracking (millis t) a p m st.coapMsgTrackingList).2.set st.msgTrackingNewEntryPos
            ⟨a, p, m, millis t⟩,
        msgTrackingNewEntryPos :=
          ((st.msgTrackingNewEntryPos + 1) % 256) % st.coapMsgTrackingList.length } := by
  rw [netIsCoAPMessageIdDuplicate_fst] at h
  unfold netIsCoAPMessageIdDuplicate
  simp [h]

/-- C5: on every table whose cursor is inside the table, when a call records
a tuple (returns false) and the next call carries the same tuple less than
`NET_COAP_RECEIVED_MSG_ID_ENTRY_TIMEOUT` later, the second call returns true. -/
theorem duplicate_inside_window (st : MsgTracking) (a p m t t' : Nat)
    (hpos : st.msgTrackingNewEntryPos < st.coapMsgTrackingList.length)
    (hfirst : (netIsCoAPMessageIdDuplicate t st a p m).1 = false)
    (hle : t ≤ t') (hlt : t' - t < NET_COAP_RECEIVED_MSG_ID_ENTRY_TIMEOUT) :
    (netIsCoAPMessageIdDuplicate t' (netIsCoAPMessageIdDuplicate t st a p m).2 a p m).1 = true := by
  have hs := netIsCoAPMessageIdDuplicate_miss t st a p m hfirst
  have hfresh : labsDiff (millis t') (millis t) < NET_COAP_RECEIVED_MSG_ID_ENTRY_TIMEOUT := by
    rw [labsDiff_millis t t' hle]
    unfold NET_COAP_RECEIVED_MSG_ID_ENTRY_TIMEOUT at *
    have : (t' - t) % 2 ^ 32 = t' - t := Nat.mod_eq_of_lt (by omega)
    rw [this]
    split <;> omega
  rw [netIsCoAPMessageIdDuplicate_fst, hs]
  apply scanTracking_true_of_mem
  refine ⟨⟨a, p, m, millis t⟩, ?_, ⟨rfl, rfl, rfl⟩, hfresh⟩
  apply List.mem_iff_getElem.mpr
  refine ⟨st.msgTrackingNewEntryPos, ?_, ?_⟩
  · simpa [scanTracking_length] using hpos
  · simp

theorem duplicate_inside_window_witness :
    (netIsCoAPMessageIdDuplicate 69999
      (netIsCoAPMessageIdDuplicate 40000 freshTable3 1 2 3).2 1 2 3).1 = true :=
  duplicate_inside_window freshTable3 1 2 3 40000 69999 (by decide) (by decide) (by decide)
    (by decide)

theorem scanTracking_all_expired (now a p m : Nat) (l : List recv_msg_id_t)
    (h : ∀ e ∈ l, (a = e.address ∧ p = e.port ∧ m = e.messageId) →
      ¬ labsDiff now e.tsMillis < NET_COAP_RECEIVED_MSG_ID_ENTRY_TIMEOUT) :
    scanTracking now a p m l = (false, l.map (clearIfMatch a p m)) := by
  induction l with
  | nil => rfl
  | cons e es ih =>
    have ih' := ih (fun x hx => h x (List.mem_cons_of_mem _ hx))
    unfold scanTracking
    by_cases hm : a = e.address ∧ p = e.port ∧ m = e.messageId
    · have hx := h e (List.mem_cons_self _ _) hm
      rw [if_pos hm, if_neg hx, ih', List.map_cons, clearIfMatch, if_pos hm]
    · rw [if_neg hm, ih', List.map_cons, clearIfMatch, if_neg hm]

theorem scanTracking_miss (now a p m : Nat) (l : List recv_msg_id_t)
    (h : (scanTracking now a p m l).1 = false) :
    (scanTracking now a p m l).2 = l.map (clearIfMatch a p m) := by
  induction l with
  | nil => rfl
  | cons e es ih =>
    unfold scanTracking at h ⊢
    by_cases hm : a = e.address ∧ p = e.port ∧ m = e.messageId
    · by_cases hf : labsDiff now e.tsMillis < NET_COAP_RECEIVED_MSG_ID_ENTRY_TIMEOUT
      · simp [hm, hf] at h
      · rw [if_pos hm, if_neg hf] at h ⊢
        rw [List.map_cons, clearIfMatch, if_pos hm, ih h]
    · rw [if_neg hm] at h ⊢
      rw [List.map_cons, clearIfMatch, if_neg hm, ih h]

theorem clearIfMatch_no_match (a p m : Nat) (hnz : ¬ (a = 0 ∧ p = 0 ∧ m = 0))
    (e : recv_msg_id_t) :
    ¬ (a = (clearIfMatch a p m e).address ∧ p = (clearIfMatch a p m e).port ∧
      m = (clearIfMatch a p m e).messageId) := by
  unfold clearIfMatch
  by_cases hm : a = e.address ∧ p = e.port ∧ m = e.messageId
  · rw [if_pos hm]; exact hnz
  · rw [if_neg hm]; exact hm

theorem scanTracking_mem (now a p m : Nat) (l : List recv_msg_id_t) :
    ∀ e ∈ (scanTracking now a p m l).2, e ∈ l ∨ e = ⟨0, 0, 0, 0⟩ := by
  induction l with
  | nil => intro e he; simp [scanTracking] at he
  | cons x xs ih =>
    intro e he
    unfold scanTracking at he
    by_cases hm : a = x.address ∧ p = x.port ∧ m = x.messageId
    · by_cases hf : labsDiff now x.tsMillis < NET_COAP_RECEIVED_MSG_ID_ENTRY_TIMEOUT
      · rw [if_pos hm, if_pos hf] at he
        exact Or.inl he
      · rw [if_pos hm, if_neg hf] at he
        rcases List.mem_cons.mp he with h | h
        · exact Or.inr h
        · rcases ih e h with h | h
          · exact Or.inl (List.mem_cons_of_mem _ h)
          · exact Or.inr h
    · rw [if_neg hm] at he
      rcases List.mem_cons.mp he with h | h
      · exact Or.inl (h ▸ List.mem_cons_self _ _)
      · rcases ih e h with h | h
        · exact Or.inl (List.mem_cons_of_mem _ h)
        · exact Or.inr h

theorem onlyStamp_call (a p m ts : Nat) (hnz : ¬ (a = 0 ∧ p = 0 ∧ m = 0)) (st : MsgTracking)
    (c : DupCall) (hc : ¬ (a = c.address ∧ p = c.port ∧ m = c.messageId))
    (h : OnlyStamp a p m ts st) :
    OnlyStamp a p m ts (netIsCoAPMessageIdDuplicate c.t st c.address c.port c.messageId).2 := by
  obtain ⟨hpos, hst⟩ := h
  have hscan : ∀ e ∈ (scanTracking (millis c.t) c.address c.port c.messageId
      st.coapMsgTrackingList).2,
      (a = e.address ∧ p = e.port ∧ m = e.messageId) → e.tsMillis = ts := by
    intro e he hm
    rcases scanTracking_mem _ _ _ _ _ e he with h1 | h1
    · exact hst e h1 hm
    · subst h1
      exact absurd hm hnz
  cases hr : (netIsCoAPMessageIdDuplicate c.t st c.address c.port c.messageId).1 with
  | true =>
    have : (netIsCoAPMessageIdDuplicate c.t st c.address c.port c.messageId).2 =
        { st with coapMsgTrackingList := (scanTracking (millis c.t) c.address c.port c.messageId
            st.coapMsgTrackingList).2 } := by
      rw [netIsCoAPMessageIdDuplicate_fst] at hr
      unfold netIsCoAPMessageIdDuplicate
      simp [hr]
    rw [this]
    exact ⟨by simpa [scanTracking_length] using hpos, hscan⟩
  | false =>
    rw [netIsCoAPMessageIdDuplicate_miss _ _ _ _ _ hr]
    refine ⟨?_, ?_⟩
    · simp only [List.length_set, scanTracking_length]
      exact Nat.mod_lt _ (by omega)
    · intro e he hm
      rcases List.mem_or_eq_of_mem_set he with h1 | h1
      · exact hscan e h1 hm
      · subst h1
        exact absurd hm hc

theorem onlyStamp_runCalls (a p m ts : Nat) (hnz : ¬ (a = 0 ∧ p = 0 ∧ m = 0))
    (cs : List DupCall) :
    ∀ st, (∀ c ∈ cs, ¬ (a = c.address ∧ p = c.port ∧ m = c.messageId)) →
      OnlyStamp a p m ts st → OnlyStamp a p m ts (runCalls st cs) := by
  induction cs with
  | nil => intro st _ h; exact h
  | cons c cs ih =>
    intro st hcs h
    rw [runCalls]
    exact ih _ (fun x hx => hcs x (List.mem_cons_of_mem _ hx))
      (onlyStamp_call a p m ts hnz st c (hcs c (List.mem_cons_self _ _)) h)

/-- C6 (as amended): for a tuple other than the all-zero one that a call at
time `t` recorded (returned false), the next call with the same tuple,
whatever calls for other tuples come in between, made at a time `t'` whose
32-bit distance from `t` is between the timeout and `2^32` minus the timeout,
returns false, zeroes every expired entry of the tuple still in the table and
records the tuple at the cursor with the new clock reading. -/
theorem duplicate_expiry (st : MsgTracking) (a p m t t' : Nat) (others : List DupCall)
    (hpos : st.msgTrackingNewEntryPos < st.coapMsgTrackingList.length)
    (hnz : ¬ (a = 0 ∧ p = 0 ∧ m = 0))
    (hfirst : (netIsCoAPMessageIdDuplicate t st a p m).1 = false)
    (hothers : ∀ c ∈ others, ¬ (a = c.address ∧ p = c.port ∧ m = c.messageId))
    (hle : t ≤ t')
    (hlo : NET_COAP_RECEIVED_MSG_ID_ENTRY_TIMEOUT ≤ (t' - t) % 2 ^ 32)
    (hhi : (t' - t) % 2 ^ 32 ≤ 2 ^ 32 - NET_COAP_RECEIVED_MSG_ID_ENTRY_TIMEOUT) :
    (netIsCoAPMessageIdDuplicate t'
        (runCalls (netIsCoAPMessageIdDuplicate t st a p m).2 others) a p m).1 = false ∧
    (netIsCoAPMessageIdDuplicate t'
        (runCalls (netIsCoAPMessageIdDuplicate t st a p m).2 others) a p m).2
      = { coapMsgTrackingList :=
            ((runCalls (netIsCoAPMessageIdDuplicate t st a p m).2 others).coapMsgTrackingList.map
                (clearIfMatch a p m)).set
              (runCalls (netIsCoAPMessageIdDuplicate t st a p m).2 others).msgTrackingNewEntryPos
              ⟨a, p, m, millis t'⟩,
          msgTrackingNewEntryPos :=
            (((runCalls (netIsCoAPMessageIdDuplicate t st a p m).2 others).msgTrackingNewEntryPos
                + 1) % 256) %
              (runCalls (netIsCoAPMessageIdDuplicate t st a p m).2
                others).coapMsgTrackingList.length } := by
  have hs := netIsCoAPMessageIdDuplicate_miss t st a p m hfirst
  rw [netIsCoAPMessageIdDuplicate_fst] at hfirst
  have hr := scanTracking_miss _ a p m _ hfirst
  have hold : ¬ labsDiff (millis t') (millis t) < NET_COAP_RECEIVED_MSG_ID_ENTRY_TIMEOUT := by
    rw [labsDiff_millis t t' hle]
    unfold NET_COAP_RECEIVED_MSG_ID_ENTRY_TIMEOUT at *
    split <;> omega
  have h1 : OnlyStamp a p m (millis t) (netIsCoAPMessageIdDuplicate t st a p m).2 := by
    rw [hs, hr]
    refine ⟨?_, ?_⟩
    · simp only [List.length_set, List.length_map]
      exact Nat.mod_lt _ (by omega)
    · intro e he hm
      rcases List.mem_or_eq_of_mem_set he with h2 | h2
      · obtain ⟨x, _, rfl⟩ := List.mem_map.mp h2
        exact absurd hm (clearIfMatch_no_match a p m hnz x)
      · subst h2; rfl
  have h2 := onlyStamp_runCalls a p m (millis t) hnz others _ hothers h1
  have hscan2 := scanTracking_all_expired (millis t') a p m
    (runCalls (netIsCoAPMessageIdDuplicate t st a p m).2 others).coapMsgTrackingList
    (fun e he hm => by rw [h2.2 e he hm]; exact hold)
  have hmiss : (netIsCoAPMessageIdDuplicate t'
      (runCalls (netIsCoAPMessageIdDuplicate t st a p m).2 others) a p m).1 = false := by
    rw [netIsCoAPMessageIdDuplicate_fst, hscan2]
  refine ⟨hmiss, ?_⟩
  rw [netIsCoAPMessageIdDuplicate_miss _ _ a p m hmiss, hscan2]

theorem duplicate_expiry_witness :
    (netIsCoAPMessageIdDuplicate 70000
      (runCalls (netIsCoAPMessageIdDuplicate 40000 freshTable3 1 2 3).2
        [⟨50000, 1, 2, 4⟩, ⟨60000, 9, 2, 3⟩]) 1 2 3).1 = false :=
  (duplicate_expiry freshTable3 1 2 3 40000 70000 [⟨50000, 1, 2, 4⟩, ⟨60000, 9, 2, 3⟩]
    (by decide) (by decide) (by decide) (by decide) (by decide) (by decide) (by decide)).1

/-- C6 (as stated) fails: the tuple (1, 2, 3) is recorded at 40000 ms; a call
`2^32 - 1` ms later, far beyond the 30000 ms timeout, reads the clock one
tick below the stored stamp and `labs` turns the wrapped difference into 1,
so the call reports a duplicate. -/
theorem duplicate_expiry_counterexample :
    (netIsCoAPMessageIdDuplicate 40000 freshTable3 1 2 3).1 = false ∧
    NET_COAP_RECEIVED_MSG_ID_ENTRY_TIMEOUT ≤ (2 ^ 32 + 39999) - 40000 ∧
    (netIsCoAPMessageIdDuplicate (2 ^ 32 + 39999)
      (netIsCoAPMessageIdDuplicate 40000 freshTable3 1 2 3).2 1 2 3).1 = true := by
  decide

/-! ### Inbound dispatch -/

theorem eventTypeFor_ne_undefined_iff (tok : List Nat) (th : thing_info_t) :
    eventTypeFor tok th ≠ TP_EVENT_UNDEFINED ↔ matchesSlot tok th = true := by
  unfold eventTypeFor matchesSlot
  cases memcmpEq tok th.telemetrySendToken TP_COAP_TOKEN_LEN <;>
  cases memcmpEq tok th.clientAttrReadToken TP_COAP_TOKEN_LEN <;>
  cases memcmpEq tok th.clientAttrWriteToken TP_COAP_TOKEN_LEN <;>
  cases memcmpEq tok th.sharedAttrReadToken TP_COAP_TOKEN_LEN <;>
  cases memcmpEq tok th.sharedAttrObserveToken TP_COAP_TOKEN_LEN <;>
  cases memcmpEq tok th.incomingRpcRequestObserveToken TP_COAP_TOKEN_LEN <;>
  cases memcmpEq tok th.outgoingRpcRequestToken TP_COAP_TOKEN_LEN <;>
  decide

theorem dispatchLoop_cons {J : Type} (tok : List Nat) (j : J) (k : Nat) (th : thing_info_t)
    (rest : List thing_info_t) :
    dispatchLoop true tok j k (th :: rest) =
      (if matchesSlot tok th = true then [⟨eventTypeFor tok th, k, j⟩] else []) ++
        dispatchLoop true tok j (k + 1) rest := by
  rw [dispatchLoop]
  by_cases h : matchesSlot tok th = true
  · have h' := (eventTypeFor_ne_undefined_iff tok th).mpr h
    simp [h, h']
  · have h' : ¬ eventTypeFor tok th ≠ TP_EVENT_UNDEFINED :=
      fun hc => h ((eventTypeFor_ne_undefined_iff tok th).mp hc)
    simp [h, h']

theorem dispatchLoop_mem {J : Type} (tok : List Nat) (j : J) :
    ∀ (things : List thing_info_t) (k : Nat) (e : PlatformEvent J),
      e ∈ dispatchLoop true tok j k things →
      e.jsonObj = j ∧ k ≤ e.thing ∧
        ∃ th, things[e.thing - k]? = some th ∧ matchesSlot tok th = true ∧
          e.type = eventTypeFor tok th := by
  intro things
  induction things with
  | nil => intro k e h; simp [dispatchLoop] at h
  | cons th rest ih =>
    intro k e h
    rw [dispatchLoop_cons, List.mem_append] at h
    rcases h with h | h
    · by_cases hm : matchesSlot tok th = true
      · simp only [hm, if_true, List.mem_singleton] at h
        subst h
        exact ⟨rfl, le_refl _, th, by simp, hm, rfl⟩
      · simp [hm] at h
    · obtain ⟨h1, h2, th', h3, h4, h5⟩ := ih (k + 1) e h
      refine ⟨h1, by omega, th', ?_, h4, h5⟩
      have : e.thing - k = (e.thing - (k + 1)) + 1 := by omega
      rw [this, List.getElem?_cons_succ]
      exact h3

theorem dispatchLoop_count {J : Type} (tok : List Nat) (j : J) :
    ∀ (things : List thing_info_t) (k i : Nat) (th : thing_info_t),
      things[i]? = some th →
      (dispatchLoop true tok j k things).countP (fun e => e.thing == k + i) =
        if matchesSlot tok th = true then 1 else 0 := by
  intro things
  induction things with
  | nil => intro k i th h; simp at h
  | cons t rest ih =>
    intro k i th h
    rw [dispatchLoop_cons, List.countP_append]
    cases i with
    | zero =>
      simp only [List.getElem?_cons_zero, Option.some.injEq] at h
      subst h
      have hz : (dispatchLoop true tok j (k + 1) rest).countP (fun e => e.thing == k + 0) = 0 := by
        rw [List.countP_eq_zero]
        intro e he
        have := (dispatchLoop_mem tok j rest (k + 1) e he).2.1
        simp only [Nat.add_zero, beq_iff_eq]
        omega
      rw [hz]
      by_cases hm : matchesSlot tok t = true <;> simp [hm]
    | succ i =>
      rw [List.getElem?_cons_succ] at h
      have := ih (k + 1) i th h
      have e1 : k + 1 + i = k + (i + 1) := by omega
      rw [e1] at this
      rw [this]
      by_cases hm : matchesSlot tok t = true
      · simp only [hm, if_true, List.countP_cons, List.countP_nil, beq_iff_eq]
        have : ¬ k = k + (i + 1) := by omega
        simp [this]
      · simp [hm]

theorem dispatchLoop_length {J : Type} (tok : List Nat) (j : J) :
    ∀ (things : List thing_info_t) (k : Nat),
      (dispatchLoop true tok j k things).length = (things.filter (matchesSlot tok)).length := by
  intro things
  induction things with
  | nil => intro k; simp [dispatchLoop]
  | cons t rest ih =>
    intro k
    rw [dispatchLoop_cons, List.length_append, ih (k + 1), List.filter_cons]
    by_cases hm : matchesSlot tok t = true
    · simp [hm]; omega
    · simp [hm]

theorem hIncomingCoAPMessage_parsed {J : Type} (maxLen : Nat) (parseObject : List Nat → Option J)
    (registered : Bool) (thingList : List thing_info_t) (message : CoapMessage) (j : J)
    (htok : message.token.length = TP_COAP_TOKEN_LEN)
    (hparse : parseBody maxLen parseObject message.payload = some j) :
    hIncomingCoAPMessage maxLen parseObject registered thingList message =
      (thingList, dispatchLoop registered message.token j 0 thingList) := by
  unfold hIncomingCoAPMessage
  rw [if_pos htok, hparse]

/-- C8: for a message whose token has length 4 and whose body the handler
parses into an object `j`, with a platform event handler registered, every
registered thing is tested: a thing with a matching compared slot gets
exactly one event, a thing without gets none, every event carries the parsed
body and the type chosen for its thing, and the number of events is the
number of things with a match. -/
theorem dispatch_tests_every_thing {J : Type} (maxLen : Nat)
    (parseObject : List Nat → Option J) (thingList : List thing_info_t)
    (message : CoapMessage) (j : J)
    (htok : message.token.length = TP_COAP_TOKEN_LEN)
    (hparse : parseBody maxLen parseObject message.payload = some j) :
    (∀ i th, thingList[i]? = some th →
      (hIncomingCoAPMessage maxLen parseObject true thingList message).2.countP
          (fun e => e.thing == i) = if matchesSlot message.token th = true then 1 else 0) ∧
    (∀ e ∈ (hIncomingCoAPMessage maxLen parseObject true thingList message).2,
      e.jsonObj = j ∧ ∃ th, thingList[e.thing]? = some th ∧ e.type = eventTypeFor message.token th) ∧
    (hIncomingCoAPMessage maxLen parseObject true thingList message).2.length =
      (thingList.filter (matchesSlot message.token)).length := by
  rw [hIncomingCoAPMessage_parsed maxLen parseObject true thingList message j htok hparse]
  refine ⟨?_, ?_, dispatchLoop_length _ j thingList 0⟩
  · intro i th h
    have := dispatchLoop_count message.token j thingList 0 i th h
    simpa using this
  · intro e he
    obtain ⟨h1, _, th, h3, _, h5⟩ := dispatchLoop_mem message.token j thingList 0 e he
    exact ⟨h1, th, by simpa using h3, h5⟩

theorem dispatch_tests_every_thing_witness :
    (hIncomingCoAPMessage 50 acceptAll true
      [demoThing [1, 2, 3, 4] [0xAA, 0xBB, 0xCC, 0xDD], demoThing [0xAA, 0xBB, 0xCC, 0xDD] [5, 6, 7, 8]]
      ⟨[0xAA, 0xBB, 0xCC, 0xDD], []⟩).2.length = 2 := by
  have h := (dispatch_tests_every_thing 50 acceptAll
    [demoThing [1, 2, 3, 4] [0xAA, 0xBB, 0xCC, 0xDD], demoThing [0xAA, 0xBB, 0xCC, 0xDD] [5, 6, 7, 8]]
    ⟨[0xAA, 0xBB, 0xCC, 0xDD], []⟩ 2 (by decide) (by decide)).2.2
  rw [h]
  decide

theorem dispatchLoop_mem_of_match {J : Type} (tok : List Nat) (j : J) :
    ∀ (things : List thing_info_t) (k i : Nat) (th : thing_info_t),
      things[i]? = some th → matchesSlot tok th = true →
      ⟨eventTypeFor tok th, k + i, j⟩ ∈ dispatchLoop true tok j k things := by
  intro things
  induction things with
  | nil => intro k i th h; simp at h
  | cons t rest ih =>
    intro k i th h hm
    rw [dispatchLoop_cons, List.mem_append]
    cases i with
    | zero =>
      simp only [List.getElem?_cons_zero, Option.some.injEq] at h
      subst h
      left
      simp [hm]
    | succ i =>
      rw [List.getElem?_cons_succ] at h
      right
      have := ih (k + 1) i th h hm
      have e1 : k + 1 + i = k + (i + 1) := by omega
      rwa [e1] at this

/-- C9 (as amended): with a handler registered, for a registered thing and a
message with a parseable body whose 4-byte token equals the thing's
shared-attribute observe token and differs from the four slots compared
before it (telemetry send, client-attribute read and write, shared-attribute
read), a `TP_EVENT_SHARED_ATTR_NOTIFY` event is emitted for that thing. -/
theorem shared_attr_notify_emitted {J : Type} (maxLen : Nat)
    (parseObject : List Nat → Option J) (thingList : List thing_info_t)
    (message : CoapMessage) (j : J) (i : Nat) (th : thing_info_t)
    (hth : thingList[i]? = some th)
    (htok : message.token.length = TP_COAP_TOKEN_LEN)
    (hparse : parseBody maxLen parseObject message.payload = some j)
    (hobs : message.token = th.sharedAttrObserveToken)
    (h1 : memcmpEq message.token th.telemetrySendToken TP_COAP_TOKEN_LEN = false)
    (h2 : memcmpEq message.token th.clientAttrReadToken TP_COAP_TOKEN_LEN = false)
    (h3 : memcmpEq message.token th.clientAttrWriteToken TP_COAP_TOKEN_LEN = false)
    (h4 : memcmpEq message.token th.sharedAttrReadToken TP_COAP_TOKEN_LEN = false) :
    ⟨TP_EVENT_SHARED_ATTR_NOTIFY, i, j⟩ ∈
      (hIncomingCoAPMessage maxLen parseObject true thingList message).2 := by
  rw [hIncomingCoAPMessage_parsed maxLen parseObject true thingList message j htok hparse]
  have h5 : memcmpEq message.token th.sharedAttrObserveToken TP_COAP_TOKEN_LEN = true := by
    rw [← hobs]; simp [memcmpEq]
  have hty : eventTypeFor message.token th = TP_EVENT_SHARED_ATTR_NOTIFY := by
    simp [eventTypeFor, h1, h2, h3, h4, h5]
  have hm : matchesSlot message.token th = true := by
    simp [matchesSlot, h5]
  have := dispatchLoop_mem_of_match message.token j thingList 0 i th hth hm
  rw [hty] at this
  simpa using this

theorem shared_attr_notify_emitted_witness :
    (⟨TP_EVENT_SHARED_ATTR_NOTIFY, 0, 2⟩ : PlatformEvent Nat) ∈
      (hIncomingCoAPMessage 50 acceptAll true
        [demoThing [0x0B, 0x5E, 0x2F, 0x01] [0xAA, 0xBB, 0xCC, 0xDD]]
        ⟨[0xAA, 0xBB, 0xCC, 0xDD], []⟩).2 :=
  shared_attr_notify_emitted 50 acceptAll
    [demoThing [0x0B, 0x5E, 0x2F, 0x01] [0xAA, 0xBB, 0xCC, 0xDD]]
    ⟨[0xAA, 0xBB, 0xCC, 0xDD], []⟩ 2 0
    (demoThing [0x0B, 0x5E, 0x2F, 0x01] [0xAA, 0xBB, 0xCC, 0xDD])
    (by decide) (by decide) (by decide) (by decide) (by decide) (by decide) (by decide)
    (by decide)

/-- C9 (as stated) fails: a thing whose telemetry-send slot holds the same
bytes `AA BB CC DD` as its shared-attribute observe slot gets the notification
reported as a telemetry response; no `TP_EVENT_SHARED_ATTR_NOTIFY` event is
emitted. -/
theorem shared_attr_notify_counterexample :
    (⟨[0xAA, 0xBB, 0xCC, 0xDD], []⟩ : CoapMessage).token =
      (demoThing [0xAA, 0xBB, 0xCC, 0xDD] [0xAA, 0xBB, 0xCC, 0xDD]).sharedAttrObserveToken ∧
    parseBody 50 acceptAll (⟨[0xAA, 0xBB, 0xCC, 0xDD], []⟩ : CoapMessage).payload = some 2 ∧
    (hIncomingCoAPMessage 50 acceptAll true
      [demoThing [0xAA, 0xBB, 0xCC, 0xDD] [0xAA, 0xBB, 0xCC, 0xDD]]
      ⟨[0xAA, 0xBB, 0xCC, 0xDD], []⟩).2 = [⟨TP_EVENT_TELEMETRY_SEND_RESPONSE, 0, 2⟩] := by
  decide

theorem dispatchLoop_no_match {J : Type} (registered : Bool) (tok : List Nat) (j : J) :
    ∀ (things : List thing_info_t) (k : Nat),
      (∀ th ∈ things, matchesSlot tok th = false) →
      dispatchLoop registered tok j k things = [] := by
  intro things
  induction things with
  | nil => intro k _; rfl
  | cons t rest ih =>
    intro k h
    have ht := h t (List.mem_cons_self _ _)
    have hu : ¬ eventTypeFor tok t ≠ TP_EVENT_UNDEFINED := by
      intro hc
      rw [(eventTypeFor_ne_undefined_iff tok t).mp hc] at ht
      exact Bool.noConfusion ht
    rw [dispatchLoop, if_neg (fun hc => hu hc.1)]
    exact ih (k + 1) (fun th hth => h th (List.mem_cons_of_mem _ hth))

/-- C10: `hIncomingCoAPMessage` makes no handler call when the token length
is not `TP_COAP_TOKEN_LEN`, and none when the token equals no compared slot
of any registered thing; in both cases the thing list is left as it was. -/
theorem no_event_without_match {J : Type} (maxLen : Nat) (parseObject : List Nat → Option J)
    (registered : Bool) (thingList : List thing_info_t) (message : CoapMessage) :
    (message.token.length ≠ TP_COAP_TOKEN_LEN →
      hIncomingCoAPMessage maxLen parseObject registered thingList message = (thingList, [])) ∧
    ((∀ th ∈ thingList, matchesSlot message.token th = false) →
      hIncomingCoAPMessage maxLen parseObject registered thingList message = (thingList, [])) := by
  constructor
  · intro h
    unfold hIncomingCoAPMessage
    rw [if_neg h]
  · intro h
    unfold hIncomingCoAPMessage
    split
    · split
      · rfl
      · rw [dispatchLoop_no_match registered message.token _ thingList 0 h]
    · rfl

theorem no_event_without_match_witness :
    hIncomingCoAPMessage 50 acceptAll true
        [demoThing [0x0B, 0x5E, 0x2F, 0x01] [0xAA, 0xBB, 0xCC, 0xDD]]
        ⟨[0x11, 0x22, 0x33], [123, 125]⟩ =
      ([demoThing [0x0B, 0x5E, 0x2F, 0x01] [0xAA, 0xBB, 0xCC, 0xDD]], []) ∧
    hIncomingCoAPMessage 50 acceptAll true
        [demoThing [0x0B, 0x5E, 0x2F, 0x01] [0xAA, 0xBB, 0xCC, 0xDD]]
        ⟨[0x11, 0x22, 0x33, 0x44], [123, 125]⟩ =
      ([demoThing [0x0B, 0x5E, 0x2F, 0x01] [0xAA, 0xBB, 0xCC, 0xDD]], []) :=
  ⟨(no_event_without_match 50 acceptAll true
      [demoThing [0x0B, 0x5E, 0x2F, 0x01] [0xAA, 0xBB, 0xCC, 0xDD]]
      ⟨[0x11, 0x22, 0x33], [123, 125]⟩).1 (by decide),
   (no_event_without_match 50 acceptAll true
      [demoThing [0x0B, 0x5E, 0x2F, 0x01] [0xAA, 0xBB, 0xCC, 0xDD]]
      ⟨[0x11, 0x22, 0x33, 0x44], [123, 125]⟩).2 (by decide)⟩

/-! ### The framer -/

theorem bytesOf_burst (t : Nat) (bs : List Nat) : bytesOf (burst t bs) = bs := by
  induction bs with
  | nil => rfl
  | cons b bs ih =>
    simp only [bytesOf, burst, List.map_cons] at ih ⊢
    rw [List.filterMap_cons, ih]

theorem calm_burst (timeout t : Nat) (ht : 0 < timeout) (bs : List Nat) :
    Calm timeout (burst t bs) := by
  intro a ha c hc
  obtain ⟨x, _, rfl⟩ := List.mem_map.mp ha
  obtain ⟨y, _, rfl⟩ := List.mem_map.mp hc
  have : labsDiff (millis t) (millis t) = 0 := by
    unfold labsDiff millis
    norm_num
  rw [this]
  exact ht

theorem calm_suffix (timeout : Nat) (ticks rest : List Tick) (h : Calm timeout ticks)
    (hs : rest <:+ ticks) : Calm timeout rest :=
  fun a ha c hc => h a (hs.subset ha) c (hs.subset hc)

theorem readLoop_calm (timeout : Nat) :
    ∀ (ticks : List Tick) (f : Frame) (last : Nat),
      (∀ a ∈ ticks, labsDiff (millis a.t) last < timeout) → Calm timeout ticks →
      ∀ ty buf len more, parseBytes f (bytesOf ticks) = some (ty, buf, len, more) →
        ∃ rest, readLoop timeout f last ticks = some ⟨ty, buf, len, rest⟩ ∧
          bytesOf rest = more ∧ rest <:+ ticks := by
  intro ticks
  induction ticks with
  | nil => intro f last _ _ ty buf len more h; simp [bytesOf, parseBytes] at h
  | cons tk rest ih =>
    intro f last hlast hcalm ty buf len more h
    have hcalm' : Calm timeout rest := calm_suffix timeout _ _ hcalm (List.suffix_cons tk rest)
    have hlast' : ∀ a ∈ rest, labsDiff (millis a.t) last < timeout :=
      fun a ha => hlast a (List.mem_cons_of_mem _ ha)
    cases hb : tk.b with
    | none =>
      have e : bytesOf (tk :: rest) = bytesOf rest := by
        simp only [bytesOf]; rw [List.filterMap_cons_none hb]
      rw [e] at h
      obtain ⟨r, h1, h2, h3⟩ := ih f last hlast' hcalm' ty buf len more h
      refine ⟨r, ?_, h2, h3.trans (List.suffix_cons tk rest)⟩
      rw [readLoop, hb]
      simp only
      rw [if_pos (hlast tk (List.mem_cons_self _ _))]
      exact h1
    | some b =>
      have e : bytesOf (tk :: rest) = b :: bytesOf rest := by
        simp only [bytesOf]; rw [List.filterMap_cons_some hb]
      rw [e, parseBytes] at h
      rw [readLoop, hb]
      simp only
      cases hf : feed f b with
      | done ty' buf' len' =>
        rw [hf] at h
        simp only [Option.some.injEq, Prod.mk.injEq] at h
        obtain ⟨rfl, rfl, rfl, rfl⟩ := h
        exact ⟨rest, rfl, rfl, List.suffix_cons tk rest⟩
      | cont f' touched =>
        rw [hf] at h
        simp only at h ⊢
        have hl : ∀ a ∈ tk :: rest,
            labsDiff (millis a.t) (if touched = true then millis tk.t else last) < timeout := by
          intro a ha
          cases touched with
          | true => simpa using hcalm a ha tk (List.mem_cons_self _ _)
          | false => simpa using hlast a ha
        rw [if_pos (hl tk (List.mem_cons_self _ _))]
        obtain ⟨r, h1, h2, h3⟩ := ih f' _ (fun a ha => hl a (List.mem_cons_of_mem _ ha))
          hcalm' ty buf len more h
        exact ⟨r, h1, h2, h3.trans (List.suffix_cons tk rest)⟩

theorem readResponse_calm (timeout : Nat) (rspBuf : List Nat) (ticks : List Tick)
    (hcalm : Calm timeout ticks) (ty : Nat) (buf : List Nat) (len : Nat) (more : List Nat)
    (h : parseBytes ⟨.StartCR, 0, rspBuf⟩ (bytesOf ticks) = some (ty, buf, len, more)) :
    ∃ rest, readResponse rspBuf timeout ticks = some ⟨ty, buf, len, rest⟩ ∧
      bytesOf rest = more ∧ rest <:+ ticks := by
  cases ticks with
  | nil => simp [bytesOf, parseBytes] at h
  | cons tk rest =>
    unfold readResponse
    exact readLoop_calm timeout (tk :: rest) _ _
      (fun a ha => hcalm a ha tk (List.mem_cons_self _ _)) hcalm ty buf len more h

theorem readLoop_sound (timeout : Nat) :
    ∀ (ticks : List Tick) (f : Frame) (last : Nat) (ty : Nat) (buf : List Nat) (len : Nat)
      (more : List Nat), parseBytes f (bytesOf ticks) = some (ty, buf, len, more) →
      ∃ r, readLoop timeout f last ticks = some r ∧ r.rest <:+ ticks ∧
        (r.type ≠ BC95_RESPONSE_TYPE_TIMEOUT →
          r.type = ty ∧ r.rspBuf = buf ∧ r.rspLen = len ∧ bytesOf r.rest = more) := by
  intro ticks
  induction ticks with
  | nil => intro f last ty buf len more h; simp [bytesOf, parseBytes] at h
  | cons tk rest ih =>
    intro f last ty buf len more h
    cases hb : tk.b with
    | none =>
      have e : bytesOf (tk :: rest) = bytesOf rest := by
        simp only [bytesOf]; rw [List.filterMap_cons_none hb]
      rw [e] at h
      rw [readLoop, hb]
      simp only
      by_cases hc : labsDiff (millis tk.t) last < timeout
      · rw [if_pos hc]
        obtain ⟨r, h1, h2, h3⟩ := ih f last ty buf len more h
        exact ⟨r, h1, h2.trans (List.suffix_cons tk rest), h3⟩
      · rw [if_neg hc]
        exact ⟨_, rfl, List.suffix_cons tk rest, fun hne => absurd rfl hne⟩
    | some b =>
      have e : bytesOf (tk :: rest) = b :: bytesOf rest := by
        simp only [bytesOf]; rw [List.filterMap_cons_some hb]
      rw [e, parseBytes] at h
      rw [readLoop, hb]
      simp only
      cases hf : feed f b with
      | done ty' buf' len' =>
        rw [hf] at h
        simp only [Option.some.injEq, Prod.mk.injEq] at h
        obtain ⟨rfl, rfl, rfl, rfl⟩ := h
        exact ⟨_, rfl, List.suffix_cons tk rest, fun _ => ⟨rfl, rfl, rfl, rfl⟩⟩
      | cont f' touched =>
        rw [hf] at h
        simp only at h ⊢
        by_cases hc : labsDiff (millis tk.t) (if touched = true then millis tk.t else last)
            < timeout
        · rw [if_pos hc]
          obtain ⟨r, h1, h2, h3⟩ := ih f' _ ty buf len more h
          exact ⟨r, h1, h2.trans (List.suffix_cons tk rest), h3⟩
        · rw [if_neg hc]
          exact ⟨_, rfl, List.suffix_cons tk rest, fun hne => absurd rfl hne⟩

/-- A call of `readResponse` on a schedule whose bytes the parser turns into
a record always returns: either with TIMEOUT, which cannot happen on a calm
schedule, or with that record. -/
theorem readResponse_frame (timeout : Nat) (rspBuf : List Nat) (ticks : List Tick)
    (ty : Nat) (buf : List Nat) (len : Nat) (more : List Nat)
    (hty : ty ≠ BC95_RESPONSE_TYPE_TIMEOUT)
    (h : parseBytes ⟨.StartCR, 0, rspBuf⟩ (bytesOf ticks) = some (ty, buf, len, more)) :
    ∃ r, readResponse rspBuf timeout ticks = some r ∧ r.rest <:+ ticks ∧
      ((r.type = BC95_RESPONSE_TYPE_TIMEOUT ∧ ¬ Calm timeout ticks) ∨
        (r.type = ty ∧ r.rspBuf = buf ∧ r.rspLen = len ∧ bytesOf r.rest = more)) := by
  cases ticks with
  | nil => simp [bytesOf, parseBytes] at h
  | cons tk rest =>
    obtain ⟨r, h1, h2, h3⟩ := readLoop_sound timeout (tk :: rest) ⟨.StartCR, 0, rspBuf⟩
      (millis tk.t) ty buf len more h
    have hr : readResponse rspBuf timeout (tk :: rest) = some r := h1
    refine ⟨r, hr, h2, ?_⟩
    by_cases hto : r.type = BC95_RESPONSE_TYPE_TIMEOUT
    · left
      refine ⟨hto, fun hcalm => ?_⟩
      obtain ⟨rest', hr', _, _⟩ := readResponse_calm timeout rspBuf (tk :: rest) hcalm _ _ _ _ h
      rw [hr] at hr'
      simp only [Option.some.injEq] at hr'
      rw [hr'] at hto
      exact hty hto
    · right
      exact h3 hto

theorem finalize_type_ne_timeout (buf : List Nat) (n : Nat) :
    (finalize buf n).1 ≠ BC95_RESPONSE_TYPE_TIMEOUT := by
  have h1 : BC95_RESPONSE_TYPE_OK ≠ BC95_RESPONSE_TYPE_TIMEOUT := by decide
  have h2 : BC95_RESPONSE_TYPE_ERROR ≠ BC95_RESPONSE_TYPE_TIMEOUT := by decide
  have h3 : BC95_RESPONSE_TYPE_DATA ≠ BC95_RESPONSE_TYPE_TIMEOUT := by decide
  unfold finalize
  simp only
  split
  · exact h1
  · split
    · exact h2
    · split
      · exact h2
      · exact h3

theorem storeAll_append (p : List Nat) :
    ∀ (pre suf : List Nat), p.length ≤ suf.length →
      storeAll (pre ++ suf) pre.length p = pre ++ p ++ suf.drop p.length := by
  induction p with
  | nil => intro pre suf _; simp [storeAll]
  | cons b p ih =>
    intro pre suf h
    cases suf with
    | nil => simp at h
    | cons x suf =>
      have e : (pre ++ x :: suf).set pre.length b = (pre ++ [b]) ++ suf := by
        rw [List.set_append_right _ _ (le_refl _)]
        simp
      rw [storeAll, e]
      have := ih (pre ++ [b]) suf (by simpa using h)
      simp only [List.length_append, List.length_singleton] at this
      rw [this]
      simp

theorem storeAll_zero (p buf : List Nat) (h : p.length ≤ buf.length) :
    storeAll buf 0 p = p ++ buf.drop p.length := by
  simpa using storeAll_append p [] buf h

theorem storeAll_length (p : List Nat) : ∀ (buf : List Nat) (n : Nat),
    (storeAll buf n p).length = buf.length := by
  induction p with
  | nil => intro buf n; rfl
  | cons b p ih => intro buf n; rw [storeAll, ih]; simp

theorem parseBytes_payload (p : List Nat) :
    ∀ (n : Nat) (buf rest : List Nat), CR ∉ p → n + p.length < buf.length →
      parseBytes ⟨.Payload, n, buf⟩ (p ++ rest) =
        parseBytes ⟨.Payload, n + p.length, storeAll buf n p⟩ rest := by
  induction p with
  | nil => intro n buf rest _ _; simp [storeAll]
  | cons b p ih =>
    intro n buf rest hcr hlen
    have hb : b ≠ CR := fun h => hcr (h ▸ List.mem_cons_self _ _)
    have hp : CR ∉ p := fun h => hcr (List.mem_cons_of_mem _ h)
    simp only [List.length_cons] at hlen
    have hcap : ¬ buf.length - 1 ≤ n := by omega
    rw [List.cons_append, parseBytes]
    simp only [feed, if_neg hb, if_neg hcap]
    rw [ih (n + 1) (buf.set n b) rest hp (by simp; omega), storeAll]
    simp only [List.length_cons]
    congr 2
    omega

theorem parseBytes_frame_from_payload (p : List Nat) (n : Nat) (buf more : List Nat)
    (hcr : CR ∉ p) (hlen : n + p.length < buf.length) :
    parseBytes ⟨.Payload, n, buf⟩ (p ++ [CR, LF] ++ more) =
      some ((finalize (storeAll buf n p) (n + p.length)).1,
        (finalize (storeAll buf n p) (n + p.length)).2.1,
        (finalize (storeAll buf n p) (n + p.length)).2.2, more) := by
  rw [List.append_assoc, parseBytes_payload p n buf _ hcr hlen]
  simp [parseBytes, feed, CR, LF]

theorem parseBytes_frame (p : List Nat) (buf more : List Nat)
    (hcr : CR ∉ p) (hlen : p.length < buf.length) :
    parseBytes ⟨.StartCR, 0, buf⟩ (frame p ++ more) =
      some ((finalize (storeAll buf 0 p) p.length).1,
        (finalize (storeAll buf 0 p) p.length).2.1,
        (finalize (storeAll buf 0 p) p.length).2.2, more) := by
  have := parseBytes_frame_from_payload p 0 buf more hcr (by simpa using hlen)
  simp only [Nat.zero_add] at this
  rw [← this]
  simp [frame, parseBytes, feed, CR, LF]

theorem set_terminator (p : List Nat) (x : Nat) (t : List Nat) :
    (p ++ x :: t).set p.length 0 = p ++ 0 :: t := by
  rw [List.set_append_right _ _ (le_refl _)]
  simp

theorem cstr_terminated (p t : List Nat) (hnul : 0 ∉ p) : cstr (p ++ 0 :: t) = p := by
  unfold cstr
  rw [List.takeWhile_append_of_pos, List.takeWhile_cons_of_neg (by simp)]
  · simp
  · intro a ha
    have : a ≠ 0 := fun h => hnul (h ▸ ha)
    simpa using this

theorem take_terminated (p t : List Nat) : (p ++ 0 :: t).take (p.length + 1) = p ++ [0] := by
  have h1 : p.length + 1 = (p ++ [0]).length := by simp
  have h2 : p ++ 0 :: t = (p ++ [0]) ++ t := by simp
  rw [h1, h2, List.take_left]

/-- The buffer the `StopLF` branch classifies after a payload `p` that fits:
`p`, the terminator, and what the buffer held beyond it. -/
theorem terminated_buffer (p buf : List Nat) (hlen : p.length < buf.length) :
    (storeAll buf 0 p).set p.length 0 = p ++ 0 :: buf.drop (p.length + 1) := by
  rw [storeAll_zero p buf (le_of_lt hlen)]
  have : buf.drop p.length = buf.getD p.length 0 :: buf.drop (p.length + 1) := by
    rw [List.getD_eq_getElem _ _ hlen]
    exact List.drop_eq_getElem_cons hlen
  rw [this, set_terminator]

theorem ok_test_iff (p t : List Nat) :
    (p.length = 2 ∧ (p ++ 0 :: t).getD 0 0 = 79 ∧ (p ++ 0 :: t).getD 1 0 = 75) ↔ p = strOK := by
  constructor
  · rintro ⟨h1, h2, h3⟩
    obtain ⟨a, b, rfl⟩ := List.length_eq_two.mp h1
    simp at h2 h3
    subst h2 h3
    rfl
  · rintro rfl
    simp [strOK]

theorem cme_test_iff (p t : List Nat) (hnul : 0 ∉ p) :
    strncmpEq (p ++ 0 :: t) strCME 12 = true ↔ strCME <+: p := by
  unfold strncmpEq
  rw [cstr_terminated p t hnul, List.prefix_iff_eq_take]
  have h1 : strCME.take 12 = strCME := rfl
  have h2 : strCME.length = 12 := rfl
  rw [h1, h2, beq_iff_eq]
  exact eq_comm

theorem finalize_eq (p buf : List Nat) (hnul : 0 ∉ p) (hlen : p.length < buf.length) :
    finalize (storeAll buf 0 p) p.length =
      if p = strOK then
        (BC95_RESPONSE_TYPE_OK, p ++ 0 :: buf.drop (p.length + 1), p.length)
      else if p = strERROR then
        (BC95_RESPONSE_TYPE_ERROR, p ++ 0 :: buf.drop (p.length + 1), p.length)
      else if strCME <+: p then
        (BC95_RESPONSE_TYPE_ERROR,
          memmove (p ++ 0 :: buf.drop (p.length + 1)) 12 (p.length - 12 + 1), p.length - 12)
      else
        (BC95_RESPONSE_TYPE_DATA, p ++ 0 :: buf.drop (p.length + 1), p.length) := by
  unfold finalize
  simp only [terminated_buffer p buf hlen]
  have e2 : strcmpEq (p ++ 0 :: buf.drop (p.length + 1)) strERROR = true ↔ p = strERROR := by
    unfold strcmpEq
    rw [cstr_terminated p _ hnul, beq_iff_eq]
  by_cases h1 : p = strOK
  · rw [if_pos ((ok_test_iff p _).mpr h1), if_pos h1]
  · rw [if_neg (fun h => h1 ((ok_test_iff p _).mp h)), if_neg h1]
    by_cases h2 : p = strERROR
    · rw [if_pos (e2.mpr h2), if_pos h2]
    · rw [if_neg (fun h => h2 (e2.mp h)), if_neg h2]
      by_cases h3 : strCME <+: p
      · rw [if_pos ((cme_test_iff p _ hnul).mpr h3), if_pos h3]
      · rw [if_neg (fun h => h3 ((cme_test_iff p _ hnul).mp h)), if_neg h3]

theorem memmove_cme (p t : List Nat) (h : strCME <+: p) :
    (memmove (p ++ 0 :: t) 12 (p.length - 12 + 1)).take (p.length - 12 + 1) = p.drop 12 ++ [0] := by
  have hl : 12 ≤ p.length := by
    have := h.length_le
    simpa [strCME] using this
  unfold memmove
  have e : (p ++ 0 :: t).drop 12 = p.drop 12 ++ 0 :: t := by
    rw [List.drop_append_of_le_length hl]
  have e2 : ((p.drop 12 ++ 0 :: t).take (p.length - 12 + 1)) = p.drop 12 ++ [0] := by
    have : p.length - 12 + 1 = (p.drop 12 ++ [0]).length := by simp
    rw [this]
    have : p.drop 12 ++ 0 :: t = (p.drop 12 ++ [0]) ++ t := by simp
    rw [this, List.take_left]
  rw [e, e2]
  have : p.length - 12 + 1 = (p.drop 12 ++ [0]).length := by simp
  rw [this, List.take_left]

/-- C1: a payload without CR and NUL that fits the buffer is delivered as
CR LF payload CR LF to a fresh call. The call returns; it does not time out
on a calm schedule; and whenever it does not time out, it returns OK for
"OK", ERROR for "ERROR", ERROR with the 12-character prefix stripped for
"+CME ERROR: ...", and DATA with the buffer holding the payload
(NUL-terminated) and its length otherwise. -/
theorem readResponse_classifies (rspBuf : List Nat) (timeout : Nat) (ticks : List Tick)
    (p : List Nat)
    (hbytes : bytesOf ticks = frame p)
    (hcr : CR ∉ p) (hnul : 0 ∉ p) (hlen : p.length < rspBuf.length) :
    ∃ r, readResponse rspBuf timeout ticks = some r ∧
      (Calm timeout ticks → r.type ≠ BC95_RESPONSE_TYPE_TIMEOUT) ∧
      (r.type ≠ BC95_RESPONSE_TYPE_TIMEOUT →
        (p = strOK → r.type = BC95_RESPONSE_TYPE_OK) ∧
        (p = strERROR → r.type = BC95_RESPONSE_TYPE_ERROR) ∧
        (strCME <+: p → r.type = BC95_RESPONSE_TYPE_ERROR ∧ r.rspLen = p.length - 12 ∧
          r.rspBuf.take (p.length - 12 + 1) = p.drop 12 ++ [0]) ∧
        (p ≠ strOK → p ≠ strERROR → ¬ strCME <+: p →
          r.type = BC95_RESPONSE_TYPE_DATA ∧ r.rspLen = p.length ∧
          r.rspBuf.take (p.length + 1) = p ++ [0])) := by
  have hp := parseBytes_frame p rspBuf [] hcr hlen
  rw [List.append_nil, ← hbytes] at hp
  obtain ⟨r, hr, _, hcase⟩ := readResponse_frame timeout rspBuf ticks _ _ _ _
    (finalize_type_ne_timeout _ _) hp
  have hf := finalize_eq p rspBuf hnul hlen
  refine ⟨r, hr, ?_, ?_⟩
  · intro hcalm hto
    rcases hcase with ⟨_, hnc⟩ | ⟨hty, _⟩
    · exact hnc hcalm
    · rw [hto] at hty
      exact finalize_type_ne_timeout _ _ hty.symm
  · intro hto
    rcases hcase with ⟨h, _⟩ | ⟨hty, hbuf, hl, _⟩
    · exact absurd h hto
    · rw [hty, hbuf, hl]
      refine ⟨?_, ?_, ?_, ?_⟩
      · intro h
        rw [if_pos h] at hf
        rw [hf]
      · intro h
        have h1 : p ≠ strOK := by rw [h]; decide
        rw [if_neg h1, if_pos h] at hf
        rw [hf]
      · intro h
        have h1 : p ≠ strOK := by
          rintro rfl
          exact absurd h (by decide)
        have h2 : p ≠ strERROR := by
          rintro rfl
          exact absurd h (by decide)
        rw [if_neg h1, if_neg h2, if_pos h] at hf
        rw [hf]
        exact ⟨rfl, rfl, memmove_cme p _ h⟩
      · intro h1 h2 h3
        rw [if_neg h1, if_neg h2, if_neg h3] at hf
        rw [hf]
        exact ⟨rfl, rfl, take_terminated p _⟩

theorem readResponse_classifies_witness :
    (readResponse (List.replicate 16 0) 100 (burst 7 (frame cme5))).map
        (fun r => (r.type, r.rspLen, r.rspBuf.take 2)) =
      some (BC95_RESPONSE_TYPE_ERROR, 1, [53, 0]) := by
  obtain ⟨r, hr, hc, h⟩ := readResponse_classifies (List.replicate 16 0) 100
    (burst 7 (frame cme5)) cme5 (bytesOf_burst _ _) (by decide) (by decide) (by decide)
  obtain ⟨_, _, h3, _⟩ := h (hc (calm_burst 100 7 (by decide) _))
  obtain ⟨h4, h5, h6⟩ := h3 (by decide)
  rw [hr]
  simp only [Option.map_some', h4, h5]
  have : cme5.length - 12 + 1 = 2 := by decide
  rw [this] at h6
  rw [h6]
  decide

theorem hasCRLF_tail (a : Nat) (l : List Nat) (h : hasCRLF (a :: l) = false) :
    hasCRLF l = false := by
  cases l with
  | nil => rfl
  | cons b r =>
    rw [hasCRLF, Bool.or_eq_false_iff] at h
    exact h.2

theorem hasCRLF_head (b : Nat) (l : List Nat) (h : hasCRLF (CR :: b :: l) = false) :
    b ≠ LF := by
  rw [hasCRLF, Bool.or_eq_false_iff] at h
  intro hb
  subst hb
  simp at h

theorem parseBytes_garbage (g : List Nat) :
    ∀ (st : ParserState) (buf rest : List Nat),
      (st = .StartCR ∧ hasCRLF g = false) ∨ (st = .StartLF ∧ hasCRLF (CR :: g) = false) →
      parseBytes ⟨st, 0, buf⟩ (g ++ CR :: LF :: rest) = parseBytes ⟨.Payload, 0, buf⟩ rest := by
  induction g with
  | nil =>
    intro st buf rest h
    rcases h with ⟨rfl, _⟩ | ⟨rfl, _⟩ <;> simp [parseBytes, feed, CR, LF]
  | cons b g ih =>
    intro st buf rest h
    rw [List.cons_append, parseBytes]
    rcases h with ⟨rfl, h⟩ | ⟨rfl, h⟩
    · by_cases hb : b = CR
      · subst hb
        simp only [feed, if_true]
        exact ih _ buf rest (Or.inr ⟨rfl, h⟩)
      · simp only [feed, if_neg hb]
        exact ih _ buf rest (Or.inl ⟨rfl, hasCRLF_tail b g h⟩)
    · have hlf := hasCRLF_head b g h
      have h' := hasCRLF_tail CR (b :: g) h
      by_cases hb : b = CR
      · subst hb
        simp only [feed, if_neg hlf, if_true]
        exact ih _ buf rest (Or.inr ⟨rfl, h'⟩)
      · simp only [feed, if_neg hlf, if_neg hb]
        exact ih _ buf rest (Or.inl ⟨rfl, hasCRLF_tail b g h'⟩)

theorem parseBytes_garbage_frame (g p buf more : List Nat) (hg : hasCRLF g = false) :
    parseBytes ⟨.StartCR, 0, buf⟩ (g ++ frame p ++ more) =
      parseBytes ⟨.StartCR, 0, buf⟩ (frame p ++ more) := by
  have e : g ++ frame p ++ more = g ++ CR :: LF :: (p ++ [CR, LF] ++ more) := by simp [frame]
  have e' : frame p ++ more = [] ++ CR :: LF :: (p ++ [CR, LF] ++ more) := by simp [frame]
  rw [e, e', parseBytes_garbage g _ buf _ (Or.inl ⟨rfl, hg⟩),
    parseBytes_garbage [] _ buf _ (Or.inl ⟨rfl, rfl⟩)]

/-- C2 (as amended): when no CR in the garbage `g` is immediately followed by
LF, a call reading `g` followed by the frame CR LF `p` CR LF (`p` without CR,
fitting the buffer) and a call reading the frame alone both return, neither
times out on a calm schedule, and whenever neither times out they return the
same type, the same buffer and the same length. -/
theorem readResponse_resync (rspBuf : List Nat) (timeout : Nat) (ticks ticks' : List Tick)
    (g p : List Nat)
    (hbytes : bytesOf ticks = g ++ frame p) (hbytes' : bytesOf ticks' = frame p)
    (hg : hasCRLF g = false) (hcr : CR ∉ p) (hlen : p.length < rspBuf.length) :
    ∃ r r', readResponse rspBuf timeout ticks = some r ∧
      readResponse rspBuf timeout ticks' = some r' ∧
      (Calm timeout ticks → r.type ≠ BC95_RESPONSE_TYPE_TIMEOUT) ∧
      (Calm timeout ticks' → r'.type ≠ BC95_RESPONSE_TYPE_TIMEOUT) ∧
      (r.type ≠ BC95_RESPONSE_TYPE_TIMEOUT → r'.type ≠ BC95_RESPONSE_TYPE_TIMEOUT →
        r.type = r'.type ∧ r.rspBuf = r'.rspBuf ∧ r.rspLen = r'.rspLen) := by
  have hp' := parseBytes_frame p rspBuf [] hcr hlen
  have hp := hp'
  rw [← parseBytes_garbage_frame g p rspBuf [] hg] at hp
  rw [List.append_nil, ← hbytes'] at hp'
  rw [List.append_nil, ← hbytes] at hp
  obtain ⟨r, hr, _, hcase⟩ := readResponse_frame timeout rspBuf ticks _ _ _ _
    (finalize_type_ne_timeout _ _) hp
  obtain ⟨r', hr', _, hcase'⟩ := readResponse_frame timeout rspBuf ticks' _ _ _ _
    (finalize_type_ne_timeout _ _) hp'
  refine ⟨r, r', hr, hr', ?_, ?_, ?_⟩
  · intro hcalm hto
    rcases hcase with ⟨_, hnc⟩ | ⟨hty, _⟩
    · exact hnc hcalm
    · rw [hto] at hty
      exact finalize_type_ne_timeout _ _ hty.symm
  · intro hcalm hto
    rcases hcase' with ⟨_, hnc⟩ | ⟨hty, _⟩
    · exact hnc hcalm
    · rw [hto] at hty
      exact finalize_type_ne_timeout _ _ hty.symm
  · intro hto hto'
    rcases hcase with ⟨h, _⟩ | ⟨h1, h2, h3, _⟩
    · exact absurd h hto
    · rcases hcase' with ⟨h', _⟩ | ⟨h1', h2', h3', _⟩
      · exact absurd h' hto'
      · rw [h1, h2, h3, h1', h2', h3']
        exact ⟨rfl, rfl, rfl⟩

theorem readResponse_resync_witness :
    (readResponse (List.replicate 16 0) 100 (burst 7 ([65, 13, 66, 13] ++ frame strOK))).map
        (fun r => (r.type, r.rspBuf, r.rspLen)) =
      (readResponse (List.replicate 16 0) 100 (burst 7 (frame strOK))).map
        (fun r => (r.type, r.rspBuf, r.rspLen)) := by
  obtain ⟨r, r', h1, h2, hc, hc', h⟩ := readResponse_resync (List.replicate 16 0) 100
    (burst 7 ([65, 13, 66, 13] ++ frame strOK)) (burst 7 (frame strOK)) [65, 13, 66, 13] strOK
    (bytesOf_burst _ _) (bytesOf_burst _ _) (by decide) (by decide) (by decide)
  obtain ⟨h3, h4, h5⟩ := h (hc (calm_burst 100 7 (by decide) _))
    (hc' (calm_burst 100 7 (by decide) _))
  rw [h1, h2]
  simp [h3, h4, h5]

/-- C2 (as stated) fails: after the garbage bytes `A CR LF B` the frame
CR LF OK CR LF is not returned as OK; the call returns a DATA record holding
`B`, and the bytes `OK CR LF` are left on the stream. -/
theorem readResponse_resync_counterexample :
    (readResponse (List.replicate 16 0) 100 (burst 7 ([65, 13, 10, 66] ++ frame strOK))).map
        (fun r => (r.type, r.rspLen, r.rspBuf.take 2, bytesOf r.rest)) =
      some (BC95_RESPONSE_TYPE_DATA, 1, [66, 0], [79, 75, 13, 10]) ∧
    (readResponse (List.replicate 16 0) 100 (burst 7 (frame strOK))).map
        (fun r => (r.type, r.rspLen, r.rspBuf.take 3, bytesOf r.rest)) =
      some (BC95_RESPONSE_TYPE_OK, 2, [79, 75, 0], []) := by
  decide

theorem hasCRLF_of_no_CR (g : List Nat) (h : CR ∉ g) : hasCRLF g = false := by
  induction g with
  | nil => rfl
  | cons a g ih =>
    have ha : a ≠ CR := fun e => h (e ▸ List.mem_cons_self _ _)
    have hg := ih (fun e => h (List.mem_cons_of_mem _ e))
    cases g with
    | nil => rfl
    | cons b r =>
      rw [hasCRLF, hg]
      simp [ha]

theorem finalize_empty (buf : List Nat) :
    finalize buf 0 = (BC95_RESPONSE_TYPE_DATA, buf.set 0 0, 0) := by
  have hc : cstr (buf.set 0 0) = [] := by
    cases buf with
    | nil => rfl
    | cons b t => simp [cstr]
  unfold finalize
  simp only
  rw [if_neg (by omega)]
  have h1 : strcmpEq (buf.set 0 0) strERROR = false := by
    unfold strcmpEq; rw [hc]; rfl
  have h2 : strncmpEq (buf.set 0 0) strCME 12 = false := by
    unfold strncmpEq; rw [hc]; rfl
  simp [h1, h2]

/-- The overflow path in general: a frame whose payload `q` (without CR) does
not fit the buffer, followed by any frame CR LF `p` CR LF, parses to an empty
DATA record, and `p` CR LF is left unread. -/
theorem parseBytes_overflow (q p buf more : List Nat) (hbuf : 0 < buf.length)
    (hcr : CR ∉ q) (hq : buf.length - 1 < q.length) :
    parseBytes ⟨.StartCR, 0, buf⟩ (frame q ++ frame p ++ more) =
      some (BC95_RESPONSE_TYPE_DATA,
        (storeAll buf 0 (q.take (buf.length - 1))).set 0 0, 0, p ++ [CR, LF] ++ more) := by
  have hsplit : q = q.take (buf.length - 1) ++ q.drop (buf.length - 1) :=
    (List.take_append_drop _ _).symm
  cases hd : q.drop (buf.length - 1) with
  | nil =>
    have := congrArg List.length hd
    simp at this
    omega
  | cons x q2 =>
    rw [hd] at hsplit
    have hq1 : CR ∉ q.take (buf.length - 1) := fun h => hcr (List.mem_of_mem_take h)
    have hxq2 : ∀ y ∈ x :: q2, y ≠ CR := by
      intro y hy e
      apply hcr
      rw [hsplit]
      exact List.mem_append_right _ (e ▸ hy)
    have hx : x ≠ CR := hxq2 x (List.mem_cons_self _ _)
    have hq2 : CR ∉ q2 := fun h => hxq2 CR (List.mem_cons_of_mem _ h) rfl
    have hl1 : (q.take (buf.length - 1)).length = buf.length - 1 := by
      rw [List.length_take]; omega
    have e : frame q ++ frame p ++ more =
        [CR, LF] ++ (q.take (buf.length - 1) ++
          (x :: (q2 ++ CR :: LF :: (CR :: LF :: (p ++ [CR, LF] ++ more))))) := by
      conv_lhs => rw [hsplit]
      simp [frame]
    rw [e]
    have s1 : ∀ rest, parseBytes ⟨.StartCR, 0, buf⟩ ([CR, LF] ++ rest) =
        parseBytes ⟨.Payload, 0, buf⟩ rest := by
      intro rest
      simp [parseBytes, feed, CR, LF]
    rw [s1, parseBytes_payload _ 0 buf _ hq1 (by omega)]
    rw [parseBytes]
    have hcap : (storeAll buf 0 (q.take (buf.length - 1))).length - 1 ≤
        0 + (q.take (buf.length - 1)).length := by
      rw [storeAll_length, hl1]; omega
    simp only [feed, if_neg hx, if_pos hcap]
    rw [parseBytes_garbage q2 _ _ _ (Or.inl ⟨rfl, hasCRLF_of_no_CR q2 hq2⟩)]
    rw [parseBytes]
    simp only [feed, if_true]
    rw [parseBytes]
    simp only [feed, if_true, finalize_empty]

/-- The overflow path at the level of the call: for every payload `q`
without CR that does not fit the buffer and every following frame
CR LF `p` CR LF, a call that does not time out returns an empty DATA record
and leaves `p` CR LF unread, whatever `p`. -/
theorem readResponse_overflow (rspBuf : List Nat) (timeout : Nat) (ticks : List Tick)
    (q p : List Nat) (hbuf : 0 < rspBuf.length) (hcr : CR ∉ q)
    (hq : rspBuf.length - 1 < q.length) (hbytes : bytesOf ticks = frame q ++ frame p) :
    ∃ r, readResponse rspBuf timeout ticks = some r ∧
      (Calm timeout ticks → r.type ≠ BC95_RESPONSE_TYPE_TIMEOUT) ∧
      (r.type ≠ BC95_RESPONSE_TYPE_TIMEOUT →
        r.type = BC95_RESPONSE_TYPE_DATA ∧ r.rspLen = 0 ∧ bytesOf r.rest = p ++ [CR, LF]) := by
  have hp := parseBytes_overflow q p rspBuf [] hbuf hcr hq
  rw [List.append_nil, List.append_nil, ← hbytes] at hp
  obtain ⟨r, hr, _, hcase⟩ := readResponse_frame timeout rspBuf ticks _ _ _ _ (by decide) hp
  refine ⟨r, hr, ?_, ?_⟩
  · intro hcalm hto
    rcases hcase with ⟨_, hnc⟩ | ⟨hty, _⟩
    · exact hnc hcalm
    · rw [hto] at hty
      exact absurd hty (by decide)
  · intro hto
    rcases hcase with ⟨h, _⟩ | ⟨h1, _, h3, h4⟩
    · exact absurd h hto
    · exact ⟨h1, h3, h4⟩

/-- C3, the code at a failing input: with the 16-byte buffer of `waitForOK`
(capacity 15) the stream CR LF REBOOT_CAUSE_APPLICATION_AT CR LF CR LF OK CR LF
makes the call return an empty DATA record, not OK; the bytes `OK CR LF` stay
on the stream, and the next call finds no frame in them. -/
theorem readResponse_overflow_shifts_framing :
    (readResponse (List.replicate BC95_MIN_RSP_BUF_LEN 0) 100
        (burst 7 (frame rebootCause ++ frame strOK))).map
        (fun r => (r.type, r.rspLen, bytesOf r.rest)) =
      some (BC95_RESPONSE_TYPE_DATA, 0, [79, 75, 13, 10]) ∧
    readResponse (List.replicate BC95_MIN_RSP_BUF_LEN 0) 100 (burst 7 [79, 75, 13, 10]) = none ∧
    waitForOK 100 (burst 7 (frame rebootCause ++ frame strOK)) =
      some (false, burst 7 [79, 75, 13, 10]) := by
  decide

theorem isdigit_not_space (c : Nat) (h : isdigit c = true) : isspace c = false := by
  unfold isdigit at h
  unfold isspace
  simp only [Bool.and_eq_true, decide_eq_true_eq] at h
  simp only [Bool.or_eq_false_iff, Bool.and_eq_false_iff, beq_eq_false_iff_ne, ne_eq,
    decide_eq_false_iff_not]
  omega

theorem scanDigits_digits (ds : List Nat) :
    ∀ (acc : Nat) (rest : List Nat), (∀ x ∈ ds, isdigit x = true) →
      (∀ c r, rest = c :: r → isdigit c = false) →
      scanDigits (ds ++ rest) acc = (ds.foldl (fun a d => a * 10 + (d - 48)) acc, rest) := by
  induction ds with
  | nil =>
    intro acc rest _ hrest
    cases rest with
    | nil => rfl
    | cons c r => simp [scanDigits, hrest c r rfl]
  | cons d ds ih =>
    intro acc rest hd hrest
    have h1 := hd d (List.mem_cons_self _ _)
    rw [List.cons_append, scanDigits, if_pos h1, List.foldl_cons]
    exact ih _ rest (fun x hx => hd x (List.mem_cons_of_mem _ hx)) hrest

theorem scanU_digits (ds rest : List Nat) (hne : ds ≠ []) (hd : ∀ x ∈ ds, isdigit x = true)
    (hrest : ∀ c r, rest = c :: r → isdigit c = false) :
    scanU (ds ++ rest) = some (digitsVal ds % 2 ^ 32, rest) := by
  cases ds with
  | nil => exact absurd rfl hne
  | cons d ds =>
    have h1 := hd d (List.mem_cons_self _ _)
    have h2 : isspace d = false := isdigit_not_space d h1
    have h45 : d ≠ 45 := by rintro rfl; exact absurd h1 (by decide)
    have h43 : d ≠ 43 := by rintro rfl; exact absurd h1 (by decide)
    have hs := scanDigits_digits (d :: ds) 0 rest hd hrest
    unfold scanU
    simp only [List.cons_append, List.dropWhile_cons, h2, Bool.false_eq_true, if_false,
      List.head?_cons, Option.map_some', h1, beq_self_eq_true, if_true]
    have e1 : (some d == some 45) = false := by simpa using h45
    have e2 : (some d == some 43) = false := by simpa using h43
    simp only [e1, e2, Bool.false_eq_true, or_self, if_false]
    rw [List.cons_append] at hs
    rw [hs]
    simp [h1, digitsVal]

theorem atoi_digits (ds : List Nat) (hne : ds ≠ []) (hd : ∀ x ∈ ds, isdigit x = true) :
    atoi ds = (digitsVal ds : Int) := by
  cases ds with
  | nil => exact absurd rfl hne
  | cons d ds =>
    have h1 := hd d (List.mem_cons_self _ _)
    have h2 : isspace d = false := isdigit_not_space d h1
    have h45 : d ≠ 45 := by rintro rfl; exact absurd h1 (by decide)
    have h43 : d ≠ 43 := by rintro rfl; exact absurd h1 (by decide)
    have hs := scanDigits_digits (d :: ds) 0 [] hd (fun c r h => by cases h)
    rw [List.append_nil] at hs
    unfold atoi
    simp only [List.dropWhile_cons, h2, Bool.false_eq_true, if_false, List.head?_cons]
    have e1 : (some d == some 45) = false := by simpa using h45
    have e2 : (some d == some 43) = false := by simpa using h43
    simp only [e1, e2, Bool.false_eq_true, if_false]
    rw [hs]
    rfl

theorem hexCharToInt_le (c : Nat) : hexCharToInt c ≤ 15 := by
  unfold hexCharToInt
  split
  · omega
  · split
    · omega
    · split <;> omega

theorem pairsFrom_eq_hexDecode (n : Nat) :
    ∀ (pre body tail : List Nat) (i : Nat), pre.length = i * 2 → body.length = 2 * n →
      pairsFrom (pre ++ body ++ tail) i n = hexDecode body := by
  induction n with
  | zero =>
    intro pre body tail i _ hb
    have : body = [] := List.length_eq_zero.mp (by omega)
    subst this
    rfl
  | succ n ih =>
    intro pre body tail i hpre hb
    match body, hb with
    | h :: l :: r, hb =>
      have hr : r.length = 2 * n := by simp at hb; omega
      have e : pre ++ (h :: l :: r) ++ tail = (pre ++ [h, l]) ++ r ++ tail := by simp
      have g0 : (pre ++ (h :: l :: r) ++ tail).getD (i * 2) 0 = h := by
        rw [List.append_assoc, List.getD_append_right _ _ _ _ (by omega)]
        simp [hpre]
      have g1 : (pre ++ (h :: l :: r) ++ tail).getD (i * 2 + 1) 0 = l := by
        rw [List.append_assoc, List.getD_append_right _ _ _ _ (by omega)]
        have : i * 2 + 1 - pre.length = 1 := by omega
        rw [this]
        rfl
      rw [pairsFrom, g0, g1, e, ih (pre ++ [h, l]) r tail (i + 1) (by simp; omega) hr, hexDecode]
      have := hexCharToInt_le h
      have := hexCharToInt_le l
      rw [Nat.mod_eq_of_lt (by omega)]

theorem take_succ_set (l : List Nat) (n v : Nat) (h : n < l.length) :
    (l.set n v).take (n + 1) = l.take n ++ [v] := by
  rw [List.set_eq_take_append_cons_drop, if_pos h]
  have h1 : n + 1 = (l.take n ++ [v]).length := by simp; omega
  have h2 : l.take n ++ v :: l.drop (n + 1) = (l.take n ++ [v]) ++ l.drop (n + 1) := by simp
  rw [h2]
  conv_lhs => rw [h1]
  rw [List.take_left]

theorem decodeChunk_spec (payload : List Nat) (n : Nat) :
    ∀ (i : Nat) (dataBuf : List Nat) (dataLen : Nat), dataLen ≤ dataBuf.length →
      (decodeChunk payload n i dataBuf dataLen).2 = min (dataLen + n) dataBuf.length ∧
      (decodeChunk payload n i dataBuf dataLen).1.length = dataBuf.length ∧
      (decodeChunk payload n i dataBuf dataLen).1.take
          (decodeChunk payload n i dataBuf dataLen).2 =
        dataBuf.take dataLen ++ (pairsFrom payload i n).take (dataBuf.length - dataLen) := by
  induction n with
  | zero =>
    intro i dataBuf dataLen h
    refine ⟨?_, rfl, ?_⟩
    · show dataLen = _
      omega
    · show dataBuf.take dataLen = _
      simp [pairsFrom]
  | succ n ih =>
    intro i dataBuf dataLen h
    rw [decodeChunk]
    by_cases hfull : dataLen ≥ dataBuf.length
    · rw [if_pos hfull]
      have : dataBuf.length - dataLen = 0 := by omega
      refine ⟨?_, rfl, ?_⟩
      · show dataLen = _
        omega
      · show dataBuf.take dataLen = _
        rw [this]
        simp
    · rw [if_neg hfull]
      have hlt : dataLen < dataBuf.length := by omega
      obtain ⟨h1, h2, h3⟩ := ih (i + 1)
        (dataBuf.set dataLen ((hexCharToInt (payload.getD (i * 2) 0) * 16
          + hexCharToInt (payload.getD (i * 2 + 1) 0)) % 256)) (dataLen + 1)
        (by simp; omega)
      simp only [List.length_set] at h1 h2 h3
      refine ⟨by rw [h1]; omega, h2, ?_⟩
      rw [h3, pairsFrom, take_succ_set _ _ _ hlt]
      have e1 : dataBuf.length - dataLen = (dataBuf.length - (dataLen + 1)) + 1 := by omega
      conv_rhs => rw [e1, List.take_succ_cons]
      simp

theorem takeWhile_sep (a rest : List Nat) (h : ∀ x ∈ a, x ≠ 44) :
    (a ++ 44 :: rest).takeWhile (fun c => c != 44) = a := by
  rw [List.takeWhile_append_of_pos, List.takeWhile_cons_of_neg (by simp)]
  · simp
  · intro x hx
    simpa using h x hx

theorem dropWhile_sep (a rest : List Nat) (h : ∀ x ∈ a, x ≠ 44) :
    (a ++ 44 :: rest).dropWhile (fun c => c != 44) = 44 :: rest := by
  induction a with
  | nil => simp
  | cons x a ih =>
    have hx : (x != 44) = true := by simpa using h x (List.mem_cons_self _ _)
    rw [List.cons_append, List.dropWhile_cons]
    simp only [hx, if_true]
    exact ih (fun y hy => h y (List.mem_cons_of_mem _ hy))

theorem record_eq_header (c : Chunk) :
    c.record = c.header ++ (c.body ++ 44 :: c.remaining) := by
  simp [Chunk.record, Chunk.header]

theorem not_digit_comma (rest : List Nat) :
    ∀ c r, 44 :: rest = c :: r → isdigit c = false := by
  intro c r h
  cases h
  decide

theorem scanChunkHeader_record (c : Chunk) (hwf : c.WellFormed) :
    scanChunkHeader c.record =
      some ⟨digitsVal c.socket % 2 ^ 32, c.addr, digitsVal c.port % 2 ^ 32,
        digitsVal c.len % 2 ^ 32, c.header.length⟩ := by
  obtain ⟨⟨hs1, hs2⟩, ⟨ha1, ha2⟩, ⟨hp1, hp2⟩, ⟨hl1, hl2⟩, _, _, _, _, _⟩ := hwf
  have hlen : c.record.length - (c.body ++ 44 :: c.remaining).length = c.header.length := by
    rw [record_eq_header]
    simp
  have hpos : c.header.length ≠ 0 := by
    simp [Chunk.header]
  have e1 : scanU c.record = some (digitsVal c.socket % 2 ^ 32,
      44 :: (c.addr ++ 44 :: (c.port ++ 44 :: (c.len ++ 44 :: (c.body ++ 44 :: c.remaining))))) := by
    unfold Chunk.record
    exact scanU_digits c.socket _ hs1 hs2 (not_digit_comma _)
  unfold scanChunkHeader
  rw [e1]
  simp only [scanLit, if_true]
  rw [takeWhile_sep c.addr _ (fun x hx => (ha2 x hx).1),
    dropWhile_sep c.addr _ (fun x hx => (ha2 x hx).1), if_neg ha1]
  simp only [if_true]
  rw [scanU_digits c.port _ hp1 hp2 (not_digit_comma _)]
  simp only [if_true]
  rw [scanU_digits c.len _ hl1 hl2 (not_digit_comma _)]
  simp only [if_true]
  rw [hlen, if_neg hpos]

theorem isdigit_ge (x : Nat) (h : isdigit x = true) : 48 ≤ x := by
  unfold isdigit at h
  simp only [Bool.and_eq_true, decide_eq_true_eq] at h
  exact h.1

theorem isxdigit_ge (x : Nat) (h : isxdigit x = true) : 48 ≤ x := by
  unfold isxdigit at h
  simp only [Bool.or_eq_true, Bool.and_eq_true, decide_eq_true_eq] at h
  omega

theorem record_bytes (c : Chunk) (hwf : c.WellFormed) :
    ∀ x ∈ c.record, x ≠ 0 ∧ x ≠ CR := by
  obtain ⟨⟨_, hs2⟩, ⟨_, ha2⟩, ⟨_, hp2⟩, ⟨_, hl2⟩, ⟨_, hr2⟩, hb, _, _, _⟩ := hwf
  intro x hx
  have hge : ∀ y, 48 ≤ y → y ≠ 0 ∧ y ≠ CR := by
    intro y hy
    unfold CR
    omega
  have h44 : (44 : Nat) ≠ 0 ∧ (44 : Nat) ≠ CR := by decide
  simp only [Chunk.record, List.mem_append, List.mem_cons] at hx
  rcases hx with h | rfl | h | rfl | h | rfl | h | rfl | h | rfl | h
  · exact hge x (isdigit_ge x (hs2 x h))
  · exact h44
  · exact ⟨(ha2 x h).2.1, (ha2 x h).2.2⟩
  · exact h44
  · exact hge x (isdigit_ge x (hp2 x h))
  · exact h44
  · exact hge x (isdigit_ge x (hl2 x h))
  · exact h44
  · exact hge x (isxdigit_ge x (hb x h))
  · exact h44
  · exact hge x (isdigit_ge x (hr2 x h))

theorem record_head (c : Chunk) (hwf : c.WellFormed) :
    ∃ d t, c.record = d :: t ∧ isdigit d = true := by
  obtain ⟨⟨hs1, hs2⟩, _⟩ := hwf
  cases hs : c.socket with
  | nil => exact absurd hs hs1
  | cons d ds =>
    have hd : isdigit d = true := hs2 d (by rw [hs]; exact List.mem_cons_self _ _)
    exact ⟨d, ds ++ 44 :: (c.addr ++ 44 :: (c.port ++ 44 :: (c.len ++ 44 ::
      (c.body ++ 44 :: c.remaining)))), by simp only [Chunk.record, hs, List.cons_append], hd⟩

theorem finalize_record (c : Chunk) (hwf : c.WellFormed) (buf : List Nat)
    (hlen : c.record.length < buf.length) :
    finalize (storeAll buf 0 c.record) c.record.length =
      (BC95_RESPONSE_TYPE_DATA, c.record ++ 0 :: buf.drop (c.record.length + 1),
        c.record.length) := by
  have hnul : 0 ∉ c.record := fun h => (record_bytes c hwf 0 h).1 rfl
  obtain ⟨d, t, hd, hdig⟩ := record_head c hwf
  have h1 : c.record ≠ strOK := by
    rw [hd]; intro h
    simp only [strOK, List.cons.injEq] at h
    rw [h.1] at hdig
    exact absurd hdig (by decide)
  have h2 : c.record ≠ strERROR := by
    rw [hd]; intro h
    simp only [strERROR, List.cons.injEq] at h
    rw [h.1] at hdig
    exact absurd hdig (by decide)
  have h3 : ¬ strCME <+: c.record := by
    rw [hd]; intro h
    simp only [strCME, List.cons_prefix_cons] at h
    rw [← h.1] at hdig
    exact absurd hdig (by decide)
  rw [finalize_eq c.record buf hnul hlen, if_neg h1, if_neg h2, if_neg h3]

theorem waitForOK_frame (timeout : Nat) (ticks : List Tick) (more : List Nat)
    (hbytes : bytesOf ticks = frame strOK ++ more) :
    ∃ ok rest, waitForOK timeout ticks = some (ok, rest) ∧ rest <:+ ticks ∧
      ((ok = false ∧ ¬ Calm timeout ticks) ∨ (ok = true ∧ bytesOf rest = more)) := by
  have hp := parseBytes_frame strOK (List.replicate BC95_MIN_RSP_BUF_LEN 0) more
    (by decide) (by decide)
  rw [finalize_eq strOK _ (by decide) (by decide), if_pos rfl, ← hbytes] at hp
  obtain ⟨r, hr, hs, hcase⟩ := readResponse_frame timeout _ ticks _ _ _ _ (by decide) hp
  refine ⟨r.type == BC95_RESPONSE_TYPE_OK, r.rest, ?_, hs, ?_⟩
  · unfold waitForOK
    rw [hr]
    rfl
  · rcases hcase with ⟨h1, h2⟩ | ⟨h1, _, _, h4⟩
    · left
      rw [h1]
      exact ⟨by decide, h2⟩
    · right
      rw [h1]
      exact ⟨by decide, h4⟩

theorem record_length (c : Chunk) :
    c.record.length = c.header.length + c.body.length + 1 + c.remaining.length := by
  rw [record_eq_header]
  simp only [List.length_append, List.length_cons]
  omega

theorem toNat_emod_cast (v : Nat) (h : v < 2 ^ 31) : ((v : Int) % 2 ^ 32).toNat = v := by
  have h1 : ((v : Int) % 2 ^ 32) = (v : Int) := by
    apply Int.emod_eq_of_lt
    · omega
    · have : (2 : Int) ^ 32 = 4294967296 := by norm_num
      rw [this]
      have : (2 : Nat) ^ 31 = 2147483648 := by norm_num
      omega
  rw [h1]
  simp

theorem receiveLoop_step_core (fuel : Nat) (chunkBuf dataBuf : List Nat) (rsp : udp_rx_data_t)
    (ticks rest1 rest : List Tick) (c : Chunk)
    (hwf : c.WellFormed) (hbuf : chunkBuf.length = BC95_NSORF_CHUNK_BUF_LEN)
    (hdl : rsp.dataLen ≤ dataBuf.length)
    (hrd1 : readResponse chunkBuf BC95_DEFAULT_READ_RESPONSE_TIMEOUT ticks =
      some ⟨BC95_RESPONSE_TYPE_DATA, c.record ++ 0 :: chunkBuf.drop (c.record.length + 1),
        c.record.length, rest1⟩)
    (hw : waitForOK BC95_DEFAULT_READ_RESPONSE_TIMEOUT rest1 = some (true, rest)) :
    ∃ (chunkBuf' dataBuf' : List Nat) (rsp' : udp_rx_data_t),
      chunkBuf'.length = BC95_NSORF_CHUNK_BUF_LEN ∧
      rsp'.dataLen = min (rsp.dataLen + digitsVal c.len) dataBuf.length ∧
      dataBuf'.length = dataBuf.length ∧
      dataBuf'.take rsp'.dataLen =
        dataBuf.take rsp.dataLen ++ (hexDecode c.body).take (dataBuf.length - rsp.dataLen) ∧
      receiveLoop (fuel + 1) chunkBuf dataBuf rsp ticks =
        if digitsVal c.remaining > 0 then receiveLoop fuel chunkBuf' dataBuf' rsp' rest
        else some ⟨rsp'.dataLen, dataBuf', rsp', rest⟩ := by
  have hwf' := hwf
  obtain ⟨_, _, _, _, ⟨hr1, hr2⟩, hb, hbody, hrem, hfit⟩ := hwf'
  have hplen : c.record.length < chunkBuf.length := by rw [hbuf]; exact hfit
  have hnul : 0 ∉ c.record := fun h => (record_bytes c hwf 0 h).1 rfl
  have hlen32 : digitsVal c.len % 2 ^ 32 = digitsVal c.len := by
    apply Nat.mod_eq_of_lt
    have := record_length c
    unfold BC95_NSORF_CHUNK_BUF_LEN BC95_NSORF_CHUNK_LEN at hfit
    omega
  -- the buffer as the parsing code sees it
  have hcstr : cstr (c.record ++ 0 :: chunkBuf.drop (c.record.length + 1)) = c.record :=
    cstr_terminated _ _ hnul
  have hpay : (c.record ++ 0 :: chunkBuf.drop (c.record.length + 1)).drop c.header.length =
      [] ++ c.body ++ (44 :: c.remaining ++ 0 :: chunkBuf.drop (c.record.length + 1)) := by
    rw [record_eq_header c, List.append_assoc, List.drop_left]
    simp
  have hremS : (c.record ++ 0 :: chunkBuf.drop (c.record.length + 1)).drop
      (c.header.length + 2 * (digitsVal c.len) + 1) =
      c.remaining ++ 0 :: chunkBuf.drop (c.record.length + 1) := by
    have e : c.record ++ 0 :: chunkBuf.drop (c.record.length + 1) =
        (c.header ++ c.body ++ [44]) ++ (c.remaining ++ 0 :: chunkBuf.drop (c.record.length + 1)) := by
      rw [record_eq_header c]
      simp
    have e2 : c.header.length + 2 * (digitsVal c.len) + 1 = (c.header ++ c.body ++ [44]).length := by
      simp only [List.length_append, List.length_singleton]
      omega
    rw [e2]
    conv_lhs => rw [e]
    rw [List.drop_left]
  have hnulr : 0 ∉ c.remaining := by
    intro h
    have := isdigit_ge 0 (hr2 0 h)
    omega
  have hatoi : (atoi (cstr (c.remaining ++ 0 :: chunkBuf.drop (c.record.length + 1)))
      % 2 ^ 32).toNat = digitsVal c.remaining := by
    rw [cstr_terminated _ _ hnulr, atoi_digits c.remaining hr1 hr2]
    exact toNat_emod_cast _ hrem
  have hdec := decodeChunk_spec
    ([] ++ c.body ++ (44 :: c.remaining ++ 0 :: chunkBuf.drop (c.record.length + 1)))
    (digitsVal c.len) 0 dataBuf rsp.dataLen hdl
  rw [pairsFrom_eq_hexDecode (digitsVal c.len) [] c.body _ 0 rfl hbody] at hdec
  obtain ⟨hd1, hd2, hd3⟩ := hdec
  refine ⟨c.record ++ 0 :: chunkBuf.drop (c.record.length + 1),
    (decodeChunk ([] ++ c.body ++ (44 :: c.remaining ++ 0 :: chunkBuf.drop (c.record.length + 1)))
      (digitsVal c.len) 0 dataBuf rsp.dataLen).1,
    { socket := digitsVal c.socket % 2 ^ 32 % 256,
      dataLen := (decodeChunk ([] ++ c.body ++ (44 :: c.remaining ++ 0 ::
        chunkBuf.drop (c.record.length + 1))) (digitsVal c.len) 0 dataBuf rsp.dataLen).2,
      remoteAddrIntVal := rsp.remoteAddrIntVal,
      remoteAddrStrVal := c.addr,
      remotePort := digitsVal c.port % 2 ^ 32 % 65536 },
    ?_, hd1, hd2, hd3, ?_⟩
  · simp only [List.length_append, List.length_cons, List.length_drop]
    omega
  · rw [receiveLoop, hrd1]
    simp only [ne_eq, not_true_eq_false, if_false]
    rw [hcstr, scanChunkHeader_record c hwf]
    simp only
    rw [hw]
    simp only [if_false, hlen32, hpay, hremS, hatoi]
    rw [if_neg (by decide : ¬ (true = false))]

/-- One chunk transaction of the receive loop on a well-formed chunk: either
a read timed out, which a calm schedule excludes, and the call returns 0; or
the chunk is decoded and the loop goes on (or returns) as the remaining
count says. -/
theorem receiveLoop_step (fuel : Nat) (chunkBuf dataBuf : List Nat) (rsp : udp_rx_data_t)
    (ticks : List Tick) (c : Chunk) (more : List Nat)
    (hwf : c.WellFormed) (hbuf : chunkBuf.length = BC95_NSORF_CHUNK_BUF_LEN)
    (hdl : rsp.dataLen ≤ dataBuf.length)
    (hbytes : bytesOf ticks = c.wire ++ more) :
    (∃ res, receiveLoop (fuel + 1) chunkBuf dataBuf rsp ticks = some res ∧ res.ret = 0 ∧
      ¬ Calm BC95_DEFAULT_READ_RESPONSE_TIMEOUT ticks) ∨
    (∃ (rest : List Tick) (chunkBuf' dataBuf' : List Nat) (rsp' : udp_rx_data_t),
      bytesOf rest = more ∧ rest <:+ ticks ∧
      chunkBuf'.length = BC95_NSORF_CHUNK_BUF_LEN ∧
      rsp'.dataLen = min (rsp.dataLen + digitsVal c.len) dataBuf.length ∧
      dataBuf'.length = dataBuf.length ∧
      dataBuf'.take rsp'.dataLen =
        dataBuf.take rsp.dataLen ++ (hexDecode c.body).take (dataBuf.length - rsp.dataLen) ∧
      receiveLoop (fuel + 1) chunkBuf dataBuf rsp ticks =
        if digitsVal c.remaining > 0 then receiveLoop fuel chunkBuf' dataBuf' rsp' rest
        else some ⟨rsp'.dataLen, dataBuf', rsp', rest⟩) := by
  have hplen : c.record.length < chunkBuf.length := by rw [hbuf]; exact hwf.2.2.2.2.2.2.2.2
  have hcr : CR ∉ c.record := fun h => (record_bytes c hwf CR h).2 rfl
  have hnul : 0 ∉ c.record := fun h => (record_bytes c hwf 0 h).1 rfl
  have hp1 : parseBytes ⟨.StartCR, 0, chunkBuf⟩ (bytesOf ticks) =
      some (BC95_RESPONSE_TYPE_DATA, c.record ++ 0 :: chunkBuf.drop (c.record.length + 1),
        c.record.length, frame strOK ++ more) := by
    rw [hbytes, Chunk.wire, List.append_assoc, parseBytes_frame c.record chunkBuf _ hcr hplen,
      finalize_record c hwf chunkBuf hplen]
  obtain ⟨r1, hrd1, hsf1, hcase1⟩ := readResponse_frame BC95_DEFAULT_READ_RESPONSE_TIMEOUT
    chunkBuf ticks _ _ _ _ (by decide) hp1
  rcases hcase1 with ⟨hto, hnc⟩ | ⟨h1, h2, h3, h4⟩
  · left
    refine ⟨⟨0, dataBuf, rsp, r1.rest⟩, ?_, rfl, hnc⟩
    rw [receiveLoop, hrd1]
    simp only
    rw [if_pos (by rw [hto]; decide)]
  · have hr1 : r1 = ⟨BC95_RESPONSE_TYPE_DATA,
        c.record ++ 0 :: chunkBuf.drop (c.record.length + 1), c.record.length, r1.rest⟩ := by
      cases r1
      simp only at h1 h2 h3
      simp only [h1, h2, h3]
    rw [hr1] at hrd1
    obtain ⟨ok, rest2, hw, hsf2, hcase2⟩ := waitForOK_frame BC95_DEFAULT_READ_RESPONSE_TIMEOUT
      r1.rest more h4
    rcases hcase2 with ⟨hok, hnc⟩ | ⟨hok, hbs2⟩
    · left
      subst hok
      refine ⟨⟨0, dataBuf, ⟨digitsVal c.socket % 2 ^ 32 % 256, rsp.dataLen,
          rsp.remoteAddrIntVal, c.addr, digitsVal c.port % 2 ^ 32 % 65536⟩, rest2⟩,
        ?_, rfl, fun hcalm => hnc (calm_suffix _ _ _ hcalm hsf1)⟩
      rw [receiveLoop, hrd1]
      simp only [ne_eq, not_true_eq_false, if_false]
      rw [cstr_terminated _ _ hnul, scanChunkHeader_record c hwf]
      simp only
      rw [hw]
      simp only [if_true]
    · right
      subst hok
      obtain ⟨chunkBuf', dataBuf', rsp', g1, g2, g3, g4, g5⟩ := receiveLoop_step_core fuel
        chunkBuf dataBuf rsp ticks r1.rest rest2 c hwf hbuf hdl hrd1 hw
      exact ⟨rest2, chunkBuf', dataBuf', rsp', hbs2, hsf2.trans hsf1, g1, g2, g3, g4, g5⟩

theorem hexDecode_append (n : Nat) :
    ∀ (a b : List Nat), a.length = 2 * n → hexDecode (a ++ b) = hexDecode a ++ hexDecode b := by
  induction n with
  | zero =>
    intro a b h
    have : a = [] := List.length_eq_zero.mp (by omega)
    subst this
    rfl
  | succ n ih =>
    intro a b h
    match a, h with
    | x :: y :: r, h =>
      have hr : r.length = 2 * n := by simp at h; omega
      show hexDecode (x :: y :: (r ++ b)) = _
      rw [hexDecode, ih r b hr]
      rfl

theorem hexDecode_length (n : Nat) :
    ∀ (a : List Nat), a.length = 2 * n → (hexDecode a).length = n := by
  induction n with
  | zero =>
    intro a h
    have : a = [] := List.length_eq_zero.mp (by omega)
    subst this
    rfl
  | succ n ih =>
    intro a h
    match a, h with
    | x :: y :: r, h =>
      have hr : r.length = 2 * n := by simp at h; omega
      simp only [hexDecode, List.length_cons, ih r hr]

theorem receiveLoop_chunks (chunks : List Chunk) :
    ∀ (fuel : Nat) (chunkBuf dataBuf : List Nat) (rsp : udp_rx_data_t) (ticks : List Tick),
      (∀ c ∈ chunks, c.WellFormed) → ExactlyLastZero chunks →
      chunkBuf.length = BC95_NSORF_CHUNK_BUF_LEN → rsp.dataLen ≤ dataBuf.length →
      chunks.length ≤ fuel → bytesOf ticks = wireOf chunks →
      ∃ res, receiveLoop fuel chunkBuf dataBuf rsp ticks = some res ∧
        ((res.ret = 0 ∧ ¬ Calm BC95_DEFAULT_READ_RESPONSE_TIMEOUT ticks) ∨
          (res.ret = min (rsp.dataLen + totalLen chunks) dataBuf.length ∧
            res.dataBuf.length = dataBuf.length ∧
            res.dataBuf.take res.ret =
              dataBuf.take rsp.dataLen ++
                (hexDecode (bodiesOf chunks)).take (dataBuf.length - rsp.dataLen))) := by
  induction chunks with
  | nil => intro _ _ _ _ _ _ h; exact absurd h (by simp [ExactlyLastZero])
  | cons c cs ih =>
    intro fuel chunkBuf dataBuf rsp ticks hwf hlast hbuf hdl hfuel hbytes
    have hwfc := hwf c (List.mem_cons_self _ _)
    obtain ⟨f, rfl⟩ : ∃ f, fuel = f + 1 := ⟨fuel - 1, by simp at hfuel; omega⟩
    rcases receiveLoop_step f chunkBuf dataBuf rsp ticks c (wireOf cs) hwfc hbuf hdl
        (by rw [hbytes, wireOf]) with
      ⟨res, hres, hz, hnc⟩ |
      ⟨rest, chunkBuf', dataBuf', rsp', hb, hsf, hcb, hdl', hlen', htake, hstep⟩
    · exact ⟨res, hres, Or.inl ⟨hz, hnc⟩⟩
    · cases cs with
      | nil =>
        have hz : ¬ digitsVal c.remaining > 0 := by
          simp only [ExactlyLastZero] at hlast
          omega
        rw [if_neg hz] at hstep
        refine ⟨_, hstep, Or.inr ⟨?_, hlen', ?_⟩⟩
        · simp only [hdl', totalLen, Nat.add_zero]
        · simp only [htake, bodiesOf, List.append_nil]
      | cons c' cs' =>
        simp only [ExactlyLastZero] at hlast
        have hnz : digitsVal c.remaining > 0 := by omega
        rw [if_pos hnz] at hstep
        obtain ⟨res, hres, hcase⟩ := ih f chunkBuf' dataBuf' rsp' rest
          (fun x hx => hwf x (List.mem_cons_of_mem _ hx)) hlast.2 hcb
          (by rw [hdl', hlen']; omega) (by simp at hfuel ⊢; omega) hb
        refine ⟨res, by rw [hstep, hres], ?_⟩
        rcases hcase with ⟨hz, hnc⟩ | ⟨hret, hrl, hrt⟩
        · exact Or.inl ⟨hz, fun hcalm => hnc (calm_suffix _ _ _ hcalm hsf)⟩
        · refine Or.inr ⟨?_, by rw [hrl, hlen'], ?_⟩
          · rw [hret, hdl', hlen']
            simp only [totalLen]
            omega
          · have hbl := hwfc.2.2.2.2.2.2.1
            rw [hrt, htake, hlen', hdl']
            conv_rhs => rw [bodiesOf, hexDecode_append _ _ _ hbl,
              List.take_append_eq_append_take, hexDecode_length _ _ hbl]
            rw [List.append_assoc]
            congr 3
            omega

theorem length_wireOf (chunks : List Chunk) : chunks.length ≤ (wireOf chunks).length := by
  induction chunks with
  | nil => simp [wireOf]
  | cons c cs ih =>
    simp only [wireOf, Chunk.wire, frame, List.length_append, List.length_cons]
    omega

theorem hexDecode_bodies_length (chunks : List Chunk) (hwf : ∀ c ∈ chunks, c.WellFormed) :
    (hexDecode (bodiesOf chunks)).length = totalLen chunks := by
  induction chunks with
  | nil => rfl
  | cons c cs ih =>
    have hbl := (hwf c (List.mem_cons_self _ _)).2.2.2.2.2.2.1
    rw [bodiesOf, hexDecode_append _ _ _ hbl, List.length_append, hexDecode_length _ _ hbl,
      ih (fun x hx => hwf x (List.mem_cons_of_mem _ hx)), totalLen]

/-- C7: the stream delivers a sequence of successful chunk transactions (a
well-formed DATA record, then OK) of which exactly the last reports
remaining 0. `receiveUDPDatagram` returns; on a calm schedule, and whenever it
returns a nonzero length, the length is the smaller of the sum of the chunk
lengths and the buffer capacity, and that many leading bytes of the output
buffer are the hex-decoding of the concatenated chunk bodies. -/
theorem receiveUDPDatagram_chunks (dataBufLen : Nat) (chunkBuf : List Nat) (ticks : List Tick)
    (chunks : List Chunk)
    (hbuf : chunkBuf.length = BC95_NSORF_CHUNK_BUF_LEN)
    (hwf : ∀ c ∈ chunks, c.WellFormed) (hlast : ExactlyLastZero chunks)
    (hbytes : bytesOf ticks = wireOf chunks) :
    ∃ res, receiveUDPDatagram dataBufLen chunkBuf ticks = some res ∧
      (Calm BC95_DEFAULT_READ_RESPONSE_TIMEOUT ticks ∨ res.ret ≠ 0 →
        res.ret = min (totalLen chunks) dataBufLen ∧
        res.dataBuf.take res.ret = (hexDecode (bodiesOf chunks)).take res.ret) := by
  have hfuel : chunks.length ≤ ticks.length + 1 := by
    have h1 := length_wireOf chunks
    have h2 : (bytesOf ticks).length ≤ ticks.length := List.length_filterMap_le _ _
    rw [hbytes] at h2
    omega
  obtain ⟨res, hres, hcase⟩ := receiveLoop_chunks chunks (ticks.length + 1) chunkBuf
    (List.replicate dataBufLen 0) ⟨0, 0, 0, [], 0⟩ ticks hwf hlast hbuf (Nat.zero_le _) hfuel
    hbytes
  refine ⟨res, hres, fun hyp => ?_⟩
  rcases hcase with ⟨hz, hnc⟩ | ⟨hret, _, htake⟩
  · rcases hyp with h | h
    · exact absurd h hnc
    · exact absurd hz h
  · simp only [Nat.zero_add, List.length_replicate, List.take_zero, List.nil_append,
      Nat.sub_zero] at hret htake
    refine ⟨hret, ?_⟩
    rw [htake, hret]
    have hl := hexDecode_bodies_length chunks hwf
    by_cases h : totalLen chunks ≤ dataBufLen
    · rw [Nat.min_eq_left h, List.take_of_length_le (by omega),
        List.take_of_length_le (by omega)]
    · rw [Nat.min_eq_right (by omega)]

theorem receiveUDPDatagram_chunks_witness :
    (receiveUDPDatagram 128 (List.replicate 96 0) (burst 7 (wireOf demoChunks))).map
        (fun r => (r.ret, r.dataBuf.take r.ret)) =
      some (128, List.replicate 32 0x11 ++ List.replicate 32 0x22 ++ List.replicate 32 0x33
        ++ List.replicate 32 0xAA) ∧
    (receiveUDPDatagram 100 (List.replicate 96 0) (burst 7 (wireOf demoChunks))).map
        (fun r => (r.ret, r.dataBuf.take r.ret)) =
      some (100, List.replicate 32 0x11 ++ List.replicate 32 0x22 ++ List.replicate 32 0x33
        ++ List.replicate 4 0xAA) := by
  obtain ⟨res, h1, h⟩ := receiveUDPDatagram_chunks 128 (List.replicate 96 0)
    (burst 7 (wireOf demoChunks)) demoChunks (by decide) (by decide) (by decide)
    (bytesOf_burst _ _)
  obtain ⟨h2, h3⟩ := h (Or.inl (calm_burst _ 7 (by decide) _))
  obtain ⟨res', h1', h'⟩ := receiveUDPDatagram_chunks 100 (List.replicate 96 0)
    (burst 7 (wireOf demoChunks)) demoChunks (by decide) (by decide) (by decide)
    (bytesOf_burst _ _)
  obtain ⟨h2', h3'⟩ := h' (Or.inl (calm_burst _ 7 (by decide) _))
  constructor
  · rw [h1]
    show some (res.ret, res.dataBuf.take res.ret) = _
    rw [h3, h2]
    decide
  · rw [h1']
    show some (res'.ret, res'.dataBuf.take res'.ret) = _
    rw [h3', h2']
    decide

/-! ## The hex codec of the send and receive paths -/

set_option maxRecDepth 100000 in
theorem hexPair_byte : ∀ b, b < 256 →
    hexPair b = [HEXMAP.getD (b >>> 4) 0, HEXMAP.getD (b &&& 0x0F) 0] ∧
    isUpperHex (HEXMAP.getD (b >>> 4) 0) = true ∧
    isUpperHex (HEXMAP.getD (b &&& 0x0F) 0) = true ∧
    hexCharToInt (HEXMAP.getD (b >>> 4) 0) * 16
      + hexCharToInt (HEXMAP.getD (b &&& 0x0F) 0) = b := by
  decide

theorem hexEncode_length (payload : List Nat) :
    (hexEncode payload).length = 2 * payload.length := by
  induction payload with
  | nil => rfl
  | cons b r ih =>
    simp only [hexEncode, hexPair, List.length_append, List.length_cons, List.length_nil, ih]
    omega

theorem hexDecode_hexEncode (payload : List Nat) (h : ∀ b ∈ payload, b < 256) :
    hexDecode (hexEncode payload) = payload := by
  induction payload with
  | nil => rfl
  | cons b r ih =>
    obtain ⟨e, _, _, hb⟩ := hexPair_byte b (h b (List.mem_cons_self _ _))
    rw [hexEncode, e]
    show (_ :: hexDecode (hexEncode r)) = _
    rw [hb, ih (fun x hx => h x (List.mem_cons_of_mem _ hx))]

theorem decodeChunk_hexEncode (payload : List Nat) (h : ∀ b ∈ payload, b < 256) :
    decodeChunk (hexEncode payload) payload.length 0 (List.replicate payload.length 0) 0 =
      (payload, payload.length) := by
  obtain ⟨h1, h2, h3⟩ := decodeChunk_spec (hexEncode payload) payload.length 0
    (List.replicate payload.length 0) 0 (Nat.zero_le _)
  have hp := pairsFrom_eq_hexDecode payload.length [] (hexEncode payload) [] 0 rfl
    (hexEncode_length payload)
  simp only [List.nil_append, List.append_nil] at hp
  rw [hp, hexDecode_hexEncode payload h] at h3
  simp only [List.length_replicate, Nat.zero_add, Nat.min_self, List.take_zero, List.nil_append,
    Nat.sub_zero] at h1 h2 h3
  rw [h1] at h3
  rw [List.take_of_length_le (Nat.le_of_eq h2), List.take_of_length_le (Nat.le_refl _)] at h3
  exact Prod.ext h3 h1

/-- C19 (hex codec round trip): for every byte `b` the send loop emits the two
characters `HEXMAP[b >> 4]`, `HEXMAP[b & 0x0F]`, both from `0-9 A-F`, and the
receive path's `hexCharToInt(high) * 16 + hexCharToInt(low)` gives `b` back;
for every payload of bytes the emitted text has length `2 * dataLen`, decodes
pair by pair to the payload, and the receive loop of `receiveUDPDatagram`
run on it fills the data buffer with the payload. -/
theorem hex_codec_round_trip :
    (∀ b, b < 256 →
      hexPair b = [HEXMAP.getD (b >>> 4) 0, HEXMAP.getD (b &&& 0x0F) 0] ∧
      isUpperHex (HEXMAP.getD (b >>> 4) 0) = true ∧
      isUpperHex (HEXMAP.getD (b &&& 0x0F) 0) = true ∧
      hexCharToInt (HEXMAP.getD (b >>> 4) 0) * 16
        + hexCharToInt (HEXMAP.getD (b &&& 0x0F) 0) = b) ∧
    (∀ payload : List Nat, (∀ b ∈ payload, b < 256) →
      (hexEncode payload).length = 2 * payload.length ∧
      hexDecode (hexEncode payload) = payload ∧
      decodeChunk (hexEncode payload) payload.length 0 (List.replicate payload.length 0) 0 =
        (payload, payload.length)) :=
  ⟨hexPair_byte, fun payload h =>
    ⟨hexEncode_length payload, hexDecode_hexEncode payload h, decodeChunk_hexEncode payload h⟩⟩

theorem hex_codec_round_trip_witness :
    (hexPair 0xAB = [65, 66] ∧ hexCharToInt 65 * 16 + hexCharToInt 66 = 0xAB) ∧
    (hexEncode [0, 0x5A, 0xFF] = [48, 48, 53, 65, 70, 70] ∧
      hexDecode (hexEncode [0, 0x5A, 0xFF]) = [0, 0x5A, 0xFF]) :=
  ⟨⟨(hex_codec_round_trip.1 0xAB (by decide)).1, by decide⟩,
    by decide, (hex_codec_round_trip.2 [0, 0x5A, 0xFF] (by decide)).2.1⟩

/-! ## Simple transactions: `createSocket`, `_sendUDPDatagram`, `netSendUDPPacket` -/

/-- A transaction answered by a DATA record `p` and then `OK`: the call
returns; it succeeds when no timeout can fire, and whenever it succeeds the
buffer holds `p` as a C string and the bytes after the `OK` are left. -/
theorem readSimpleDataResponse_frame (rspBuf : List Nat) (ticks : List Tick)
    (p more : List Nat)
    (hbytes : bytesOf ticks = frame p ++ (frame strOK ++ more))
    (hcr : CR ∉ p) (hnul : 0 ∉ p) (hlen : p.length < rspBuf.length)
    (h1 : p ≠ strOK) (h2 : p ≠ strERROR) (h3 : ¬ strCME <+: p) :
    ∃ ok buf rest,
      readSimpleDataResponse rspBuf BC95_DEFAULT_READ_RESPONSE_TIMEOUT ticks
        = some (ok, buf, rest) ∧
      (Calm BC95_DEFAULT_READ_RESPONSE_TIMEOUT ticks → ok = true) ∧
      (ok = true → cstr buf = p ∧ bytesOf rest = more) := by
  have hp := parseBytes_frame p rspBuf (frame strOK ++ more) hcr hlen
  rw [finalize_eq p rspBuf hnul hlen, if_neg h1, if_neg h2, if_neg h3, ← hbytes] at hp
  have hne : BC95_RESPONSE_TYPE_TIMEOUT ≠ BC95_RESPONSE_TYPE_DATA := by decide
  obtain ⟨r, hr, hs, hcase⟩ := readResponse_frame BC95_DEFAULT_READ_RESPONSE_TIMEOUT _ ticks
    _ _ _ _ (Ne.symm hne) hp
  rcases hcase with ⟨ht, hnc⟩ | ⟨ht, hb, _, hm⟩
  · refine ⟨false, r.rspBuf, r.rest, ?_, fun hc => absurd hc hnc, fun h => by cases h⟩
    unfold readSimpleDataResponse
    rw [hr]
    simp only
    rw [if_neg (by rw [ht]; exact hne)]
  · obtain ⟨ok, rest, hw, hs2, hcase2⟩ :=
      waitForOK_frame BC95_DEFAULT_READ_RESPONSE_TIMEOUT r.rest more hm
    refine ⟨ok, r.rspBuf, rest, ?_, ?_, ?_⟩
    · unfold readSimpleDataResponse
      rw [hr]
      simp only
      rw [if_pos ht, hw]
    · intro hc
      rcases hcase2 with ⟨_, hnc⟩ | ⟨hok, _⟩
      · exact absurd (calm_suffix _ _ _ hc hs) hnc
      · exact hok
    · intro hok
      rcases hcase2 with ⟨hf, _⟩ | ⟨_, hm2⟩
      · rw [hf] at hok; cases hok
      · exact ⟨by rw [hb]; exact cstr_terminated p _ hnul, hm2⟩

theorem isdigit_facts (d : Nat) (h : isdigit d = true) : 48 ≤ d ∧ d ≤ 57 := by
  unfold isdigit at h
  simp only [Bool.and_eq_true, decide_eq_true_eq] at h
  exact h

/-- The handle path of `createSocket`: answered by a DATA record holding a
decimal handle below 128 and then `OK`, the call returns; it returns the
handle when no timeout can fire, and any result other than `-1` is the
handle. -/
theorem createSocket_handle (ticks : List Tick) (ds more : List Nat)
    (hbytes : bytesOf ticks = frame ds ++ (frame strOK ++ more))
    (hne : ds ≠ []) (hd : ∀ x ∈ ds, isdigit x = true)
    (hlen : ds.length < BC95_MIN_RSP_BUF_LEN) (hval : digitsVal ds < 128) :
    ∃ h rest, createSocket ticks = some (h, rest) ∧
      (Calm BC95_DEFAULT_READ_RESPONSE_TIMEOUT ticks → h = (digitsVal ds : Int)) ∧
      (h ≠ -1 → h = (digitsVal ds : Int) ∧ bytesOf rest = more) := by
  have hcr : CR ∉ ds := fun hm => by have := isdigit_facts _ (hd _ hm); simp [CR] at this
  have hnul : 0 ∉ ds := fun hm => by have := isdigit_facts _ (hd _ hm); omega
  have hhead : ∀ q : List Nat, (∃ c r, q = c :: r ∧ isdigit c = false) → ¬ q <+: ds := by
    rintro q ⟨c, r, rfl, hc⟩ hpre
    cases ds with
    | nil => exact hne rfl
    | cons d t =>
      have := (List.cons_prefix_cons.mp hpre).1
      rw [this, hd d (List.mem_cons_self _ _)] at hc
      cases hc
  have h1 : ds ≠ strOK := fun e =>
    hhead strOK ⟨79, [75], rfl, by decide⟩ (e ▸ List.prefix_refl _)
  have h2 : ds ≠ strERROR := fun e =>
    hhead strERROR ⟨69, _, rfl, by decide⟩ (e ▸ List.prefix_refl _)
  have h3 : ¬ strCME <+: ds := hhead strCME ⟨43, _, rfl, by decide⟩
  have hl : ds.length < (List.replicate BC95_MIN_RSP_BUF_LEN 0).length := by
    rw [List.length_replicate]; exact hlen
  obtain ⟨ok, buf, rest, hr, hcalm, hok⟩ :=
    readSimpleDataResponse_frame (List.replicate BC95_MIN_RSP_BUF_LEN 0) ticks ds more hbytes
      hcr hnul hl h1 h2 h3
  have hv : toInt8 (digitsVal ds : Int) = (digitsVal ds : Int) := by
    unfold toInt8
    omega
  cases ok with
  | false =>
    refine ⟨-1, rest, ?_, fun hc => Bool.noConfusion (hcalm hc), fun h => absurd rfl h⟩
    unfold createSocket
    rw [hr]
    rfl
  | true =>
    obtain ⟨hb, hm⟩ := hok rfl
    refine ⟨(digitsVal ds : Int), rest, ?_, fun _ => rfl, fun _ => ⟨rfl, hm⟩⟩
    unfold createSocket
    rw [hr]
    simp only [if_true]
    rw [hb, atoi_digits ds hne hd, hv]

/-- Every route on which the simple data response fails gives `-1`. -/
theorem createSocket_failure (ticks : List Tick) (buf : List Nat) (rest : List Tick)
    (h : readSimpleDataResponse (List.replicate BC95_MIN_RSP_BUF_LEN 0)
      BC95_DEFAULT_READ_RESPONSE_TIMEOUT ticks = some (false, buf, rest)) :
    createSocket ticks = some (-1, rest) := by
  unfold createSocket
  rw [h]
  rfl

/-- C12 (socket creation, non-numeric record): a DATA record whose text is
not a number, followed by `OK`, makes `createSocket` return the handle 0, not
`-1`: `atoi` cannot report a conversion failure and its result is not
checked. The other routes behave as claimed: a first record that is not DATA,
and a DATA record not followed by `OK`, give `-1`, and a decimal handle
followed by `OK` is returned. -/
theorem createSocket_non_numeric_record :
    createSocket (burst 7 (frame (ascii "abc") ++ frame strOK)) = some (0, []) ∧
    createSocket (burst 7 (frame [] ++ frame strOK)) = some (0, []) ∧
    createSocket (burst 7 (frame strERROR)) = some (-1, []) ∧
    createSocket (burst 7 (frame (ascii "1") ++ frame strERROR)) = some (-1, []) ∧
    createSocket (burst 7 (frame (ascii "1") ++ frame strOK)) = some (1, []) := by
  decide

/-- When `netSendUDPPacket` returns `true` the transaction either completed
with a reported count equal to `payloadLen`, or the payload is empty and the
transaction failed (no DATA-then-OK, or no count in the record). -/
theorem netSendUDPPacket_true (defaultSocket : Int) (dstAddrStr : List Nat) (dstPort : Nat)
    (payload : List Nat) (ticks : List Tick) (written : List Nat) (rest : List Tick)
    (h : netSendUDPPacket defaultSocket dstAddrStr dstPort payload ticks
      = some (true, written, rest)) :
    (∃ buf, readSimpleDataResponse (List.replicate BC95_MIN_RSP_BUF_LEN 0)
        BC95_DEFAULT_READ_RESPONSE_TIMEOUT ticks = some (true, buf, rest) ∧
      scanSendCount (cstr buf) = some payload.length) ∨
    (payload = [] ∧ ∃ ok buf, readSimpleDataResponse (List.replicate BC95_MIN_RSP_BUF_LEN 0)
        BC95_DEFAULT_READ_RESPONSE_TIMEOUT ticks = some (ok, buf, rest) ∧
      (ok = false ∨ scanSendCount (cstr buf) = none)) := by
  unfold netSendUDPPacket _sendUDPDatagram at h
  simp only at h
  cases hr : readSimpleDataResponse (List.replicate BC95_MIN_RSP_BUF_LEN 0)
      BC95_DEFAULT_READ_RESPONSE_TIMEOUT ticks with
  | none => rw [hr] at h; cases h
  | some x =>
    obtain ⟨ok, buf, rest'⟩ := x
    rw [hr] at h
    simp only at h
    cases ok with
    | false =>
      simp only [Bool.false_eq_true, if_false, Option.some.injEq, Prod.mk.injEq,
        beq_iff_eq] at h
      right
      refine ⟨List.length_eq_zero.mp h.1.symm, false, buf, ?_, Or.inl rfl⟩
      rw [h.2.2]
    | true =>
      simp only [if_true] at h
      cases hs : scanSendCount (cstr buf) with
      | none =>
        rw [hs] at h
        simp only [Option.some.injEq, Prod.mk.injEq, beq_iff_eq] at h
        right
        refine ⟨List.length_eq_zero.mp h.1.symm, true, buf, ?_, Or.inr hs⟩
        rw [h.2.2]
      | some n =>
        rw [hs] at h
        simp only [Option.some.injEq, Prod.mk.injEq, beq_iff_eq] at h
        left
        refine ⟨buf, ?_, ?_⟩
        · rw [h.2.2]
        · rw [hs, h.1]

/-- For a non-empty payload `true` is returned only for a completed
transaction (DATA record, then `OK`) whose record reports `payloadLen`. -/
theorem netSendUDPPacket_nonempty (defaultSocket : Int) (dstAddrStr : List Nat) (dstPort : Nat)
    (payload : List Nat) (ticks : List Tick) (written : List Nat) (rest : List Tick)
    (hne : payload ≠ [])
    (h : netSendUDPPacket defaultSocket dstAddrStr dstPort payload ticks
      = some (true, written, rest)) :
    ∃ buf, readSimpleDataResponse (List.replicate BC95_MIN_RSP_BUF_LEN 0)
        BC95_DEFAULT_READ_RESPONSE_TIMEOUT ticks = some (true, buf, rest) ∧
      scanSendCount (cstr buf) = some payload.length := by
  rcases netSendUDPPacket_true _ _ _ _ _ _ _ h with h1 | ⟨h2, _⟩
  · exact h1
  · exact absurd h2 hne

/-- C11 (send result, empty payload): with `payloadLen = 0` the call returns
`true` although the transaction failed, because the 0 that `_sendUDPDatagram`
returns for every failure equals `payloadLen`: on an ERROR record, on a
timeout with nothing received, and on a DATA record without a count. With a
non-empty payload the same responses give `false`, as does a short count,
and a full count gives `true`. -/
theorem netSendUDPPacket_empty_payload :
    (netSendUDPPacket 0 (ascii "10.0.0.1") 5683 [] (burst 7 (frame strERROR))).map Prod.fst
      = some true ∧
    (netSendUDPPacket 0 (ascii "10.0.0.1") 5683 [] [⟨0, none⟩, ⟨100, none⟩]).map Prod.fst
      = some true ∧
    (netSendUDPPacket 0 (ascii "10.0.0.1") 5683 []
      (burst 7 (frame (ascii "abc") ++ frame strOK))).map Prod.fst = some true ∧
    (netSendUDPPacket 0 (ascii "10.0.0.1") 5683 [1, 2, 3] (burst 7 (frame strERROR))).map
      Prod.fst = some false ∧
    (netSendUDPPacket 0 (ascii "10.0.0.1") 5683 [1, 2, 3] [⟨0, none⟩, ⟨100, none⟩]).map
      Prod.fst = some false ∧
    (netSendUDPPacket 0 (ascii "10.0.0.1") 5683 [1, 2, 3]
      (burst 7 (frame (ascii "0,2") ++ frame strOK))).map Prod.fst = some false ∧
    (netSendUDPPacket 0 (ascii "10.0.0.1") 5683 [1, 2, 3]
      (burst 7 (frame (ascii "0,3") ++ frame strOK))).map Prod.fst = some true := by
  decide

/-! ## The inactivity timer of `readResponse` -/

theorem readLoop_timeout (timeout : Nat) :
    ∀ (ticks : List Tick) (f : Frame) (last : Nat) (r : Response),
      readLoop timeout f last ticks = some r → r.type = BC95_RESPONSE_TYPE_TIMEOUT →
      ∃ pre tk, ticks = pre ++ tk :: r.rest ∧
        timeout ≤ labsDiff (millis tk.t) (timerAfter f last (pre ++ [tk])) := by
  intro ticks
  induction ticks with
  | nil => intro f last r h; simp [readLoop] at h
  | cons tk rest ih =>
    intro f last r h hty
    rw [readLoop] at h
    cases hb : tk.b with
    | none =>
      rw [hb] at h
      simp only at h
      by_cases hc : labsDiff (millis tk.t) last < timeout
      · rw [if_pos hc] at h
        obtain ⟨pre, tk', e, hle⟩ := ih f last r h hty
        refine ⟨tk :: pre, tk', by rw [e]; rfl, ?_⟩
        rw [List.cons_append, timerAfter, hb]
        exact hle
      · rw [if_neg hc] at h
        simp only [Option.some.injEq] at h
        subst h
        refine ⟨[], tk, rfl, ?_⟩
        rw [List.nil_append, timerAfter, hb]
        exact Nat.le_of_not_lt hc
    | some b =>
      rw [hb] at h
      simp only at h
      cases hf : feed f b with
      | done ty buf len =>
        rw [hf] at h
        simp only [Option.some.injEq] at h
        subst h
        exfalso
        have hd : ty = (finalize f.rspBuf f.parsedLen).1 := by
          unfold feed at hf
          split at hf <;> (try split at hf) <;> (try split at hf)
            <;> first
              | (cases hf; rfl)
              | cases hf
        exact finalize_type_ne_timeout f.rspBuf f.parsedLen (hd ▸ hty)
      | cont f' touched =>
        rw [hf] at h
        simp only at h
        by_cases hc : labsDiff (millis tk.t) (if touched = true then millis tk.t else last)
            < timeout
        · rw [if_pos hc] at h
          obtain ⟨pre, tk', e, hle⟩ := ih f' _ r h hty
          refine ⟨tk :: pre, tk', by rw [e]; rfl, ?_⟩
          rw [List.cons_append, timerAfter, hb]
          simp only [hf]
          exact hle
        · rw [if_neg hc] at h
          simp only [Option.some.injEq] at h
          subst h
          refine ⟨[], tk, rfl, ?_⟩
          rw [List.nil_append, timerAfter, hb]
          simp only [hf, timerAfter]
          exact Nat.le_of_not_lt hc

theorem timerAfter_allFrameBytes :
    ∀ (ticks : List Tick) (f : Frame) (last : Nat), allFrameBytes f ticks = true →
      timerAfter f last ticks = lastByteReading last ticks := by
  intro ticks
  induction ticks with
  | nil => intro f last _; rfl
  | cons tk rest ih =>
    intro f last h
    rw [allFrameBytes] at h
    rw [timerAfter, lastByteReading]
    cases hb : tk.b with
    | none =>
      rw [hb] at h
      simp only at h
      simp only [Option.isSome_none, Bool.false_eq_true, if_false]
      exact ih f last h
    | some b =>
      rw [hb] at h
      simp only at h
      cases hf : feed f b with
      | done ty buf len => rw [hf] at h; cases h
      | cont f' touched =>
        rw [hf] at h
        simp only [Bool.and_eq_true] at h
        simp only [hf, Option.isSome_some, if_true, h.1]
        exact ih f' _ h.2

/-- C20 (inactivity timeout, as the code has it): the idle timer restarts on
every byte that is taken into a frame (CR in `StartCR`, LF in `StartLF`, CR or
a stored byte in `Payload`), not on a byte that is discarded. Whenever
`readResponse` returns TIMEOUT, it does so in an iteration whose clock reading
is at least `timeout` away from the reading at the latest such byte (from the
reading at the start of the call when there is none); and when no byte was
discarded up to that iteration, at least `timeout` from the reading at the
latest byte received. -/
theorem readResponse_timeout_idle (rspBuf : List Nat) (timeout : Nat) (ticks : List Tick)
    (r : Response) (h : readResponse rspBuf timeout ticks = some r)
    (hty : r.type = BC95_RESPONSE_TYPE_TIMEOUT) :
    ∃ pre tk, ticks = pre ++ tk :: r.rest ∧
      timeout ≤ labsDiff (millis tk.t)
        (timerAfter ⟨.StartCR, 0, rspBuf⟩ (startReading ticks) (pre ++ [tk])) ∧
      (allFrameBytes ⟨.StartCR, 0, rspBuf⟩ (pre ++ [tk]) = true →
        timeout ≤ labsDiff (millis tk.t) (lastByteReading (startReading ticks) (pre ++ [tk]))) := by
  cases ticks with
  | nil => simp [readResponse] at h
  | cons tk0 rest =>
    obtain ⟨pre, tk, e, hle⟩ :=
      readLoop_timeout timeout (tk0 :: rest) ⟨.StartCR, 0, rspBuf⟩ (millis tk0.t) r h hty
    refine ⟨pre, tk, e, hle, fun hall => ?_⟩
    rw [← timerAfter_allFrameBytes _ _ _ hall]
    exact hle

theorem readResponse_timeout_idle_witness :
    ∃ pre tk, stalled = pre ++ tk :: [] ∧
      100 ≤ labsDiff (millis tk.t)
        (timerAfter ⟨.StartCR, 0, List.replicate 16 0⟩ (startReading stalled) (pre ++ [tk])) ∧
      (allFrameBytes ⟨.StartCR, 0, List.replicate 16 0⟩ (pre ++ [tk]) = true →
        100 ≤ labsDiff (millis tk.t) (lastByteReading (startReading stalled) (pre ++ [tk]))) :=
  readResponse_timeout_idle (List.replicate 16 0) 100 stalled
    ⟨BC95_RESPONSE_TYPE_TIMEOUT, [0, 0, 0, 0, 0, 0, 0, 0, 0, 0, 0, 0, 0, 0, 0, 0].set 0 65, 0, []⟩
    (by decide) (by decide)

/-- The claim of C20 fails on a stream of discarded bytes: with a timeout of
100 ms and the byte `x` arriving every 10 ms from time 0 on, every iteration
receives a byte, yet `readResponse` returns TIMEOUT in the iteration at
100 ms, where the time since the latest byte received is 0. -/
theorem readResponse_timeout_counterexample :
    (readResponse (List.replicate 16 0) 100 drip).map (fun r => (r.type, r.rest))
      = some (BC95_RESPONSE_TYPE_TIMEOUT, []) ∧
    (∀ k, k < 11 → drip.get? k = some ⟨10 * k, some 120⟩) ∧
    drip.length = 11 ∧
    labsDiff (millis 100) (lastByteReading (startReading drip) drip) = 0 ∧
    ¬ (100 ≤ labsDiff (millis 100) (lastByteReading (startReading drip) drip)) := by
  decide

/-! ## The connectivity watchdog and the network initialisation loop -/

theorem initLoop_returns (restart : Bool) :
    ∀ (inits : List Bool) (retry n : Nat), true ∈ inits →
      ∃ r, initLoop restart inits retry n = some r := by
  intro inits
  induction inits with
  | nil => intro _ _ h; cases h
  | cons b rest ih =>
    intro retry n h
    cases b with
    | true => exact ⟨_, rfl⟩
    | false =>
      have hrest : true ∈ rest := by
        rcases List.mem_cons.mp h with h1 | h1
        · cases h1
        · exact h1
      rw [initLoop]
      split
      · exact ⟨_, rfl⟩
      · exact ih _ _ hrest

theorem initLoop_attempts (restart : Bool) :
    ∀ (inits : List Bool) (retry n : Nat) (r : InitRun),
      initLoop restart inits retry n = some r → n + 1 ≤ r.attempts := by
  intro inits
  induction inits with
  | nil => intro _ _ r h; cases h
  | cons b rest ih =>
    intro retry n r h
    cases b with
    | true =>
      simp only [initLoop, Option.some.injEq] at h
      subst h
      exact Nat.le_refl _
    | false =>
      rw [initLoop] at h
      split at h
      · simp only [Option.some.injEq] at h
        subst h
        exact Nat.le_refl _
      · exact Nat.le_of_succ_le (ih _ _ r h)

/-- Without a restart in the limit branch the loop goes on for as long as
`netInitNetwork()` fails: after `k` failures and a success it has made
`k + 1` calls, whatever `k` is. -/
theorem initLoop_no_restart (k : Nat) :
    ∀ (rest : List Bool) (retry n : Nat), retry < 65536 →
      initLoop false (List.replicate k false ++ true :: rest) retry n
        = some ⟨(retry + k) % 65536, n + k + 1, false, rest⟩ := by
  induction k with
  | zero =>
    intro rest retry n h
    have e : (retry + 0) % 65536 = retry := by omega
    rw [e]
    rfl
  | succ k ih =>
    intro rest retry n _
    rw [List.replicate_succ, List.cons_append, initLoop, if_neg (by simp)]
    rw [ih rest ((retry + 1) % 65536) (n + 1) (Nat.mod_lt _ (by decide))]
    have e1 : ((retry + 1) % 65536 + k) % 65536 = (retry + (k + 1)) % 65536 := by omega
    have e2 : n + 1 + k + 1 = n + (k + 1) + 1 := by omega
    rw [e1, e2]

/-- Without a restart in the limit branch the loop never ends while
`netInitNetwork()` keeps failing. -/
theorem initLoop_all_fail (k : Nat) :
    ∀ (retry n : Nat), initLoop false (List.replicate k false) retry n = none := by
  induction k with
  | zero => intro _ _; rfl
  | succ k ih =>
    intro retry n
    rw [List.replicate_succ, initLoop, if_neg (by simp)]
    exact ih _ _

/-- With the restart in the limit branch (`ESP32` defined) the loop started
below the limit makes at most `TP_NETWORK_INIT_MAX_RETRY` calls in all. -/
theorem initLoop_restart_bounded :
    ∀ (inits : List Bool) (retry n : Nat) (r : InitRun),
      retry < TP_NETWORK_INIT_MAX_RETRY →
      initLoop true inits retry n = some r →
      r.attempts + retry ≤ n + TP_NETWORK_INIT_MAX_RETRY := by
  intro inits
  induction inits with
  | nil => intro _ _ r _ h; cases h
  | cons b rest ih =>
    intro retry n r hle h
    have hmax : TP_NETWORK_INIT_MAX_RETRY = 5 := rfl
    cases b with
    | true =>
      simp only [initLoop, Option.some.injEq] at h
      subst h
      show n + 1 + retry ≤ _
      omega
    | false =>
      rw [initLoop] at h
      split at h
      · simp only [Option.some.injEq] at h
        subst h
        show n + 1 + retry ≤ _
        omega
      · rename_i hn
        have hlt : (retry + 1) % 65536 < TP_NETWORK_INIT_MAX_RETRY := by
          by_contra hc
          exact hn ⟨Nat.le_of_not_lt hc, rfl⟩
        have e : (retry + 1) % 65536 = retry + 1 := by omega
        have := ih _ _ r hlt h
        rw [e] at this
        omega

theorem watchdog_tick_returns (esp32 : Bool) (intervals : List Nat) (x : WatchdogInput)
    (w : Watchdog) (hterm : true ∈ x.inits) :
    ∃ o, _tpNetworkConnectivityTaskTick esp32 intervals x w = some o := by
  unfold _tpNetworkConnectivityTaskTick
  split
  · exact ⟨_, rfl⟩
  · simp only
    split
    · split
      · obtain ⟨r, hr⟩ := initLoop_returns esp32 x.inits 0 0 hterm
        rw [hr]
        simp only
        split <;> exact ⟨_, rfl⟩
      · exact ⟨_, rfl⟩
    · exact ⟨_, rfl⟩

theorem watchdog_tick_spec (esp32 : Bool) (intervals : List Nat) (hlen : intervals.length < 256)
    (x : WatchdogInput) (w : Watchdog) (o : WatchdogTick)
    (hw : w.netConnTaskIntervalIdx < intervals.length)
    (h : _tpNetworkConnectivityTaskTick esp32 intervals x w = some o) :
    TickSpec intervals x w o ∧ o.state.netConnTaskIntervalIdx < intervals.length := by
  have hm1 : (w.netConnTaskIntervalIdx + 1) % 256 = w.netConnTaskIntervalIdx + 1 := by omega
  have hm2 : intervals.length % 256 = intervals.length := by omega
  have hpos : 0 < intervals.length := by omega
  unfold _tpNetworkConnectivityTaskTick at h
  unfold TickSpec dueTick
  by_cases hd : labsDiff (millis x.t) w.lastNetConnCheckingTaskMillis
      < intervals.getD w.netConnTaskIntervalIdx 0
  · rw [if_pos hd] at h
    simp only [Option.some.injEq] at h
    subst h
    simp only [hd, decide_True, Bool.not_true, if_true]
    exact ⟨by simp, hw⟩
  · rw [if_neg hd] at h
    simp only [hd, decide_False, Bool.not_false, Bool.true_eq_false, if_false]
    simp only [hm1, hm2] at h
    cases hp : x.pingOK with
    | true =>
      rw [hp] at h
      simp only [Bool.true_eq_false, if_false, Option.some.injEq] at h
      subst h
      simp only [if_true]
      exact ⟨by simp, hpos⟩
    | false =>
      rw [hp] at h
      simp only [if_true] at h
      simp only [Bool.false_eq_true, if_false]
      by_cases hi : w.netConnTaskIntervalIdx + 1 ≥ intervals.length
      · rw [if_pos hi] at h
        rw [if_neg (by omega)]
        cases hr : initLoop esp32 x.inits 0 0 with
        | none => rw [hr] at h; cases h
        | some r =>
          rw [hr] at h
          simp only at h
          have ha : 1 ≤ r.attempts := by simpa using initLoop_attempts esp32 x.inits 0 0 r hr
          split at h <;>
            (simp only [Option.some.injEq] at h
             subst h
             exact ⟨⟨rfl, ha, rfl⟩, hpos⟩)
      · rw [if_neg hi] at h
        simp only [Option.some.injEq] at h
        subst h
        rw [if_pos (by omega)]
        refine ⟨by simp, ?_⟩
        show w.netConnTaskIntervalIdx + 1 < intervals.length
        omega

theorem runSpec_nil (intervals : List Nat) (w : Watchdog) (xs : List WatchdogInput) :
    RunSpec intervals w xs [] := by
  cases xs <;> simp [RunSpec]

theorem watchdogRun_spec (esp32 : Bool) (intervals : List Nat) (hlen : intervals.length < 256) :
    ∀ (xs : List WatchdogInput) (w : Watchdog),
      w.netConnTaskIntervalIdx < intervals.length → (∀ x ∈ xs, true ∈ x.inits) →
      ∃ os, watchdogRun esp32 intervals xs w = some os ∧ RunSpec intervals w xs os ∧
        ∀ o ∈ os, o.state.netConnTaskIntervalIdx < intervals.length := by
  intro xs
  induction xs with
  | nil => intro w _ _; exact ⟨[], rfl, trivial, fun _ h => by cases h⟩
  | cons x xs ih =>
    intro w hw hterm
    obtain ⟨o, ho⟩ := watchdog_tick_returns esp32 intervals x w (hterm x (List.mem_cons_self _ _))
    obtain ⟨hs, hi⟩ := watchdog_tick_spec esp32 intervals hlen x w o hw ho
    rw [watchdogRun, ho]
    simp only
    by_cases hr : o.restarted = true
    · rw [if_pos hr]
      refine ⟨[o], rfl, ⟨hw, hs, runSpec_nil _ _ _⟩, ?_⟩
      intro o' ho'
      rw [List.mem_singleton.mp ho']
      exact hi
    · rw [if_neg hr]
      obtain ⟨os, hos, hspec, hall⟩ := ih o.state hi
        (fun y hy => hterm y (List.mem_cons_of_mem _ hy))
      rw [hos]
      refine ⟨o :: os, rfl, ⟨hw, hs, hspec⟩, ?_⟩
      intro o' ho'
      rcases List.mem_cons.mp ho' with h1 | h1
      · rw [h1]; exact hi
      · exact hall o' h1

/-- C26 (watchdog index invariant): with the configured interval table and
the index inside it at the start, every sequence of ticks whose
re-initialisations terminate runs through; every tick starts, and ends, with
the escalation index below the number of intervals; a tick that is not due
sends no ping and leaves the index unchanged, a due tick whose ping succeeds
leaves it at 0, a due tick whose ping fails increases it by one and, when it
reaches the number of intervals, leaves it at 0 after running the
re-initialisation. -/
theorem watchdog_index_invariant (esp32 : Bool) (xs : List WatchdogInput) (w : Watchdog)
    (hw : w.netConnTaskIntervalIdx < NETCONN_TASK_MAX_FAILURE)
    (hterm : ∀ x ∈ xs, true ∈ x.inits) :
    ∃ os, watchdogRun esp32 NETCONN_TASK_INTERVALS xs w = some os ∧
      RunSpec NETCONN_TASK_INTERVALS w xs os ∧
      ∀ o ∈ os, o.state.netConnTaskIntervalIdx < NETCONN_TASK_MAX_FAILURE :=
  watchdogRun_spec esp32 NETCONN_TASK_INTERVALS (by decide) xs w hw hterm

theorem watchdog_index_invariant_witness :
    ∃ os, watchdogRun true NETCONN_TASK_INTERVALS (threeFailures ++ [fourthFailure]) ⟨0, 0, 0⟩
        = some os ∧
      RunSpec NETCONN_TASK_INTERVALS ⟨0, 0, 0⟩ (threeFailures ++ [fourthFailure]) os ∧
      ∀ o ∈ os, o.state.netConnTaskIntervalIdx < NETCONN_TASK_MAX_FAILURE :=
  watchdog_index_invariant true (threeFailures ++ [fourthFailure]) ⟨0, 0, 0⟩ (by decide)
    (by decide)

theorem watchdog_fail_step (esp32 : Bool) (x : WatchdogInput) (w : Watchdog)
    (hf : x.pingOK = false) (hi : w.netConnTaskIntervalIdx + 1 < NETCONN_TASK_MAX_FAILURE)
    (hd : NETCONN_TASK_INTERVALS.getD w.netConnTaskIntervalIdx 0
      ≤ labsDiff (millis x.t) w.lastNetConnCheckingTaskMillis) :
    _tpNetworkConnectivityTaskTick esp32 NETCONN_TASK_INTERVALS x w =
      some ⟨⟨w.netConnTaskIntervalIdx + 1, stampOf x, w.networkInitRetryCount⟩, true, 0, false⟩ := by
  have h4 : NETCONN_TASK_MAX_FAILURE = 4 := rfl
  have hl : NETCONN_TASK_INTERVALS.length = 4 := rfl
  have hm1 : (w.netConnTaskIntervalIdx + 1) % 256 = w.netConnTaskIntervalIdx + 1 := by omega
  unfold _tpNetworkConnectivityTaskTick
  rw [if_neg (Nat.not_lt.mpr hd)]
  simp only [hf, if_true, hm1, hl]
  rw [if_neg (by omega)]
  rfl

theorem watchdogRun_cons (esp32 : Bool) (intervals : List Nat) (x : WatchdogInput)
    (xs : List WatchdogInput) (w : Watchdog) (o : WatchdogTick)
    (h : _tpNetworkConnectivityTaskTick esp32 intervals x w = some o)
    (hr : o.restarted = false) :
    watchdogRun esp32 intervals (x :: xs) w =
      (watchdogRun esp32 intervals xs o.state).map (fun l => o :: l) := by
  rw [watchdogRun, h]
  simp only [hr, Bool.false_eq_true, if_false]

set_option maxRecDepth 8000 in
/-- C13 (watchdog escalation, as the code has it): the configured sequence
has four intervals. Starting from escalation index 0, three consecutive failed
pings, each on a due tick, advance the index to 1, 2 and 3, the last entry of
the sequence, and none of them calls `netInitNetwork()`; the fourth
consecutive failure runs the network re-initialisation and leaves the index
at 0. -/
theorem watchdog_escalation (esp32 : Bool) (w0 : Watchdog) (x1 x2 x3 x4 : WatchdogInput)
    (h0 : w0.netConnTaskIntervalIdx = 0)
    (f1 : x1.pingOK = false) (f2 : x2.pingOK = false) (f3 : x3.pingOK = false)
    (f4 : x4.pingOK = false)
    (d1 : 300000 ≤ labsDiff (millis x1.t) w0.lastNetConnCheckingTaskMillis)
    (d2 : 60000 ≤ labsDiff (millis x2.t) (stampOf x1))
    (d3 : 60000 ≤ labsDiff (millis x3.t) (stampOf x2))
    (d4 : 60000 ≤ labsDiff (millis x4.t) (stampOf x3))
    (hterm : true ∈ x4.inits) :
    watchdogRun esp32 NETCONN_TASK_INTERVALS [x1, x2, x3] w0 =
      some [⟨⟨1, stampOf x1, w0.networkInitRetryCount⟩, true, 0, false⟩,
        ⟨⟨2, stampOf x2, w0.networkInitRetryCount⟩, true, 0, false⟩,
        ⟨⟨3, stampOf x3, w0.networkInitRetryCount⟩, true, 0, false⟩] ∧
    ∃ o4, _tpNetworkConnectivityTaskTick esp32 NETCONN_TASK_INTERVALS x4
        ⟨3, stampOf x3, w0.networkInitRetryCount⟩ = some o4 ∧
      o4.pinged = true ∧ 1 ≤ o4.initAttempts ∧ o4.state.netConnTaskIntervalIdx = 0 := by
  have c1 : (0 : Nat) + 1 < NETCONN_TASK_MAX_FAILURE := by decide
  have c2 : (1 : Nat) + 1 < NETCONN_TASK_MAX_FAILURE := by decide
  have c3 : (2 : Nat) + 1 < NETCONN_TASK_MAX_FAILURE := by decide
  have c4 : (3 : Nat) < NETCONN_TASK_INTERVALS.length := by decide
  have s1 : _tpNetworkConnectivityTaskTick esp32 NETCONN_TASK_INTERVALS x1 w0 =
      some ⟨⟨1, stampOf x1, w0.networkInitRetryCount⟩, true, 0, false⟩ := by
    rw [watchdog_fail_step esp32 x1 w0 f1 (by rw [h0]; exact c1) (by rw [h0]; exact d1), h0]
  have s2 : _tpNetworkConnectivityTaskTick esp32 NETCONN_TASK_INTERVALS x2
      ⟨1, stampOf x1, w0.networkInitRetryCount⟩ =
      some ⟨⟨2, stampOf x2, w0.networkInitRetryCount⟩, true, 0, false⟩ :=
    watchdog_fail_step esp32 x2 ⟨1, stampOf x1, w0.networkInitRetryCount⟩ f2 c2 d2
  have s3 : _tpNetworkConnectivityTaskTick esp32 NETCONN_TASK_INTERVALS x3
      ⟨2, stampOf x2, w0.networkInitRetryCount⟩ =
      some ⟨⟨3, stampOf x3, w0.networkInitRetryCount⟩, true, 0, false⟩ :=
    watchdog_fail_step esp32 x3 ⟨2, stampOf x2, w0.networkInitRetryCount⟩ f3 c3 d3
  refine ⟨?_, ?_⟩
  · rw [watchdogRun_cons _ _ _ _ _ _ s1 rfl, watchdogRun_cons _ _ _ _ _ _ s2 rfl,
      watchdogRun_cons _ _ _ _ _ _ s3 rfl]
    rfl
  · obtain ⟨o4, ho4⟩ := watchdog_tick_returns esp32 NETCONN_TASK_INTERVALS x4
      ⟨3, stampOf x3, w0.networkInitRetryCount⟩ hterm
    have hl : NETCONN_TASK_INTERVALS.length < 256 := by decide
    have hs0 := watchdog_tick_spec esp32 NETCONN_TASK_INTERVALS hl x4
      ⟨3, stampOf x3, w0.networkInitRetryCount⟩ o4 c4 ho4
    obtain ⟨hs, _⟩ := hs0
    have hnd : ¬ labsDiff (millis x4.t) (stampOf x3) < 60000 := Nat.not_lt.mpr d4
    have hdue : dueTick NETCONN_TASK_INTERVALS x4 ⟨3, stampOf x3, w0.networkInitRetryCount⟩
        = true := by
      show (!decide (labsDiff (millis x4.t) (stampOf x3) < 60000)) = true
      rw [decide_eq_false hnd]
      rfl
    have c5 : ¬ ((3 : Nat) + 1 < NETCONN_TASK_INTERVALS.length) := by decide
    unfold TickSpec at hs
    rw [hdue, f4] at hs
    rw [if_neg (by decide), if_neg (by decide), if_neg c5] at hs
    exact ⟨o4, ho4, hs⟩

theorem watchdog_escalation_witness :
    watchdogRun true NETCONN_TASK_INTERVALS threeFailures ⟨0, 0, 0⟩ =
      some [⟨⟨1, 305500, 0⟩, true, 0, false⟩, ⟨⟨2, 405500, 0⟩, true, 0, false⟩,
        ⟨⟨3, 505500, 0⟩, true, 0, false⟩] ∧
    ∃ o4, _tpNetworkConnectivityTaskTick true NETCONN_TASK_INTERVALS fourthFailure
        ⟨3, 505500, 0⟩ = some o4 ∧
      o4.pinged = true ∧ 1 ≤ o4.initAttempts ∧ o4.state.netConnTaskIntervalIdx = 0 :=
  watchdog_escalation true ⟨0, 0, 0⟩ ⟨300000, 305000, false, [true], 0⟩
    ⟨400000, 405000, false, [true], 0⟩ ⟨500000, 505000, false, [true], 0⟩ fourthFailure
    rfl rfl rfl rfl rfl (by decide) (by decide) (by decide) (by decide) (by decide)

/-- The claim of C13 fails on three failed pings from index 0: the third
failure leaves the index at 3 and makes no call of `netInitNetwork()`, on
either build; the re-initialisation runs at the fourth. -/
theorem watchdog_escalation_counterexample :
    (watchdogRun true NETCONN_TASK_INTERVALS threeFailures ⟨0, 0, 0⟩).map
        (List.map (fun o => (o.state.netConnTaskIntervalIdx, o.pinged, o.initAttempts)))
      = some [(1, true, 0), (2, true, 0), (3, true, 0)] ∧
    (watchdogRun false NETCONN_TASK_INTERVALS threeFailures ⟨0, 0, 0⟩).map
        (List.map (fun o => (o.state.netConnTaskIntervalIdx, o.pinged, o.initAttempts)))
      = some [(1, true, 0), (2, true, 0), (3, true, 0)] ∧
    (_tpNetworkConnectivityTaskTick true NETCONN_TASK_INTERVALS fourthFailure
        ⟨3, 505500, 0⟩).map
        (fun o => (o.state.netConnTaskIntervalIdx, o.pinged, o.initAttempts))
      = some (0, true, 2) := by
  decide

/-- C21 (re-initialisation loop, retry bound): the loop of `tpInit`, and that
of the watchdog on a build without `ESP32`, do not stop at
`TP_NETWORK_INIT_MAX_RETRY`: after six failed calls of `netInitNetwork()` and
a success they have made seven calls and raised nothing, and while the calls
keep failing they never end. Only the watchdog loop on an `ESP32` build stops,
at the fifth failure, in `ESP.restart()`. -/
theorem init_loop_unbounded :
    tpInit [false, false, false, false, false, false, true] = some ⟨6, 7, false, []⟩ ∧
    (∀ k, tpInit (List.replicate k false) = none) ∧
    (_tpNetworkConnectivityTaskTick false NETCONN_TASK_INTERVALS
        ⟨600000, 605000, false, [false, false, false, false, false, false, true], 0⟩
        ⟨3, 505500, 0⟩).map (fun o => (o.initAttempts, o.restarted)) = some (7, false) ∧
    (_tpNetworkConnectivityTaskTick true NETCONN_TASK_INTERVALS
        ⟨600000, 605000, false, [false, false, false, false, false, false, true], 0⟩
        ⟨3, 505500, 0⟩).map (fun o => (o.initAttempts, o.restarted)) = some (5, true) :=
  ⟨by decide, fun k => initLoop_all_fail k 0 0, by decide, by decide⟩

/-! ## Outgoing requests: tokens and renewal timestamps -/

/-- C14 (tokens of the non-observe sends, as the code has it): none of the six
operations generates a token. Each hands exactly one message to the network,
carrying the next message ID and the token its slot held before the call, and
leaves the thing, all eight token slots included, as it was. -/
theorem send_uses_stored_token (net : Nat → Bool) (thing : thing_info_t) (e : Engine) :
    (∀ json, (tpSendTelemetry net thing json e).2.1 = thing ∧
      ∃ m, (tpSendTelemetry net thing json e).2.2.sent = e.sent ++ [m] ∧
        m.token = thing.telemetrySendToken.take TP_COAP_TOKEN_LEN ∧
        m.messageId = (netGetNextCoAPMessageId e.coapMessageId).1) ∧
    (∀ l, (tpSendClientAttributesReadRequest net thing l e).2.1 = thing ∧
      ∃ m, (tpSendClientAttributesReadRequest net thing l e).2.2.sent = e.sent ++ [m] ∧
        m.token = thing.clientAttrReadToken.take TP_COAP_TOKEN_LEN ∧
        m.messageId = (netGetNextCoAPMessageId e.coapMessageId).1) ∧
    (∀ json, (tpSendClientAttributesWriteRequest net thing json e).2.1 = thing ∧
      ∃ m, (tpSendClientAttributesWriteRequest net thing json e).2.2.sent = e.sent ++ [m] ∧
        m.token = thing.clientAttrWriteToken.take TP_COAP_TOKEN_LEN ∧
        m.messageId = (netGetNextCoAPMessageId e.coapMessageId).1) ∧
    (∀ l, (tpSendSharedAttributesReadRequest net thing l e).2.1 = thing ∧
      ∃ m, (tpSendSharedAttributesReadRequest net thing l e).2.2.sent = e.sent ++ [m] ∧
        m.token = thing.sharedAttrReadToken.take TP_COAP_TOKEN_LEN ∧
        m.messageId = (netGetNextCoAPMessageId e.coapMessageId).1) ∧
    (∀ method params, (tpSendOutgoingRpcRequest net thing method params e).2.1 = thing ∧
      ∃ m, (tpSendOutgoingRpcRequest net thing method params e).2.2.sent = e.sent ++ [m] ∧
        m.token = thing.outgoingRpcRequestToken.take TP_COAP_TOKEN_LEN ∧
        m.messageId = (netGetNextCoAPMessageId e.coapMessageId).1) ∧
    (∀ rpcId method rsp,
      (tpSendIncomingRpcResponse net thing rpcId method rsp e).2.1 = thing ∧
      ∃ m, (tpSendIncomingRpcResponse net thing rpcId method rsp e).2.2.sent = e.sent ++ [m] ∧
        m.token = thing.incomingRpcResponseToken.take TP_COAP_TOKEN_LEN ∧
        m.messageId = (netGetNextCoAPMessageId e.coapMessageId).1) :=
  ⟨fun _ => ⟨rfl, _, rfl, rfl, rfl⟩, fun _ => ⟨rfl, _, rfl, rfl, rfl⟩,
    fun _ => ⟨rfl, _, rfl, rfl, rfl⟩, fun _ => ⟨rfl, _, rfl, rfl, rfl⟩,
    fun _ _ => ⟨rfl, _, rfl, rfl, rfl⟩, fun _ _ _ => ⟨rfl, _, rfl, rfl, rfl⟩⟩

set_option maxRecDepth 100000 in
/-- The claim of C14 fails on the demo thing: `tpSendTelemetry` sends the
token `0B 5E 2F 01` that the telemetry slot held before the call, and the
slot holds the same bytes after it; likewise `tpSendIncomingRpcResponse` with
`0B 5E 2F 08`. -/
theorem send_uses_stored_token_counterexample :
    theThing.telemetrySendToken = [0x0B, 0x5E, 0x2F, 0x01] ∧
    ((tpSendTelemetry (fun _ => true) theThing "\x7b\"x\":1\x7d" ⟨0, []⟩).2.2.sent.map
      (fun m => m.token)) = [[0x0B, 0x5E, 0x2F, 0x01]] ∧
    (tpSendTelemetry (fun _ => true) theThing "\x7b\"x\":1\x7d" ⟨0, []⟩).2.1.telemetrySendToken
      = [0x0B, 0x5E, 0x2F, 0x01] ∧
    ((tpSendIncomingRpcResponse (fun _ => true) theThing 7 "m" "1" ⟨0, []⟩).2.2.sent.map
      (fun m => m.token)) = [[0x0B, 0x5E, 0x2F, 0x08]] ∧
    (tpSendIncomingRpcResponse (fun _ => true) theThing 7 "m" "1"
      ⟨0, []⟩).2.1.incomingRpcResponseToken = [0x0B, 0x5E, 0x2F, 0x08] := by
  decide

theorem random_range (raw : Nat) : 500 ≤ random raw 500 5000 ∧ random raw 500 5000 < 5000 := by
  unfold random
  rw [if_neg (by decide)]
  have : raw % (5000 - 500) < 5000 - 500 := Nat.mod_lt _ (by decide)
  omega

theorem sharedObserve_thing (net : Nat → Bool) (t raw : Nat) (thing : thing_info_t)
    (e : Engine) :
    (tpSendSharedAttributesObserveRequest net t raw thing e).2.1 =
      { thing with lastSharedAttrObserveMillis := millis (t + random raw 500 5000) } := by
  have hm : (millis t + random raw 500 5000) % 2 ^ 32 = millis (t + random raw 500 5000) := by
    unfold millis
    omega
  unfold tpSendSharedAttributesObserveRequest
  simp only [hm]

theorem rpcObserve_thing (net : Nat → Bool) (t raw : Nat) (thing : thing_info_t)
    (e : Engine) :
    (tpSendIncomingRpcObserveRequest net t raw thing e).2.1 =
      { thing with lastIncomingRpcRequestObserveMillis := millis (t + random raw 500 5000) } := by
  have hm : (millis t + random raw 500 5000) % 2 ^ 32 = millis (t + random raw 500 5000) := by
    unfold millis
    omega
  unfold tpSendIncomingRpcObserveRequest
  simp only [hm]

theorem sharedObserve_sent (net : Nat → Bool) (t raw : Nat) (thing : thing_info_t)
    (e : Engine) :
    (tpSendSharedAttributesObserveRequest net t raw thing e).2.2.sent = e.sent ++
      [⟨.COAP_CONFIRMABLE, COAP_GET, (netGetNextCoAPMessageId e.coapMessageId).1,
        thing.sharedAttrObserveToken.take TP_COAP_TOKEN_LEN,
        apiPrefix ++ "/" ++ thing.thingToken ++ "/attributes", true, none⟩] := rfl

theorem rpcObserve_sent (net : Nat → Bool) (t raw : Nat) (thing : thing_info_t)
    (e : Engine) :
    (tpSendIncomingRpcObserveRequest net t raw thing e).2.2.sent = e.sent ++
      [⟨.COAP_CONFIRMABLE, COAP_GET, (netGetNextCoAPMessageId e.coapMessageId).1,
        thing.incomingRpcRequestObserveToken.take TP_COAP_TOKEN_LEN,
        apiPrefix ++ "/" ++ thing.thingToken ++ "/rpc", true, none⟩] := rfl

/-- C15 (observe requests): `tpSendSharedAttributesObserveRequest` and
`tpSendIncomingRpcObserveRequest` send one request carrying the thing's own
observe token, flagged observe; after the call all eight token slots, both
renewal intervals and the other subscription's timestamp are unchanged, and
the subscription's timestamp is the clock at the call plus the jitter `j`
drawn by `random(500, 5000)`, with `500 <= j <= 5000`. -/
theorem observe_request_frame (net : Nat → Bool) (t raw : Nat) (thing : thing_info_t)
    (e : Engine) :
    (500 ≤ random raw 500 5000 ∧ random raw 500 5000 ≤ 5000) ∧
    ((tpSendSharedAttributesObserveRequest net t raw thing e).2.1 =
        { thing with lastSharedAttrObserveMillis := millis (t + random raw 500 5000) } ∧
      ∃ m, (tpSendSharedAttributesObserveRequest net t raw thing e).2.2.sent = e.sent ++ [m] ∧
        m.token = thing.sharedAttrObserveToken.take TP_COAP_TOKEN_LEN ∧ m.observe = true) ∧
    ((tpSendIncomingRpcObserveRequest net t raw thing e).2.1 =
        { thing with lastIncomingRpcRequestObserveMillis := millis (t + random raw 500 5000) } ∧
      ∃ m, (tpSendIncomingRpcObserveRequest net t raw thing e).2.2.sent = e.sent ++ [m] ∧
        m.token = thing.incomingRpcRequestObserveToken.take TP_COAP_TOKEN_LEN ∧
        m.observe = true) ∧
    SameSlots (tpSendSharedAttributesObserveRequest net t raw thing e).2.1 thing ∧
    SameSlots (tpSendIncomingRpcObserveRequest net t raw thing e).2.1 thing ∧
    (tpSendSharedAttributesObserveRequest net t raw thing
        e).2.1.lastIncomingRpcRequestObserveMillis = thing.lastIncomingRpcRequestObserveMillis ∧
    (tpSendIncomingRpcObserveRequest net t raw thing e).2.1.lastSharedAttrObserveMillis
      = thing.lastSharedAttrObserveMillis := by
  obtain ⟨hj1, hj2⟩ := random_range raw
  rw [sharedObserve_thing, rpcObserve_thing, sharedObserve_sent, rpcObserve_sent]
  refine ⟨⟨hj1, Nat.le_of_lt hj2⟩, ⟨rfl, _, rfl, rfl, rfl⟩, ⟨rfl, _, rfl, rfl, rfl⟩,
    ?_, ?_, rfl, rfl⟩
  · unfold SameSlots
    exact ⟨rfl, rfl, rfl, rfl, rfl, rfl, rfl, rfl, rfl, rfl⟩
  · unfold SameSlots
    exact ⟨rfl, rfl, rfl, rfl, rfl, rfl, rfl, rfl, rfl, rfl⟩

/-! ## Incoming RPC: the built-in ping, the automatic response, the sink -/

theorem sendResponse_eq (net : Nat → Bool) (printTo : Nat → String → String)
    (thingList : List thing_info_t) (thing : thing_info_t) (res : CommandResponse)
    (body : String) (e : Engine)
    (hthing : tpGetThingInfoById thingList TP_THING_ID = some thing) :
    res._sendResponse net printTo thingList body e =
      some ({ res with _called := true },
        afterResponse printTo thing res._cmdId res._cmdName res._statusCode body e) := by
  unfold CommandResponse._sendResponse
  rw [hthing]
  rfl

theorem runOps_silent (net : Nat → Bool) (printTo : Nat → String → String)
    (thingList : List thing_info_t) :
    ∀ (ops : List ResOp) (res : CommandResponse) (e : Engine), issuesResponse ops = false →
      ∃ res1, runOps net printTo thingList ops res e = some (res1, e) ∧
        res1._called = res._called ∧ res1._cmdId = res._cmdId ∧ res1._cmdName = res._cmdName := by
  intro ops
  induction ops with
  | nil => intro res e _; exact ⟨res, rfl, rfl, rfl, rfl⟩
  | cons op ops ih =>
    intro res e h
    cases op with
    | status code =>
      obtain ⟨res1, h1, h2, h3, h4⟩ := ih (res.status code) e h
      exact ⟨res1, h1, h2, h3, h4⟩
    | send body => cases h

theorem runOps_called (net : Nat → Bool) (printTo : Nat → String → String)
    (thingList : List thing_info_t) :
    ∀ (ops : List ResOp) (res res1 : CommandResponse) (e e1 : Engine),
      (issuesResponse ops = true ∨ res._called = true) →
      runOps net printTo thingList ops res e = some (res1, e1) → res1._called = true := by
  intro ops
  induction ops with
  | nil =>
    intro res res1 e e1 h hr
    simp only [runOps, Option.some.injEq, Prod.mk.injEq] at hr
    rcases h with h | h
    · cases h
    · rw [← hr.1]; exact h
  | cons op ops ih =>
    intro res res1 e e1 h hr
    cases op with
    | status code =>
      refine ih (res.status code) res1 e e1 ?_ hr
      rcases h with h | h
      · exact Or.inl h
      · exact Or.inr h
    | send body =>
      rw [runOps] at hr
      cases hs : res._sendResponse net printTo thingList body e with
      | none => rw [hs] at hr; cases hr
      | some x =>
        obtain ⟨res2, e2⟩ := x
        rw [hs] at hr
        refine ih res2 res1 e2 e1 (Or.inr ?_) hr
        unfold CommandResponse._sendResponse at hs
        split at hs
        · cases hs
        · simp only [Option.some.injEq, Prod.mk.injEq] at hs
          rw [← hs.1]

theorem runOps_returns (net : Nat → Bool) (printTo : Nat → String → String)
    (thingList : List thing_info_t) (thing : thing_info_t)
    (hthing : tpGetThingInfoById thingList TP_THING_ID = some thing) :
    ∀ (ops : List ResOp) (res : CommandResponse) (e : Engine),
      ∃ r, runOps net printTo thingList ops res e = some r := by
  intro ops
  induction ops with
  | nil => intro res e; exact ⟨_, rfl⟩
  | cons op ops ih =>
    intro res e
    cases op with
    | status code => exact ih (res.status code) e
    | send body =>
      rw [runOps, sendResponse_eq net printTo thingList thing res body e hthing]
      exact ih _ _

/-- C16 (built-in ping): for every incoming RPC request whose method is
`ping`, whatever its id and params and whatever the application hook is,
`processIncomingRpc` sends exactly one RPC response, with status 200 and body
`pong`, addressed to the request's id; the result is the same as with no
hook at all, so the hook is not invoked. -/
theorem ping_short_circuit {P : Type} (net : Nat → Bool) (printTo : Nat → String → String)
    (hook : Option (String → P → List ResOp)) (thingList : List thing_info_t)
    (thing : thing_info_t) (rpc : RpcRequest P) (e : Engine)
    (hthing : tpGetThingInfoById thingList TP_THING_ID = some thing)
    (hping : rpc.method = some "ping") :
    processIncomingRpc net printTo hook thingList rpc e =
      some (afterResponse printTo thing rpc.id "ping" 200 "pong" e) ∧
    processIncomingRpc net printTo hook thingList rpc e =
      processIncomingRpc net printTo none thingList rpc e := by
  have h : ∀ hk : Option (String → P → List ResOp),
      processIncomingRpc net printTo hk thingList rpc e =
        some (afterResponse printTo thing rpc.id "ping" 200 "pong" e) := by
    intro hk
    unfold processIncomingRpc
    rw [hping]
    simp only [if_true]
    rw [sendResponse_eq net printTo thingList thing _ _ e hthing]
    rfl
  exact ⟨h hook, by rw [h hook, h none]⟩

theorem ping_short_circuit_witness :
    processIncomingRpc (fun _ => true) printPlain
        (some (fun _ (_ : Nat) => [ResOp.status 500, ResOp.send "from the application"]))
        [theThing] ⟨42, some "ping", 0⟩ ⟨0, []⟩ =
      some (afterResponse printPlain theThing 42 "ping" 200 "pong" ⟨0, []⟩) ∧
    processIncomingRpc (fun _ => true) printPlain
        (some (fun _ (_ : Nat) => [ResOp.status 500, ResOp.send "from the application"]))
        [theThing] ⟨42, some "ping", 0⟩ ⟨0, []⟩ =
      processIncomingRpc (fun _ => true) printPlain none [theThing] ⟨42, some "ping", 0⟩
        ⟨0, []⟩ :=
  ping_short_circuit (fun _ => true) printPlain _ [theThing] theThing ⟨42, some "ping", 0⟩
    ⟨0, []⟩ (by decide) rfl

/-- C17 (automatic response): for every incoming RPC request with a method
other than `ping`: when the application hook is absent, or runs without
calling `send`, `processIncomingRpc` sends exactly one response, with status
400 and body `unsupported command`, addressed to the request's id; when the
hook did call `send`, the call returns with exactly what the hook sent and no
automatic response is added. -/
theorem unsupported_command_response {P : Type} (net : Nat → Bool)
    (printTo : Nat → String → String) (thingList : List thing_info_t) (thing : thing_info_t)
    (rpc : RpcRequest P) (method : String) (e : Engine)
    (hthing : tpGetThingInfoById thingList TP_THING_ID = some thing)
    (hmethod : rpc.method = some method) (hne : method ≠ "ping") :
    processIncomingRpc net printTo none thingList rpc e =
      some (afterResponse printTo thing rpc.id method 400 "unsupported command" e) ∧
    (∀ hook : String → P → List ResOp, issuesResponse (hook method rpc.params) = false →
      processIncomingRpc net printTo (some hook) thingList rpc e =
        some (afterResponse printTo thing rpc.id method 400 "unsupported command" e)) ∧
    (∀ hook : String → P → List ResOp, issuesResponse (hook method rpc.params) = true →
      ∃ r, runOps net printTo thingList (hook method rpc.params)
          (CommandResponse.new rpc.id method) e = some r ∧
        processIncomingRpc net printTo (some hook) thingList rpc e = some r.2) := by
  refine ⟨?_, ?_, ?_⟩
  · unfold processIncomingRpc
    rw [hmethod]
    simp only [if_neg hne]
    have hc : (CommandResponse.new rpc.id method).wasCalled ≠ true :=
      fun h => Bool.noConfusion h
    rw [if_pos hc, sendResponse_eq net printTo thingList thing _ _ e hthing]
    rfl
  · intro hook hsilent
    obtain ⟨res1, h1, h2, h3, h4⟩ := runOps_silent net printTo thingList
      (hook method rpc.params) (CommandResponse.new rpc.id method) e hsilent
    unfold processIncomingRpc
    rw [hmethod]
    simp only [if_neg hne, h1]
    have hc : res1.wasCalled ≠ true := by
      show res1._called ≠ true
      rw [h2]
      exact fun h => Bool.noConfusion h
    rw [if_pos hc, sendResponse_eq net printTo thingList thing _ _ e hthing]
    show some (afterResponse printTo thing res1._cmdId res1._cmdName (400 % 65536) _ e) = _
    rw [h3, h4]
    rfl
  · intro hook hsent
    obtain ⟨r, hr⟩ := runOps_returns net printTo thingList thing hthing
      (hook method rpc.params) (CommandResponse.new rpc.id method) e
    refine ⟨r, hr, ?_⟩
    have hc : r.1._called = true :=
      runOps_called net printTo thingList _ _ r.1 e r.2 (Or.inl hsent) hr
    unfold processIncomingRpc
    rw [hmethod]
    simp only [if_neg hne, hr]
    rw [if_neg (by show ¬ (r.1._called ≠ true); rw [hc]; decide)]

set_option maxRecDepth 100000 in
theorem unsupported_command_response_witness :
    processIncomingRpc (fun _ => true) printPlain none [theThing] ⟨7, some "reboot", 0⟩
        ⟨0, []⟩ =
      some (afterResponse printPlain theThing 7 "reboot" 400 "unsupported command" ⟨0, []⟩) ∧
    processIncomingRpc (fun _ => true) printPlain
        (some (fun _ (_ : Nat) => [ResOp.status 200, ResOp.send "done"])) [theThing]
        ⟨7, some "reboot", 0⟩ ⟨0, []⟩ =
      some (afterResponse printPlain theThing 7 "reboot" 200 "done" ⟨0, []⟩) :=
  ⟨(unsupported_command_response (fun _ => true) printPlain [theThing] theThing
      ⟨7, some "reboot", 0⟩ "reboot" ⟨0, []⟩ (by decide) rfl (by decide)).1,
    by decide⟩

/-- C18 (the response sink, as the code has it): `send` is not guarded by
`_called`. On every `CommandResponse`, also one on which `send` has already
been invoked, an invocation of `send` sends one further RPC response message,
with the current status code and the given body, and leaves `_called` set;
the flag only tells `processIncomingRpc` that a response was issued. -/
theorem send_again_sends_again (net : Nat → Bool) (printTo : Nat → String → String)
    (thingList : List thing_info_t) (thing : thing_info_t) (res : CommandResponse)
    (body : String) (e : Engine)
    (hthing : tpGetThingInfoById thingList TP_THING_ID = some thing)
    (hcalled : res._called = true) :
    ∃ res1 e1, res._sendResponse net printTo thingList body e = some (res1, e1) ∧
      res1 = res ∧
      e1.sent = e.sent ++ [rpcResponseMessage printTo thing
        (netGetNextCoAPMessageId e.coapMessageId).1 res._cmdId res._cmdName res._statusCode
        body] := by
  refine ⟨_, _, sendResponse_eq net printTo thingList thing res body e hthing, ?_, rfl⟩
  cases res
  simp only at hcalled
  subst hcalled
  rfl

set_option maxRecDepth 100000 in
theorem send_again_sends_again_witness :
    ∃ res1 e1, (⟨true, 200, 7, "reboot"⟩ : CommandResponse)._sendResponse (fun _ => true)
        printPlain [theThing] "done"
        (afterResponse printPlain theThing 7 "reboot" 200 "done" ⟨0, []⟩) = some (res1, e1) ∧
      res1 = ⟨true, 200, 7, "reboot"⟩ ∧
      e1.sent = (afterResponse printPlain theThing 7 "reboot" 200 "done" ⟨0, []⟩).sent ++
        [rpcResponseMessage printPlain theThing 2 7 "reboot" 200 "done"] :=
  send_again_sends_again (fun _ => true) printPlain [theThing] theThing
    ⟨true, 200, 7, "reboot"⟩ "done"
    (afterResponse printPlain theThing 7 "reboot" 200 "done" ⟨0, []⟩) (by decide) rfl

set_option maxRecDepth 100000 in
/-- The claim of C18 fails on an application that calls `send` twice: two
RPC response messages leave, where a single `send` gives one. -/
theorem send_again_counterexample :
    ((runOps (fun _ => true) printPlain [theThing] [ResOp.send "done", ResOp.send "done"]
        (CommandResponse.new 7 "reboot") ⟨0, []⟩).map (fun r => r.2.sent.length)) = some 2 ∧
    ((runOps (fun _ => true) printPlain [theThing] [ResOp.send "done"]
        (CommandResponse.new 7 "reboot") ⟨0, []⟩).map (fun r => r.2.sent.length)) = some 1 ∧
    (runOps (fun _ => true) printPlain [theThing] [ResOp.send "done", ResOp.send "done"]
        (CommandResponse.new 7 "reboot") ⟨0, []⟩).map (fun r => r.2.sent) ≠
      (runOps (fun _ => true) printPlain [theThing] [ResOp.send "done"]
        (CommandResponse.new 7 "reboot") ⟨0, []⟩).map (fun r => r.2.sent) := by
  decide

/-! ## The receive path: acknowledgement, duplicates, hand-over -/

theorem dispatch_invalid (decode : List Nat → Option CoapHeader) (registered : Bool) (t : Nat)
    (srcAddrStr : List Nat) (srcAddrInt srcPort dstPort : Nat) (udpPayload : List Nat)
    (s : NetState) (h : decode udpPayload = none) :
    _dispatchCoAPMessage decode registered t srcAddrStr srcAddrInt srcPort dstPort udpPayload s
      = s := by
  unfold _dispatchCoAPMessage
  rw [h]

/-- What `_dispatchCoAPMessage` does with a message that validates: the
table is the one the duplicate check leaves, and the log grows by the
acknowledgement, if the message is confirmable, and then by the handler
call, if the message is new, not an empty acknowledgement, and a handler is
set. -/
theorem dispatch_valid (decode : List Nat → Option CoapHeader) (registered : Bool) (t : Nat)
    (srcAddrStr : List Nat) (srcAddrInt srcPort dstPort : Nat) (udpPayload : List Nat)
    (s : NetState) (coap : CoapHeader) (h : decode udpPayload = some coap) :
    _dispatchCoAPMessage decode registered t srcAddrStr srcAddrInt srcPort dstPort udpPayload s
      = ⟨(netIsCoAPMessageIdDuplicate t s.tracking srcAddrInt srcPort coap.messageId).2,
          s.log
          ++ (if coap.type = .COAP_CONFIRMABLE then
                [.send srcAddrStr srcPort (emptyAck coap.messageId)] else [])
          ++ (if (netIsCoAPMessageIdDuplicate t s.tracking srcAddrInt srcPort
                    coap.messageId).1 = false
                ∧ ¬ (coap.type = .COAP_ACKNOWLEDGEMENT ∧ coap.code = COAP_EMPTY)
                ∧ registered = true then
                [.coapHandler srcAddrStr srcPort dstPort udpPayload] else [])⟩ := by
  unfold _dispatchCoAPMessage
  rw [h]
  simp only
  by_cases hc : coap.type = .COAP_CONFIRMABLE
  · have hna : coap.type ≠ .COAP_ACKNOWLEDGEMENT := by rw [hc]; decide
    simp only [hc, if_true, netSendCoAPEmptyAckMessage]
    cases hd : (netIsCoAPMessageIdDuplicate t s.tracking srcAddrInt srcPort coap.messageId).1
    · cases registered <;> simp
    · simp
  · simp only [hc, if_false]
    cases hd : (netIsCoAPMessageIdDuplicate t s.tracking srcAddrInt srcPort coap.messageId).1
    · by_cases ha : coap.type = .COAP_ACKNOWLEDGEMENT <;> by_cases he : coap.code = COAP_EMPTY
        <;> cases registered <;> simp [ha, he]
    · simp

/-- C22 (automatic acknowledgement): for every message that validates and is
confirmable, `_dispatchCoAPMessage` adds to what has been sent exactly one
message, the empty acknowledgement with the message's ID to the message's
source address and port; it is sent whatever the duplicate check answers and
stands before the handler call; when the tuple is a duplicate the table is
the one the check leaves, the acknowledgement is the only action and the
handler is not invoked. -/
theorem confirmable_is_acknowledged (decode : List Nat → Option CoapHeader) (registered : Bool)
    (t : Nat) (srcAddrStr : List Nat) (srcAddrInt srcPort dstPort : Nat)
    (udpPayload : List Nat) (s : NetState) (coap : CoapHeader)
    (hvalid : decode udpPayload = some coap) (hcon : coap.type = .COAP_CONFIRMABLE) :
    (_dispatchCoAPMessage decode registered t srcAddrStr srcAddrInt srcPort dstPort udpPayload
        s).log =
      s.log ++ [.send srcAddrStr srcPort (emptyAck coap.messageId)]
        ++ (if (netIsCoAPMessageIdDuplicate t s.tracking srcAddrInt srcPort
                  coap.messageId).1 = false ∧ registered = true then
              [.coapHandler srcAddrStr srcPort dstPort udpPayload] else []) ∧
    ((netIsCoAPMessageIdDuplicate t s.tracking srcAddrInt srcPort coap.messageId).1 = true →
      _dispatchCoAPMessage decode registered t srcAddrStr srcAddrInt srcPort dstPort udpPayload s
        = ⟨(netIsCoAPMessageIdDuplicate t s.tracking srcAddrInt srcPort coap.messageId).2,
            s.log ++ [.send srcAddrStr srcPort (emptyAck coap.messageId)]⟩) := by
  have hna : ¬ (coap.type = .COAP_ACKNOWLEDGEMENT ∧ coap.code = COAP_EMPTY) := by
    rw [hcon]
    exact fun h => CoapType.noConfusion h.1
  rw [dispatch_valid decode registered t srcAddrStr srcAddrInt srcPort dstPort udpPayload s coap
    hvalid]
  refine ⟨?_, fun hd => ?_⟩
  · show s.log ++ _ ++ _ = _
    rw [if_pos hcon]
    by_cases hc : (netIsCoAPMessageIdDuplicate t s.tracking srcAddrInt srcPort
        coap.messageId).1 = false ∧ registered = true
    · rw [if_pos hc, if_pos ⟨hc.1, hna, hc.2⟩]
    · rw [if_neg hc, if_neg (fun h => hc ⟨h.1, h.2.2⟩)]
  · rw [if_pos hcon, if_neg (fun h => by rw [hd] at h; exact Bool.noConfusion h.1),
      List.append_nil]

set_option maxRecDepth 100000 in
theorem confirmable_is_acknowledged_witness :
    (_dispatchCoAPMessage headerOf true 1000 platformAddr 0 5683 NET_DEFAULT_SOCKET_LOCAL_PORT
        conMessage ⟨freshTable3, []⟩).log =
      [] ++ [.send platformAddr 5683 (emptyAck 0x1234)]
        ++ (if (netIsCoAPMessageIdDuplicate 1000 freshTable3 0 5683 0x1234).1 = false
              ∧ true = true then
              [.coapHandler platformAddr 5683 NET_DEFAULT_SOCKET_LOCAL_PORT conMessage]
            else []) ∧
    ((netIsCoAPMessageIdDuplicate 1000 freshTable3 0 5683 0x1234).1 = true →
      _dispatchCoAPMessage headerOf true 1000 platformAddr 0 5683 NET_DEFAULT_SOCKET_LOCAL_PORT
        conMessage ⟨freshTable3, []⟩
        = ⟨(netIsCoAPMessageIdDuplicate 1000 freshTable3 0 5683 0x1234).2,
            [] ++ [.send platformAddr 5683 (emptyAck 0x1234)]⟩) :=
  confirmable_is_acknowledged headerOf true 1000 platformAddr 0 5683
    NET_DEFAULT_SOCKET_LOCAL_PORT conMessage ⟨freshTable3, []⟩ ⟨.COAP_CONFIRMABLE, 0x45, 0x1234⟩
    (by decide) rfl

/-- C23 (hand-over to the upper layer): with a handler registered,
`_dispatchCoAPMessage` calls the CoAP handler for a received message exactly
when the message validates, its tuple is not reported duplicate and it is not
an empty acknowledgement, and then calls it once, after everything else; a
message that does not validate leaves the state as it was: nothing is sent,
the duplicate table is unchanged, no handler runs. -/
theorem handler_invoked_iff (decode : List Nat → Option CoapHeader) (t : Nat)
    (srcAddrStr : List Nat) (srcAddrInt srcPort dstPort : Nat) (udpPayload : List Nat)
    (s : NetState) :
    (decode udpPayload = none →
      _dispatchCoAPMessage decode true t srcAddrStr srcAddrInt srcPort dstPort udpPayload s = s) ∧
    (∀ coap, decode udpPayload = some coap →
      ∃ acks, (∀ a ∈ acks, ∃ m, a = NetAction.send srcAddrStr srcPort m) ∧
        ((netIsCoAPMessageIdDuplicate t s.tracking srcAddrInt srcPort coap.messageId).1 = false
            ∧ ¬ (coap.type = .COAP_ACKNOWLEDGEMENT ∧ coap.code = COAP_EMPTY) →
          (_dispatchCoAPMessage decode true t srcAddrStr srcAddrInt srcPort dstPort udpPayload
              s).log =
            s.log ++ acks ++ [.coapHandler srcAddrStr srcPort dstPort udpPayload]) ∧
        (¬ ((netIsCoAPMessageIdDuplicate t s.tracking srcAddrInt srcPort coap.messageId).1
              = false
            ∧ ¬ (coap.type = .COAP_ACKNOWLEDGEMENT ∧ coap.code = COAP_EMPTY)) →
          (_dispatchCoAPMessage decode true t srcAddrStr srcAddrInt srcPort dstPort udpPayload
              s).log = s.log ++ acks)) := by
  refine ⟨dispatch_invalid decode true t srcAddrStr srcAddrInt srcPort dstPort udpPayload s,
    fun coap hvalid => ?_⟩
  rw [dispatch_valid decode true t srcAddrStr srcAddrInt srcPort dstPort udpPayload s coap hvalid]
  refine ⟨if coap.type = .COAP_CONFIRMABLE then
      [.send srcAddrStr srcPort (emptyAck coap.messageId)] else [], ?_, ?_, ?_⟩
  · intro a ha
    split at ha
    · exact ⟨_, List.mem_singleton.mp ha⟩
    · cases ha
  · intro hc
    have hp : (netIsCoAPMessageIdDuplicate t s.tracking srcAddrInt srcPort coap.messageId).1
        = false ∧ ¬ (coap.type = .COAP_ACKNOWLEDGEMENT ∧ coap.code = COAP_EMPTY)
        ∧ true = true := ⟨hc.1, hc.2, rfl⟩
    show s.log ++ _ ++ _ = _
    rw [if_pos hp]
  · intro hc
    have hn : ¬ ((netIsCoAPMessageIdDuplicate t s.tracking srcAddrInt srcPort coap.messageId).1
        = false ∧ ¬ (coap.type = .COAP_ACKNOWLEDGEMENT ∧ coap.code = COAP_EMPTY)
        ∧ true = true) := fun h => hc ⟨h.1, h.2.1⟩
    show s.log ++ _ ++ _ = _
    rw [if_neg hn, List.append_nil]

set_option maxRecDepth 100000 in
theorem handler_invoked_iff_witness :
    _dispatchCoAPMessage headerOf true 1000 platformAddr 0 5683 NET_DEFAULT_SOCKET_LOCAL_PORT
        [0x44, 0x45] ⟨freshTable3, []⟩ = ⟨freshTable3, []⟩ ∧
    (_dispatchCoAPMessage headerOf true 1000 platformAddr 0 5683 NET_DEFAULT_SOCKET_LOCAL_PORT
        conMessage ⟨freshTable3, []⟩).log =
      [.send platformAddr 5683 (emptyAck 0x1234),
        .coapHandler platformAddr 5683 NET_DEFAULT_SOCKET_LOCAL_PORT conMessage] ∧
    (_dispatchCoAPMessage headerOf true 1000 platformAddr 0 5683 NET_DEFAULT_SOCKET_LOCAL_PORT
        [0x60, 0x00, 0x00, 0x07] ⟨freshTable3, []⟩).log = [] :=
  ⟨(handler_invoked_iff headerOf 1000 platformAddr 0 5683 NET_DEFAULT_SOCKET_LOCAL_PORT
      [0x44, 0x45] ⟨freshTable3, []⟩).1 (by decide), by decide, by decide⟩

theorem splitDatagram_spec (udpPayload : List Nat) :
    (udpPayload.length > 4 ∧ udpPayload.getD 1 0 = COAP_EMPTY →
      splitDatagram udpPayload = [udpPayload.take 4, udpPayload.drop 4] ∧
      (udpPayload.take 4).length = 4 ∧ (udpPayload.drop 4).length = udpPayload.length - 4 ∧
      udpPayload.take 4 ++ udpPayload.drop 4 = udpPayload) ∧
    (¬ (udpPayload.length > 4 ∧ udpPayload.getD 1 0 = COAP_EMPTY) →
      splitDatagram udpPayload = [udpPayload]) := by
  unfold splitDatagram
  refine ⟨fun h => ?_, fun h => ?_⟩
  · rw [if_pos h]
    refine ⟨rfl, ?_, List.length_drop _ _, List.take_append_drop _ _⟩
    rw [List.length_take]
    omega
  · rw [if_neg h]

/-- C24 (double-message workaround): for every received datagram the receive
path hands the packet to the UDP handler, if one is set, and then processes
as CoAP messages, in order, exactly the parts `splitDatagram` gives: for a
datagram of length `n > 4` whose second byte is the empty code, bytes `0..3`
and then bytes `4..n-1`, each once; for every other datagram the datagram
itself, once. -/
theorem double_message_workaround (decode : List Nat → Option CoapHeader)
    (udpRegistered registered : Bool) (t1 t2 : Nat) (data : udp_rx_data_t)
    (udpPayload : List Nat) (s : NetState) :
    _handleModemIncomingUDPData decode udpRegistered registered t1 t2 data udpPayload s =
      dispatchAll decode registered data.remoteAddrStrVal data.remoteAddrIntVal data.remotePort
        NET_DEFAULT_SOCKET_LOCAL_PORT (List.zip [t1, t2] (splitDatagram udpPayload))
        (_dispatchUDPPacket udpRegistered data.remoteAddrStrVal data.remotePort
          NET_DEFAULT_SOCKET_LOCAL_PORT udpPayload s) ∧
    (udpPayload.length > 4 ∧ udpPayload.getD 1 0 = COAP_EMPTY →
      splitDatagram udpPayload = [udpPayload.take 4, udpPayload.drop 4] ∧
      (udpPayload.take 4).length = 4 ∧ (udpPayload.drop 4).length = udpPayload.length - 4 ∧
      udpPayload.take 4 ++ udpPayload.drop 4 = udpPayload) ∧
    (¬ (udpPayload.length > 4 ∧ udpPayload.getD 1 0 = COAP_EMPTY) →
      splitDatagram udpPayload = [udpPayload]) := by
  refine ⟨?_, splitDatagram_spec udpPayload⟩
  unfold _handleModemIncomingUDPData splitDatagram
  by_cases h : udpPayload.length > 4 ∧ udpPayload.getD 1 0 = COAP_EMPTY
  · simp only [if_pos h]
    rfl
  · simp only [if_neg h]
    rfl

set_option maxRecDepth 100000 in
theorem double_message_workaround_witness :
    splitDatagram doubleDatagram = [[0x60, 0x00, 0x00, 0x07], conMessage] ∧
    (_handleModemIncomingUDPData headerOf false true 1000 1100
        ⟨0, 14, 0, platformAddr, 5683⟩ doubleDatagram ⟨freshTable3, []⟩).log =
      [.send platformAddr 5683 (emptyAck 0x1234),
        .coapHandler platformAddr 5683 NET_DEFAULT_SOCKET_LOCAL_PORT conMessage] ∧
    splitDatagram conMessage = [conMessage] :=
  ⟨((double_message_workaround headerOf false true 1000 1100 ⟨0, 14, 0, platformAddr, 5683⟩
      doubleDatagram ⟨freshTable3, []⟩).2.1 (by decide)).1, by decide,
    (double_message_workaround headerOf false true 1000 1100 ⟨0, 14, 0, platformAddr, 5683⟩
      conMessage ⟨freshTable3, []⟩).2.2 (by decide)⟩

/-! ## The subscription task -/

theorem renewDue_iff (now interval last : Nat) :
    renewDue now interval last = true ↔ Due now interval last := by
  unfold renewDue Due
  simp only [Bool.and_eq_true, Bool.or_eq_true, decide_eq_true_eq, beq_iff_eq, ge_iff_le]
  constructor
  · rintro ⟨h1, h2 | h2⟩
    · exact ⟨h1, Or.inr h2⟩
    · exact ⟨h1, Or.inl h2⟩
  · rintro ⟨h1, h2 | h2⟩
    · exact ⟨h1, Or.inr h2⟩
    · exact ⟨h1, Or.inl h2⟩

/-- The three cases of one `_tpObservationTaskTick` for the thing under the
cursor, with what is sent and where the cursor goes in each. -/
theorem observation_tick_cases (net : Nat → Bool) (t raw : Nat) (s : TpState) (thing : thing_info_t)
    (hthing : s.thingList.get? s.i = some thing) :
    ∃ s1, _tpObservationTaskTick net t raw s = some s1 ∧
      (Due (millis t) thing.sharedAttrObserveRenewInterval thing.lastSharedAttrObserveMillis →
        s1.engine.sent = s.engine.sent ++
          [sharedObserveMessage thing (netGetNextCoAPMessageId s.engine.coapMessageId).1] ∧
        s1.i = s.i) ∧
      (¬ Due (millis t) thing.sharedAttrObserveRenewInterval thing.lastSharedAttrObserveMillis →
        Due (millis t) thing.incomingRpcRequestObserveRenewInterval
          thing.lastIncomingRpcRequestObserveMillis →
        s1.engine.sent = s.engine.sent ++
          [rpcObserveMessage thing (netGetNextCoAPMessageId s.engine.coapMessageId).1] ∧
        s1.i = s.i) ∧
      (¬ Due (millis t) thing.sharedAttrObserveRenewInterval thing.lastSharedAttrObserveMillis →
        ¬ Due (millis t) thing.incomingRpcRequestObserveRenewInterval
          thing.lastIncomingRpcRequestObserveMillis →
        s1.engine = s.engine ∧ s1.thingList = s.thingList ∧
        s1.i = (s.i + 1) % s.thingList.length) ∧
      (thing.sharedAttrObserveRenewInterval = 0 →
        ¬ Due (millis t) thing.sharedAttrObserveRenewInterval thing.lastSharedAttrObserveMillis) ∧
      (thing.incomingRpcRequestObserveRenewInterval = 0 →
        ¬ Due (millis t) thing.incomingRpcRequestObserveRenewInterval
          thing.lastIncomingRpcRequestObserveMillis) ∧
      s1.thingList.length = s.thingList.length ∧ s1.i < s1.thingList.length := by
  have hi : s.i < s.thingList.length := by
    rcases Nat.lt_or_ge s.i s.thingList.length with h | h
    · exact h
    · rw [List.get?_eq_none.mpr h] at hthing; cases hthing
  have hz1 : thing.sharedAttrObserveRenewInterval = 0 →
      ¬ Due (millis t) thing.sharedAttrObserveRenewInterval thing.lastSharedAttrObserveMillis := by
    intro h0 hd
    have := hd.1
    omega
  have hz2 : thing.incomingRpcRequestObserveRenewInterval = 0 →
      ¬ Due (millis t) thing.incomingRpcRequestObserveRenewInterval
        thing.lastIncomingRpcRequestObserveMillis := by
    intro h0 hd
    have := hd.1
    omega
  unfold _tpObservationTaskTick
  rw [hthing]
  simp only
  by_cases h1 : Due (millis t) thing.sharedAttrObserveRenewInterval
      thing.lastSharedAttrObserveMillis
  · rw [if_pos ((renewDue_iff _ _ _).mpr h1)]
    refine ⟨_, rfl, fun _ => ⟨sharedObserve_sent net t raw thing s.engine, rfl⟩,
      fun h => absurd h1 h, fun h => absurd h1 h, hz1, hz2, ?_, ?_⟩
    · exact List.length_set _ _ _
    · show s.i < (s.thingList.set s.i _).length
      rw [List.length_set]
      exact hi
  · rw [if_neg (fun h => h1 ((renewDue_iff _ _ _).mp h))]
    by_cases h2 : Due (millis t) thing.incomingRpcRequestObserveRenewInterval
        thing.lastIncomingRpcRequestObserveMillis
    · rw [if_pos ((renewDue_iff _ _ _).mpr h2)]
      refine ⟨_, rfl, fun h => absurd h h1,
        fun _ _ => ⟨rpcObserve_sent net t raw thing s.engine, rfl⟩,
        fun _ h => absurd h2 h, hz1, hz2, ?_, ?_⟩
      · exact List.length_set _ _ _
      · show s.i < (s.thingList.set s.i _).length
        rw [List.length_set]
        exact hi
    · rw [if_neg (fun h => h2 ((renewDue_iff _ _ _).mp h))]
      refine ⟨_, rfl, fun h => absurd h h1, fun _ h => absurd h h2,
        fun _ _ => ⟨rfl, rfl, rfl⟩, hz1, hz2, rfl, ?_⟩
      exact Nat.mod_lt _ (Nat.lt_of_le_of_lt (Nat.zero_le _) hi)

/-- C25 (subscription task): in one `_tpObservationTaskTick`, for the thing
under the cursor: if its shared-attribute renewal is due, exactly the
shared-attribute observe request is sent and the cursor stays; otherwise, if
its incoming-RPC renewal is due, exactly the incoming-RPC observe request is
sent and the cursor stays; otherwise nothing is sent and the cursor advances
to `(cursor + 1) mod thingCount`. A renewal with interval 0 is never due, the
thing count does not change and the cursor stays below it. -/
theorem observation_tick (net : Nat → Bool) (t raw : Nat) (s : TpState) (thing : thing_info_t)
    (hthing : s.thingList.get? s.i = some thing) :
    ∃ s1, _tpObservationTaskTick net t raw s = some s1 ∧
      (Due (millis t) thing.sharedAttrObserveRenewInterval thing.lastSharedAttrObserveMillis →
        s1.engine.sent = s.engine.sent ++
          [sharedObserveMessage thing (netGetNextCoAPMessageId s.engine.coapMessageId).1] ∧
        s1.i = s.i) ∧
      (¬ Due (millis t) thing.sharedAttrObserveRenewInterval thing.lastSharedAttrObserveMillis →
        Due (millis t) thing.incomingRpcRequestObserveRenewInterval
          thing.lastIncomingRpcRequestObserveMillis →
        s1.engine.sent = s.engine.sent ++
          [rpcObserveMessage thing (netGetNextCoAPMessageId s.engine.coapMessageId).1] ∧
        s1.i = s.i) ∧
      (¬ Due (millis t) thing.sharedAttrObserveRenewInterval thing.lastSharedAttrObserveMillis →
        ¬ Due (millis t) thing.incomingRpcRequestObserveRenewInterval
          thing.lastIncomingRpcRequestObserveMillis →
        s1.engine = s.engine ∧ s1.thingList = s.thingList ∧
        s1.i = (s.i + 1) % s.thingList.length) ∧
      (thing.sharedAttrObserveRenewInterval = 0 →
        ¬ Due (millis t) thing.sharedAttrObserveRenewInterval thing.lastSharedAttrObserveMillis) ∧
      (thing.incomingRpcRequestObserveRenewInterval = 0 →
        ¬ Due (millis t) thing.incomingRpcRequestObserveRenewInterval
          thing.lastIncomingRpcRequestObserveMillis) ∧
      s1.thingList.length = s.thingList.length ∧ s1.i < s1.thingList.length :=
  observation_tick_cases net t raw s thing hthing

set_option maxRecDepth 100000 in
theorem observation_tick_witness :
    ∃ s1, _tpObservationTaskTick (fun _ => true) 20000 0 ⟨[theThing], 0, ⟨0, []⟩⟩ = some s1 ∧
      (Due (millis 20000) theThing.sharedAttrObserveRenewInterval
          theThing.lastSharedAttrObserveMillis →
        s1.engine.sent = [] ++ [sharedObserveMessage theThing (netGetNextCoAPMessageId 0).1] ∧
        s1.i = 0) ∧
      (¬ Due (millis 20000) theThing.sharedAttrObserveRenewInterval
          theThing.lastSharedAttrObserveMillis →
        Due (millis 20000) theThing.incomingRpcRequestObserveRenewInterval
          theThing.lastIncomingRpcRequestObserveMillis →
        s1.engine.sent = [] ++ [rpcObserveMessage theThing (netGetNextCoAPMessageId 0).1] ∧
        s1.i = 0) ∧
      (¬ Due (millis 20000) theThing.sharedAttrObserveRenewInterval
          theThing.lastSharedAttrObserveMillis →
        ¬ Due (millis 20000) theThing.incomingRpcRequestObserveRenewInterval
          theThing.lastIncomingRpcRequestObserveMillis →
        s1.engine = ⟨0, []⟩ ∧ s1.thingList = [theThing] ∧ s1.i = (0 + 1) % [theThing].length) ∧
      (theThing.sharedAttrObserveRenewInterval = 0 →
        ¬ Due (millis 20000) theThing.sharedAttrObserveRenewInterval
          theThing.lastSharedAttrObserveMillis) ∧
      (theThing.incomingRpcRequestObserveRenewInterval = 0 →
        ¬ Due (millis 20000) theThing.incomingRpcRequestObserveRenewInterval
          theThing.lastIncomingRpcRequestObserveMillis) ∧
      s1.thingList.length = [theThing].length ∧ s1.i < s1.thingList.length :=
  observation_tick (fun _ => true) 20000 0 ⟨[theThing], 0, ⟨0, []⟩⟩ theThing rfl

/-- C30 (observe requests are not atomic on failure): for every thing and
every outcome of the send, both observe functions return the outcome of the
send and leave the subscription's timestamp at the clock of the call plus the
jitter; so after a failed send, a tick that finds the thing under the cursor
while that timestamp (not 0, the mark of a renewal never sent) is less than
the renewal interval away from the clock does not send that request again:
it sends the other subscription's request or nothing. -/
theorem observe_not_atomic (net : Nat → Bool) (t raw : Nat) (thing : thing_info_t)
    (e : Engine) :
    ((tpSendSharedAttributesObserveRequest net t raw thing e).1 = net e.sent.length ∧
      (tpSendSharedAttributesObserveRequest net t raw thing e).2.1.lastSharedAttrObserveMillis
        = millis (t + random raw 500 5000)) ∧
    ((tpSendIncomingRpcObserveRequest net t raw thing e).1 = net e.sent.length ∧
      (tpSendIncomingRpcObserveRequest net t raw thing
          e).2.1.lastIncomingRpcRequestObserveMillis = millis (t + random raw 500 5000)) ∧
    (∀ (net1 : Nat → Bool) (t1 raw1 : Nat) (s : TpState),
      s.thingList.get? s.i = some (tpSendSharedAttributesObserveRequest net t raw thing e).2.1 →
      net e.sent.length = false →
      millis (t + random raw 500 5000) ≠ 0 →
      labsDiff (millis t1) (millis (t + random raw 500 5000))
        < thing.sharedAttrObserveRenewInterval →
      (tpSendSharedAttributesObserveRequest net t raw thing e).1 = false ∧
      ∃ s1, _tpObservationTaskTick net1 t1 raw1 s = some s1 ∧
        (s1.engine.sent = s.engine.sent ++
            [rpcObserveMessage (tpSendSharedAttributesObserveRequest net t raw thing e).2.1
              (netGetNextCoAPMessageId s.engine.coapMessageId).1] ∨
          s1.engine = s.engine)) ∧
    (∀ (net1 : Nat → Bool) (t1 raw1 : Nat) (s : TpState),
      s.thingList.get? s.i = some (tpSendIncomingRpcObserveRequest net t raw thing e).2.1 →
      net e.sent.length = false →
      millis (t + random raw 500 5000) ≠ 0 →
      labsDiff (millis t1) (millis (t + random raw 500 5000))
        < thing.incomingRpcRequestObserveRenewInterval →
      (tpSendIncomingRpcObserveRequest net t raw thing e).1 = false ∧
      ∃ s1, _tpObservationTaskTick net1 t1 raw1 s = some s1 ∧
        (s1.engine.sent = s.engine.sent ++
            [sharedObserveMessage (tpSendIncomingRpcObserveRequest net t raw thing e).2.1
              (netGetNextCoAPMessageId s.engine.coapMessageId).1] ∨
          s1.engine = s.engine)) := by
  refine ⟨⟨rfl, ?_⟩, ⟨rfl, ?_⟩, ?_, ?_⟩
  · rw [sharedObserve_thing]
  · rw [rpcObserve_thing]
  · intro net1 t1 raw1 s hcur hfail hstamp hnot
    refine ⟨hfail, ?_⟩
    obtain ⟨s1, hs1, _, h2, h3, _⟩ := observation_tick_cases net1 t1 raw1 s _ hcur
    rw [sharedObserve_thing] at h2 h3
    have hnd : ¬ Due (millis t1) thing.sharedAttrObserveRenewInterval
        (millis (t + random raw 500 5000)) := by
      rintro ⟨_, h | h⟩
      · exact hstamp h
      · exact absurd hnot (Nat.not_lt.mpr h)
    refine ⟨s1, hs1, ?_⟩
    by_cases hr : Due (millis t1) thing.incomingRpcRequestObserveRenewInterval
        thing.lastIncomingRpcRequestObserveMillis
    · left
      rw [sharedObserve_thing]
      exact (h2 hnd hr).1
    · right
      exact (h3 hnd hr).1
  · intro net1 t1 raw1 s hcur hfail hstamp hnot
    refine ⟨hfail, ?_⟩
    obtain ⟨s1, hs1, h1, h2, h3, _⟩ := observation_tick_cases net1 t1 raw1 s _ hcur
    rw [rpcObserve_thing] at h1 h2 h3
    have hnd : ¬ Due (millis t1) thing.incomingRpcRequestObserveRenewInterval
        (millis (t + random raw 500 5000)) := by
      rintro ⟨_, h | h⟩
      · exact hstamp h
      · exact absurd hnot (Nat.not_lt.mpr h)
    refine ⟨s1, hs1, ?_⟩
    by_cases hsd : Due (millis t1) thing.sharedAttrObserveRenewInterval
        thing.lastSharedAttrObserveMillis
    · left
      rw [rpcObserve_thing]
      exact (h1 hsd).1
    · right
      exact (h3 hsd hnd).1

set_option maxRecDepth 100000 in
theorem observe_not_atomic_witness :
    afterFailedObserve.lastSharedAttrObserveMillis = 20500 ∧
    (tpSendSharedAttributesObserveRequest (fun _ => false) 20000 0 theThing ⟨0, []⟩).1 = false ∧
    ∃ s1, _tpObservationTaskTick (fun _ => true) 21000 0
        ⟨[afterFailedObserve], 0, ⟨1, [sharedObserveMessage theThing 1]⟩⟩ = some s1 ∧
      (s1.engine.sent = [sharedObserveMessage theThing 1] ++
          [rpcObserveMessage afterFailedObserve (netGetNextCoAPMessageId 1).1] ∨
        s1.engine = ⟨1, [sharedObserveMessage theThing 1]⟩) :=
  ⟨by decide,
    (observe_not_atomic (fun _ => false) 20000 0 theThing ⟨0, []⟩).2.2.1 (fun _ => true) 21000 0
      ⟨[afterFailedObserve], 0, ⟨1, [sharedObserveMessage theThing 1]⟩⟩ rfl rfl (by decide)
      (by decide)⟩

/-! ## The received-message-ID table as a ring -/

/-- A miss writes the tuple into the slot at the cursor, after the search has
zeroed the expired entries of the tuple, and advances the cursor by one
modulo the table length. -/
theorem miss_state (t : Nat) (st : MsgTracking) (a p m : Nat)
    (hpos : st.msgTrackingNewEntryPos < st.coapMsgTrackingList.length)
    (hlen : st.coapMsgTrackingList.length < 256)
    (h : (netIsCoAPMessageIdDuplicate t st a p m).1 = false) :
    (netIsCoAPMessageIdDuplicate t st a p m).2 =
      ⟨(st.coapMsgTrackingList.map (clearIfMatch a p m)).set st.msgTrackingNewEntryPos
          ⟨a, p, m, millis t⟩,
        (st.msgTrackingNewEntryPos + 1) % st.coapMsgTrackingList.length⟩ := by
  rw [netIsCoAPMessageIdDuplicate_miss t st a p m h]
  rw [netIsCoAPMessageIdDuplicate_fst] at h
  rw [scanTracking_miss _ _ _ _ _ h]
  have e : (st.msgTrackingNewEntryPos + 1) % 256 = st.msgTrackingNewEntryPos + 1 := by omega
  rw [e]

/-- A hit leaves the cursor where it is and refreshes nothing: every entry
of the table it leaves is an entry of the table before, or a zeroed one. -/
theorem hit_state (t : Nat) (st : MsgTracking) (a p m : Nat)
    (h : (netIsCoAPMessageIdDuplicate t st a p m).1 = true) :
    (netIsCoAPMessageIdDuplicate t st a p m).2.msgTrackingNewEntryPos
      = st.msgTrackingNewEntryPos ∧
    ∀ e ∈ (netIsCoAPMessageIdDuplicate t st a p m).2.coapMsgTrackingList,
      e ∈ st.coapMsgTrackingList ∨ e = ⟨0, 0, 0, 0⟩ := by
  have hs : (scanTracking (millis t) a p m st.coapMsgTrackingList).1 = true := by
    rw [← netIsCoAPMessageIdDuplicate_fst]; exact h
  unfold netIsCoAPMessageIdDuplicate
  simp only [hs, if_true]
  exact ⟨trivial, scanTracking_mem _ _ _ _ _⟩

theorem clearIfMatch_other (a p m : Nat) (e : recv_msg_id_t)
    (h : e.tuple ≠ (a, p, m)) : clearIfMatch a p m e = e := by
  unfold clearIfMatch
  rw [if_neg]
  rintro ⟨h1, h2, h3⟩
  exact h (by unfold recv_msg_id_t.tuple; rw [← h1, ← h2, ← h3])

theorem ringInv_start (st : MsgTracking)
    (hpos : st.msgTrackingNewEntryPos < st.coapMsgTrackingList.length) :
    RingInv [] 0 st := by
  refine ⟨hpos, fun i hi => Or.inl ?_⟩
  refine ⟨(i + st.coapMsgTrackingList.length - st.msgTrackingNewEntryPos)
    % st.coapMsgTrackingList.length, ?_, ?_⟩
  · exact Nat.mod_lt _ (Nat.lt_of_le_of_lt (Nat.zero_le _) hi)
  · rw [Nat.add_mod_mod]
    have e : st.msgTrackingNewEntryPos
        + (i + st.coapMsgTrackingList.length - st.msgTrackingNewEntryPos)
        = i + st.coapMsgTrackingList.length := by omega
    rw [e, Nat.add_mod_right, Nat.mod_eq_of_lt hi]

theorem ringInv_step (U : List (Nat × Nat × Nat)) (k : Nat) (st : MsgTracking) (c : DupCall)
    (hlen : st.coapMsgTrackingList.length < 256)
    (hinv : RingInv U k st) (hU : c.tuple ∉ U)
    (hmiss : (netIsCoAPMessageIdDuplicate c.t st c.address c.port c.messageId).1 = false) :
    RingInv (c.tuple :: U) (k + 1)
        (netIsCoAPMessageIdDuplicate c.t st c.address c.port c.messageId).2 ∧
      (netIsCoAPMessageIdDuplicate c.t st c.address c.port c.messageId).2.coapMsgTrackingList.length
        = st.coapMsgTrackingList.length := by
  obtain ⟨hpos, hall⟩ := hinv
  rw [miss_state c.t st c.address c.port c.messageId hpos hlen hmiss]
  have hl : ((st.coapMsgTrackingList.map (clearIfMatch c.address c.port c.messageId)).set
      st.msgTrackingNewEntryPos ⟨c.address, c.port, c.messageId, millis c.t⟩).length
      = st.coapMsgTrackingList.length := by
    rw [List.length_set, List.length_map]
  refine ⟨⟨?_, ?_⟩, hl⟩
  · show (st.msgTrackingNewEntryPos + 1) % st.coapMsgTrackingList.length < _
    rw [hl]
    exact Nat.mod_lt _ (Nat.lt_of_le_of_lt (Nat.zero_le _) hpos)
  · intro i hi
    rw [hl] at hi
    show (∃ d, d + (k + 1) < _ ∧ i = ((st.msgTrackingNewEntryPos + 1)
        % st.coapMsgTrackingList.length + d) % _) ∨ _
    rw [hl]
    by_cases hip : i = st.msgTrackingNewEntryPos
    · right
      refine ⟨⟨c.address, c.port, c.messageId, millis c.t⟩, ?_, List.mem_cons_self _ _⟩
      show ((st.coapMsgTrackingList.map _).set _ _).get? i = _
      rw [List.get?_eq_getElem?, hip, List.getElem?_set_self (by rw [List.length_map]; exact hpos)]
    · rcases hall i hi with ⟨d, hd, hid⟩ | ⟨e, he, heU⟩
      · left
        have hd0 : d ≠ 0 := by
          rintro rfl
          rw [Nat.add_zero, Nat.mod_eq_of_lt hpos] at hid
          exact hip hid
        refine ⟨d - 1, by omega, ?_⟩
        rw [Nat.mod_add_mod]
        have e : st.msgTrackingNewEntryPos + 1 + (d - 1) = st.msgTrackingNewEntryPos + d := by
          omega
        rw [e]
        exact hid
      · right
        refine ⟨e, ?_, List.mem_cons_of_mem _ heU⟩
        show ((st.coapMsgTrackingList.map _).set _ _).get? i = _
        rw [List.get?_eq_getElem?, List.getElem?_set_ne (fun h => hip h.symm),
          List.getElem?_map, ← List.get?_eq_getElem?, he, Option.map_some',
          clearIfMatch_other _ _ _ e (fun h => hU (by
            have h2 : c.tuple = e.tuple := h.symm
            rw [h2]
            exact heU))]

theorem ringInv_run :
    ∀ (cs : List DupCall) (U : List (Nat × Nat × Nat)) (k : Nat) (st : MsgTracking),
      st.coapMsgTrackingList.length < 256 → RingInv U k st →
      (cs.map DupCall.tuple).Nodup → (∀ c ∈ cs, c.tuple ∉ U) → allMiss st cs →
      ∃ U1, (∀ u ∈ U1, u ∈ U ∨ u ∈ cs.map DupCall.tuple) ∧
        RingInv U1 (k + cs.length) (runCalls st cs) ∧
        (runCalls st cs).coapMsgTrackingList.length = st.coapMsgTrackingList.length := by
  intro cs
  induction cs with
  | nil => intro U k st _ hinv _ _ _; exact ⟨U, fun u hu => Or.inl hu, hinv, rfl⟩
  | cons c cs ih =>
    intro U k st hlen hinv hnd hU hmiss
    obtain ⟨hm1, hm2⟩ := hmiss
    obtain ⟨hinv1, hl1⟩ := ringInv_step U k st c hlen hinv (hU c (List.mem_cons_self _ _)) hm1
    rw [List.map_cons, List.nodup_cons] at hnd
    obtain ⟨U1, hU1, hinv2, hl2⟩ := ih (c.tuple :: U) (k + 1) _ (by rw [hl1]; exact hlen) hinv1
      hnd.2
      (fun c' hc' hmem => by
        rcases List.mem_cons.mp hmem with h | h
        · exact hnd.1 (h ▸ List.mem_map_of_mem _ hc')
        · exact hU c' (List.mem_cons_of_mem _ hc') h)
      hm2
    refine ⟨U1, ?_, ?_, ?_⟩
    · intro u hu
      rcases hU1 u hu with h | h
      · rcases List.mem_cons.mp h with h1 | h1
        · right; rw [h1]; exact List.mem_cons_self _ _
        · left; exact h1
      · right; exact List.mem_cons_of_mem _ h
    · show RingInv U1 (k + (cs.length + 1)) (runCalls _ cs)
      have e : k + (cs.length + 1) = k + 1 + cs.length := by omega
      rw [e]
      exact hinv2
    · show (runCalls _ cs).coapMsgTrackingList.length = _
      rw [hl2, hl1]

/-- C27 (the duplicate window is a ring): every miss writes the tuple into
the slot at the insertion cursor and advances the cursor by one modulo the
table length, keeping it below that length; a hit leaves the cursor and
refreshes no entry; and once as many further distinct tuples as the table has
slots have been recorded after a tuple, a repeat of that tuple at any time,
also inside the expiry window, is reported as not duplicate. -/
theorem ring_overwrite (st : MsgTracking) (a p m t t1 : Nat) (cs : List DupCall)
    (hpos : st.msgTrackingNewEntryPos < st.coapMsgTrackingList.length)
    (hlen : st.coapMsgTrackingList.length < 256)
    (hfirst : (netIsCoAPMessageIdDuplicate t st a p m).1 = false)
    (hcount : cs.length = st.coapMsgTrackingList.length)
    (hnodup : (cs.map DupCall.tuple).Nodup)
    (hne : ∀ c ∈ cs, c.tuple ≠ (a, p, m))
    (hmiss : allMiss (netIsCoAPMessageIdDuplicate t st a p m).2 cs) :
    ((netIsCoAPMessageIdDuplicate t st a p m).2 =
        ⟨(st.coapMsgTrackingList.map (clearIfMatch a p m)).set st.msgTrackingNewEntryPos
            ⟨a, p, m, millis t⟩,
          (st.msgTrackingNewEntryPos + 1) % st.coapMsgTrackingList.length⟩ ∧
      (st.msgTrackingNewEntryPos + 1) % st.coapMsgTrackingList.length
        < st.coapMsgTrackingList.length) ∧
    (∀ (st2 : MsgTracking) (t2 a2 p2 m2 : Nat),
      (netIsCoAPMessageIdDuplicate t2 st2 a2 p2 m2).1 = true →
      (netIsCoAPMessageIdDuplicate t2 st2 a2 p2 m2).2.msgTrackingNewEntryPos
        = st2.msgTrackingNewEntryPos ∧
      ∀ e ∈ (netIsCoAPMessageIdDuplicate t2 st2 a2 p2 m2).2.coapMsgTrackingList,
        e ∈ st2.coapMsgTrackingList ∨ e = ⟨0, 0, 0, 0⟩) ∧
    (netIsCoAPMessageIdDuplicate t1
      (runCalls (netIsCoAPMessageIdDuplicate t st a p m).2 cs) a p m).1 = false := by
  have hst := miss_state t st a p m hpos hlen hfirst
  have hmod : (st.msgTrackingNewEntryPos + 1) % st.coapMsgTrackingList.length
      < st.coapMsgTrackingList.length :=
    Nat.mod_lt _ (Nat.lt_of_le_of_lt (Nat.zero_le _) hpos)
  have hl1 : (netIsCoAPMessageIdDuplicate t st a p m).2.coapMsgTrackingList.length
      = st.coapMsgTrackingList.length := by
    rw [hst]
    show (List.set _ _ _).length = _
    rw [List.length_set, List.length_map]
  have hpos1 : (netIsCoAPMessageIdDuplicate t st a p m).2.msgTrackingNewEntryPos
      < (netIsCoAPMessageIdDuplicate t st a p m).2.coapMsgTrackingList.length := by
    rw [hl1, hst]
    exact hmod
  refine ⟨⟨hst, hmod⟩, fun st2 t2 a2 p2 m2 h => hit_state t2 st2 a2 p2 m2 h, ?_⟩
  obtain ⟨U1, hU1, ⟨_, hall⟩, hl2⟩ := ringInv_run cs [] 0 _ (by rw [hl1]; exact hlen)
    (ringInv_start _ hpos1) hnodup (fun _ _ h => by cases h) hmiss
  rw [netIsCoAPMessageIdDuplicate_fst, scanTracking_all_expired]
  intro e he hmatch
  exfalso
  obtain ⟨i, hi⟩ := List.mem_iff_get?.mp he
  have hil : i < (runCalls (netIsCoAPMessageIdDuplicate t st a p m).2
      cs).coapMsgTrackingList.length := by
    rcases Nat.lt_or_ge i (runCalls (netIsCoAPMessageIdDuplicate t st a p m).2
      cs).coapMsgTrackingList.length with h | h
    · exact h
    · rw [List.get?_eq_none.mpr h] at hi; cases hi
  rcases hall i hil with ⟨d, hd, _⟩ | ⟨e1, he1, hu⟩
  · rw [hl2, hl1, hcount] at hd
    omega
  · rw [hi] at he1
    simp only [Option.some.injEq] at he1
    subst he1
    rcases hU1 _ hu with h | h
    · cases h
    · obtain ⟨c, hc, hce⟩ := List.mem_map.mp h
      refine hne c hc ?_
      rw [hce]
      unfold recv_msg_id_t.tuple
      rw [← hmatch.1, ← hmatch.2.1, ← hmatch.2.2]

theorem ring_overwrite_witness :
    (netIsCoAPMessageIdDuplicate 1400
      (runCalls (netIsCoAPMessageIdDuplicate 1000 freshTable3 0 5683 1).2 threeOthers)
      0 5683 1).1 = false :=
  (ring_overwrite freshTable3 0 5683 1 1000 1400 threeOthers (by decide) (by decide)
    (by decide) (by decide) (by decide) (by decide) (by decide)).2.2

/-- On a freshly initialised table the first call returns `false` for every
tuple other than the all-zero one, at every time. -/
theorem first_call_fresh (n t a p m : Nat) (hnz : ¬ (a = 0 ∧ p = 0 ∧ m = 0)) :
    (netIsCoAPMessageIdDuplicate t ⟨List.replicate n ⟨0, 0, 0, 0⟩, 0⟩ a p m).1 = false := by
  rw [netIsCoAPMessageIdDuplicate_fst, scanTracking_all_expired]
  intro e he hmatch
  rw [List.eq_of_mem_replicate he] at hmatch
  exact absurd hmatch hnz

/-- C29 (first call on the fresh table): the zeroed slots of the freshly
initialised table match the tuple (address 0, port 0, message ID 0) with
timestamp 0, so during the first 30 s of the clock the first call with that
tuple returns `true` and records nothing; from 30 s on, and for any other
tuple at any time, the first call returns `false`. -/
theorem zero_tuple_on_fresh_table :
    netIsCoAPMessageIdDuplicate 1000 freshTable3 0 0 0 = (true, freshTable3) ∧
    (netIsCoAPMessageIdDuplicate 29999 freshTable3 0 0 0).1 = true ∧
    (netIsCoAPMessageIdDuplicate 30000 freshTable3 0 0 0).1 = false ∧
    (netIsCoAPMessageIdDuplicate 1000 freshTable3 0 5683 0).1 = false := by
  decide

/-! ## The integer form of the source address -/

/-- The chunk loop never assigns `remoteAddr.intVal`. -/
theorem receiveLoop_intVal :
    ∀ (fuel : Nat) (chunkBuf dataBuf : List Nat) (rsp : udp_rx_data_t) (ticks : List Tick)
      (r : Received), receiveLoop fuel chunkBuf dataBuf rsp ticks = some r →
      r.rsp.remoteAddrIntVal = rsp.remoteAddrIntVal := by
  intro fuel
  induction fuel with
  | zero => intro _ _ _ _ r h; simp [receiveLoop] at h
  | succ fuel ih =>
    intro chunkBuf dataBuf rsp ticks r h
    rw [receiveLoop] at h
    split at h
    · cases h
    · split at h
      · simp only [Option.some.injEq] at h
        rw [← h]
      · split at h
        · simp only [Option.some.injEq] at h
          rw [← h]
        · simp only at h
          split at h
          · cases h
          · split at h
            · simp only [Option.some.injEq] at h
              rw [← h]
            · split at h
              · exact ih _ _ _ _ r h |>.trans rfl
              · simp only [Option.some.injEq] at h
                rw [← h]

/-- After every call of `receiveUDPDatagram` that returns, `remoteAddr.intVal`
is the 0 of the `memset`. -/
theorem receiveUDPDatagram_intVal (dataBufLen : Nat) (chunkBuf : List Nat) (ticks : List Tick)
    (r : Received) (h : receiveUDPDatagram dataBufLen chunkBuf ticks = some r) :
    r.rsp.remoteAddrIntVal = 0 :=
  receiveLoop_intVal _ _ _ _ _ r h

set_option maxRecDepth 100000 in
/-- C28 (integer source address): a datagram of 4 bytes received from
`52.220.84.189:5683` is returned with the textual address `52.220.84.189` and
`remoteAddr.intVal = 0`, while `ipv4AddressStringToInt` of that text is
`52*2^24 + 220*2^16 + 84*2^8 + 189`; the receive path hands the 0 to the
duplicate check. -/
theorem receive_leaves_intVal_zero :
    (receiveUDPDatagram 512 (List.replicate 96 0) (burst 7 (wireOf [platformChunk]))).map
        (fun r => (r.ret, r.rsp.remoteAddrStrVal, r.rsp.remoteAddrIntVal))
      = some (4, platformAddr, 0) ∧
    ipv4AddressStringToInt platformAddr = 52 * 2 ^ 24 + 220 * 2 ^ 16 + 84 * 2 ^ 8 + 189 ∧
    ipv4AddressStringToInt platformAddr ≠ 0 := by
  decide

end BC95
